import Mathlib

/-!
Code Vault: the client session of the socket server and its collaborators.

A shallow embedding of `source/server/vclientsession.cpp` (class `VClientSession`)
and the properties of its shutdown protocol, its task list and its message queues,
followed by the broadcast counting of `VMessage` (vmessage.h), the handler registry
of `VMessageHandler` (vmessagehandler.h), the listening flag and live-worker list
of `VListenerThread` (vlistenerthread.h), the dispatch log levels, the stream copy
of `VStream` (source/streams/vstream.cpp), and the value and path helpers and the
settings tree of `VSettings` (source/toolbox/vsettings.cpp): named children, and
finding, setting and adding values by path.

Pointers are modelled as `Option` of an object identity (`none` is `NULL`).
Calls the session makes on its collaborators (the server, the worker threads, the
message pool, the logger) are recorded, in program order, as a list of `Event`s.
-/

namespace CodeVault

/-! ## Collaborators -/

/-- Identity of a `VServer` object. -/
abbrev VServer := Nat

/-- Identity of a `VMessagePool` object. -/
abbrev VMessagePool := Nat

/-- Identity of a `VMessageHandlerTask` object. -/
abbrev VMessageHandlerTask := Nat

/-- Identity of a `VMessageInputThread` object (the input worker of a session). -/
abbrev VMessageInputThread := Nat

/-- Identity of a `VMessageOutputThread` object (the output worker of a session). -/
abbrev VMessageOutputThread := Nat

/-- A `VThread*` as passed to `shutdown`: the thread is an input worker, an output
worker, or some other thread.  An input worker and an output worker are objects of
different classes, so the two never are the same object. -/
inductive VThread where
  | input (t : VMessageInputThread)
  | output (t : VMessageOutputThread)
  | other (n : Nat)
  deriving DecidableEq, Repr

/-- The members of `VMessage` (vmessage.h) the session and the pool look at; `addr`
is the object identity of the message. -/
structure VMessage where
  addr : Nat
  mMessageID : Int
  mPool : Option VMessagePool
  mIsBeingBroadcast : Bool
  mNumBroadcastTargets : Int
  deriving DecidableEq, Repr

/-- The accessor `VMessage::getPool`. -/
def VMessage.getPool (m : VMessage) : Option VMessagePool := m.mPool

/-- Modelled from the spec: `VMessageQueue` (its source file is absent), a FIFO queue
of message pointers; the front of the queue is the head of the list. -/
abbrev VMessageQueue := List VMessage

/-- Modelled from the spec: `VMessageQueue::postMessage` appends at the tail. -/
def VMessageQueue.postMessage (q : VMessageQueue) (m : VMessage) : VMessageQueue :=
  q ++ [m]

/-- Modelled from the spec: `VMessageQueue::getNextMessage` removes and returns the
front message, or returns `NULL` (here `none`) when the queue is empty. -/
def VMessageQueue.getNextMessage (q : VMessageQueue) : Option VMessage × VMessageQueue :=
  match q with
  | [] => (none, [])
  | m :: rest => (some m, rest)

/-- What a session does to the world outside its own members. -/
inductive Event where
  /-- The `VLOGGER_INFO` line of `shutdown`, naming the caller. -/
  | logShutdown (callingThread : Option VThread)
  /-- A call of `stop()` on a worker thread. -/
  | stop (t : VThread)
  /-- A call of `mServer->removeClientSession(this)`. -/
  | removeClientSession (server : VServer)
  /-- A call of `this->_selfDestruct()`. -/
  | selfDestruct
  /-- The `VLOGGER_DEBUG` line of `postOutputMessage` on the standby branch. -/
  | logStandby (m : VMessage)
  /-- The `VLOGGER_DEBUG` line of `_moveStandbyMessagesToAsyncOutputQueue`. -/
  | logMove (m : VMessage)
  /-- A call of `VMessagePool::releaseMessage(message, pool)`. -/
  | releaseMessage (m : VMessage) (pool : Option VMessagePool)
  deriving DecidableEq, Repr

/-- Whether the event is a call of `VMessagePool::releaseMessage`. -/
def Event.isRelease : Event → Bool
  | .releaseMessage _ _ => true
  | _ => false

/-- Whether the event is a call of `stop()`. -/
def Event.isStop : Event → Bool
  | .stop _ => true
  | _ => false

/-- Whether the event is a `removeClientSession` call. -/
def Event.isRemove : Event → Bool
  | .removeClientSession _ => true
  | _ => false

/-! ## The session -/

/-- The members of `VClientSession`, together with what the session reads from the
objects it points to: `outputQueue` is the pending queue inside the
`VMessageOutputThread` the session was given (the queue `mOutputThread->postOutputMessage`
appends to; the thread object outlives the session's reference to it), and
`clientOnline` / `clientGoingOffline` are the current answers of the virtual
`isClientOnline()` / `isClientGoingOffline()`. -/
structure VClientSession where
  mServer : Option VServer
  mClientType : String
  mClientIP : String
  mClientPort : Int
  mClientAddress : String
  mInputThread : Option VMessageInputThread
  mOutputThread : Option VMessageOutputThread
  mIsShuttingDown : Bool
  mStartupStandbyQueue : VMessageQueue
  mTasks : List VMessageHandlerTask
  outputQueue : VMessageQueue
  clientOnline : Bool
  clientGoingOffline : Bool
  deriving DecidableEq, Repr

/-- The constructor `VClientSession::VClientSession`: `hostName` and `portNumber` are
what `socket->getHostName` and `socket->getPortNumber` give, and the address is
formatted with `"%s:%d"`.  A new session has no worker yet (so no output queue
content); `online` and `goingOffline` are the answers the subclass gives to
`isClientOnline()` and `isClientGoingOffline()`. -/
def VClientSession.construct (server : Option VServer) (clientType hostName : String)
    (portNumber : Int) (online goingOffline : Bool) : VClientSession :=
  { mServer := server, mClientType := clientType, mClientIP := hostName,
    mClientPort := portNumber,
    mClientAddress := hostName ++ ":" ++ toString portNumber,
    mInputThread := none, mOutputThread := none, mIsShuttingDown := false,
    mStartupStandbyQueue := [], mTasks := [], outputQueue := [],
    clientOnline := online, clientGoingOffline := goingOffline }

/-- Modelled from the spec: `VMessageOutputThread::postOutputMessage` (its source file
is absent) hands the message to the output worker's send queue, a FIFO queue: the
message is appended at the tail of `outputQueue`. -/
def VClientSession.postToOutputThread (s : VClientSession) (m : VMessage) :
    VClientSession :=
  { s with outputQueue := s.outputQueue.postMessage m }

/-- The method `VClientSession::attachTask`: `mTasks.push_back(task)`. -/
def VClientSession.attachTask (s : VClientSession) (task : VMessageHandlerTask) :
    VClientSession :=
  { s with mTasks := s.mTasks ++ [task] }

/-- The method `VClientSession::detachTask`: `std::find` then `erase` of the position
found, which removes the first occurrence (and nothing when there is none). -/
def VClientSession.detachTask (s : VClientSession) (task : VMessageHandlerTask) :
    VClientSession :=
  { s with mTasks := s.mTasks.erase task }

/-- Lines 70-91 of `VClientSession::shutdown`: set the flag, log, then for each of
the two workers either drop the reference (the caller is that worker) or call
`stop()` on it. -/
def VClientSession.shutdownDetach (s : VClientSession) (callingThread : Option VThread) :
    VClientSession × List Event :=
  let s0 : VClientSession := { s with mIsShuttingDown := true }
  let ev0 : List Event := [Event.logShutdown callingThread]
  let r1 : VClientSession × List Event :=
    match s0.mInputThread with
    | none => (s0, ev0)
    | some i =>
      if callingThread = some (VThread.input i) then
        ({ s0 with mInputThread := none }, ev0)
      else
        (s0, ev0 ++ [Event.stop (VThread.input i)])
  match r1.1.mOutputThread with
  | none => r1
  | some o =>
    if callingThread = some (VThread.output o) then
      ({ r1.1 with mOutputThread := none }, r1.2)
    else
      (r1.1, r1.2 ++ [Event.stop (VThread.output o)])

/-- Outcome of one call of `shutdown`: the member values when the call ended (when
`selfDestructed`, the values at the moment `_selfDestruct` was entered), whether the
call ran `_selfDestruct` (after which the object no longer exists), and the calls
made on the collaborators. -/
structure ShutdownResult where
  session : VClientSession
  selfDestructed : Bool
  events : List Event
  deriving DecidableEq, Repr

/-- The method `VClientSession::shutdown`. -/
def VClientSession.shutdown (s : VClientSession) (callingThread : Option VThread) :
    ShutdownResult :=
  let d := s.shutdownDetach callingThread
  if d.1.mInputThread = none ∧ d.1.mOutputThread = none then
    let ev : List Event :=
      match d.1.mServer with
      | some server => d.2 ++ [Event.removeClientSession server]
      | none => d.2
    { session := d.1, selfDestructed := true, events := ev ++ [Event.selfDestruct] }
  else
    { session := d.1, selfDestructed := false, events := d.2 }

/-- Whether each worker the session still refers to occurs among the callers `cs`. -/
def workersCalled (s : VClientSession) (cs : List (Option VThread)) : Bool :=
  (match s.mInputThread with
    | none => true
    | some i => decide (some (VThread.input i) ∈ cs)) &&
  (match s.mOutputThread with
    | none => true
    | some o => decide (some (VThread.output o) ∈ cs))

/-- A sequence of `shutdown` calls on one session, each finishing before the next
starts.  The calls are made on the object, so a call that follows the one that ran
`_selfDestruct` refers to a deleted object: that sequence has no defined outcome
(`none`).  The result carries the events of all the calls in order. -/
def runShutdowns : VClientSession → List (Option VThread) → Option ShutdownResult
  | s, [] => some { session := s, selfDestructed := false, events := [] }
  | s, c :: cs =>
    let r := s.shutdown c
    if r.selfDestructed then
      match cs with
      | [] => some r
      | _ :: _ => none
    else
      (runShutdowns r.session cs).map
        (fun r2 => { r2 with events := r.events ++ r2.events })

/-- The method `VClientSession::postOutputMessage`.  The result is `none` when the
call dereferences a null `mOutputThread`; otherwise it is the returned `posted`, the
session afterwards and the events. -/
def VClientSession.postOutputMessage (s : VClientSession) (message : VMessage)
    (releaseIfNotPosted queueStandbyIfStartingUp : Bool) :
    Option (Bool × VClientSession × List Event) :=
  let body : Option (Bool × VClientSession × List Event) :=
    if (! s.mIsShuttingDown) && (! s.clientGoingOffline) then
      if queueStandbyIfStartingUp && ! s.clientOnline then
        some (true,
          { s with mStartupStandbyQueue := s.mStartupStandbyQueue.postMessage message },
          [Event.logStandby message])
      else
        match s.mOutputThread with
        | none => none
        | some _ =>
          some (true, s.postToOutputThread message, [])
    else
      some (false, s, [])
  match body with
  | none => none
  | some (posted, s1, ev) =>
    if releaseIfNotPosted && !posted then
      some (posted, s1, ev ++ [Event.releaseMessage message message.getPool])
    else
      some (posted, s1, ev)

/-- The loop of `_moveStandbyMessagesToAsyncOutputQueue`, entered with `m` the result
of the last `getNextMessage`: while `m` is not `NULL`, log, post `m` to the output
worker and fetch the next standby message.  `none` is a dereference of a null
`mOutputThread`. -/
def VClientSession.moveStandbyLoop (s : VClientSession) (m : Option VMessage)
    (ev : List Event) : Option (VClientSession × List Event) :=
  match m with
  | none => some (s, ev)
  | some msg =>
    match s.mOutputThread with
    | none => none
    | some _ =>
      let s1 : VClientSession := s.postToOutputThread msg
      let next := s1.mStartupStandbyQueue.getNextMessage
      VClientSession.moveStandbyLoop { s1 with mStartupStandbyQueue := next.2 } next.1
        (ev ++ [Event.logMove msg])
termination_by s.mStartupStandbyQueue.length + (if m.isSome then 1 else 0)
decreasing_by
  have key : ∀ q : VMessageQueue,
      q.getNextMessage.2.length + (if q.getNextMessage.1.isSome then 1 else 0) <
        q.length + 1 := by
    intro q
    cases q <;> simp [VMessageQueue.getNextMessage]
  simpa [VClientSession.postToOutputThread] using key s.mStartupStandbyQueue

/-- The method `VClientSession::_moveStandbyMessagesToAsyncOutputQueue`. -/
def VClientSession.moveStandbyMessagesToAsyncOutputQueue (s : VClientSession) :
    Option (VClientSession × List Event) :=
  let first := s.mStartupStandbyQueue.getNextMessage
  VClientSession.moveStandbyLoop { s with mStartupStandbyQueue := first.2 } first.1 []

/-- A sequence of `postOutputMessage` calls, each given as
`(message, releaseIfNotPosted, queueStandbyIfStartingUp)`; the result is the session
afterwards and the values the calls returned, or `none` when a call dereferences a
null `mOutputThread`. -/
def postEach : VClientSession → List (VMessage × Bool × Bool) →
    Option (VClientSession × List Bool)
  | s, [] => some (s, [])
  | s, (m, r, q) :: rest =>
    match s.postOutputMessage m r q with
    | none => none
    | some (posted, s1, _) =>
      match postEach s1 rest with
      | none => none
      | some (s2, results) => some (s2, posted :: results)

/-- The start-up scenario: the messages of `early` are posted with
`queueStandbyIfStartingUp = true`, the client then becomes online and the caller runs
`_moveStandbyMessagesToAsyncOutputQueue`, and the calls of `late` are made afterwards.
The result is the final session and the values returned by all the posts. -/
def startupScenario (s : VClientSession) (early : List (VMessage × Bool))
    (late : List (VMessage × Bool × Bool)) : Option (VClientSession × List Bool) :=
  match postEach s (early.map (fun p => (p.1, p.2, true))) with
  | none => none
  | some (s1, r1) =>
    match VClientSession.moveStandbyMessagesToAsyncOutputQueue
        { s1 with clientOnline := true } with
    | none => none
    | some (s2, _) =>
      match postEach s2 late with
      | none => none
      | some (s3, r3) => some (s3, r1 ++ r3)

/-! ## Self-destruction as a step relation -/

/-- Where the thread running `_selfDestruct` stands. -/
inductive DestructPhase where
  /-- Holding the mutex, about to evaluate `! mTasks.empty()`. -/
  | checking
  /-- In the loop body: mutex released, inside `VThread::sleep`. -/
  | sleeping
  /-- Loop left and locker scope closed; about to run `delete this`. -/
  | leaving
  /-- After `delete this`. -/
  | deleted
  deriving DecidableEq, Repr

/-- A session in the course of `_selfDestruct`. -/
structure DestructState where
  session : VClientSession
  phase : DestructPhase
  deriving DecidableEq, Repr

/-- One step of the system while `_selfDestruct` runs: `self` is the next step of the
destructing thread, `taskEnded t` is an attached task ending on its own thread, which
calls `detachTask(t)`, and `taskAttached t` is another thread calling
`attachTask(t)`. -/
inductive DestructEvent where
  | self
  | taskEnded (t : VMessageHandlerTask)
  | taskAttached (t : VMessageHandlerTask)
  deriving DecidableEq, Repr

/-- The step function of `_selfDestruct`.  The destructing thread checks the task
list under the mutex; when it is not empty it unlocks and sleeps, then locks and
checks again; when it is empty it leaves the loop, the locker's scope ends (line 144)
and it deletes the session (line 146).  `attachTask` (lines 51-55) and `detachTask`
(lines 57-64) take the session mutex, so another thread runs them only while the
destructing thread does not hold it: during its sleep, and between the end of the
locker's scope and `delete this`; a call after the session is deleted is not a step
of the session. -/
def destructStep (d : DestructState) : DestructEvent → Option DestructState
  | .self =>
    match d.phase with
    | .checking =>
      if d.session.mTasks.isEmpty then some { d with phase := .leaving }
      else some { d with phase := .sleeping }
    | .sleeping => some { d with phase := .checking }
    | .leaving => some { d with phase := .deleted }
    | .deleted => none
  | .taskEnded t =>
    match d.phase with
    | .sleeping => some { d with session := d.session.detachTask t }
    | .leaving => some { d with session := d.session.detachTask t }
    | .checking => none
    | .deleted => none
  | .taskAttached t =>
    match d.phase with
    | .sleeping => some { d with session := d.session.attachTask t }
    | .leaving => some { d with session := d.session.attachTask t }
    | .checking => none
    | .deleted => none

/-- A run of the step function over a schedule. -/
def destructRun : DestructState → List DestructEvent → Option DestructState
  | d, [] => some d
  | d, e :: es =>
    match destructStep d e with
    | none => none
    | some d2 => destructRun d2 es

/-- The state in which `_selfDestruct` starts: the locker has just taken the mutex. -/
def destructEntry (s : VClientSession) : DestructState :=
  { session := s, phase := .checking }

/-! ## Sample data -/

/-- A message with identity `n`, belonging to pool 7. -/
def sampleMessage (n : Nat) : VMessage :=
  { addr := n, mMessageID := 42, mPool := some 7, mIsBeingBroadcast := false,
    mNumBroadcastTargets := 0 }

/-- A session that is active, not yet online, with both workers running. -/
def sampleSession : VClientSession :=
  { mServer := some 1, mClientType := "client", mClientIP := "10.0.0.5",
    mClientPort := 4000, mClientAddress := "10.0.0.5:4000",
    mInputThread := some 11, mOutputThread := some 12, mIsShuttingDown := false,
    mStartupStandbyQueue := [], mTasks := [], outputQueue := [],
    clientOnline := false, clientGoingOffline := false }

/-- A session as the constructor leaves it: no worker has been set yet. -/
def newSession : VClientSession :=
  VClientSession.construct (some 1) "client" "10.0.0.5" 4000 false false

/-- The sample session after `shutdown` was called on it by the server. -/
def shuttingDownSession : VClientSession :=
  { sampleSession with mIsShuttingDown := true }

/-- The sample session with two attached tasks. -/
def busySession : VClientSession :=
  { sampleSession with mTasks := [5, 6] }

/-- The sample session with two messages on standby and one already queued for output. -/
def standbySession : VClientSession :=
  { sampleSession with
    mStartupStandbyQueue := [sampleMessage 1, sampleMessage 2],
    outputQueue := [sampleMessage 0] }

/-- Four `shutdown` calls: the server, the input worker, the server again, the output
worker. -/
def sampleCallers : List (Option VThread) :=
  [none, some (VThread.input 11), none, some (VThread.output 12)]

/-- A schedule of `_selfDestruct` on `busySession`: the two tasks end during two
sleeps, and the third check finds the list empty. -/
def sampleSchedule : List DestructEvent :=
  [DestructEvent.self, DestructEvent.taskEnded 5, DestructEvent.self,
   DestructEvent.self, DestructEvent.taskEnded 6, DestructEvent.self,
   DestructEvent.self]

/-- The sample session as `shutdown` leaves it when it calls `_selfDestruct`: the flag
is set and both worker references are null. -/
def detachedSession : VClientSession :=
  { sampleSession with
    mIsShuttingDown := true, mInputThread := none, mOutputThread := none }

/-- A schedule of `_selfDestruct` on `detachedSession` with task 5 attached: the task
ends during the sleep, the second check finds the list empty and the loop is left;
another thread then calls `attachTask(9)`, and the destructing thread runs
`delete this`. -/
def lateAttachSchedule : List DestructEvent :=
  [DestructEvent.self, DestructEvent.taskEnded 5, DestructEvent.self,
   DestructEvent.self, DestructEvent.taskAttached 9, DestructEvent.self]

/-! ## Teardown -/

/-- Modelled from the spec: `VMessageQueue::releaseAllMessages` (its source file is
absent) empties the queue, releasing every message back to its pool, front first.
The result is the emptied queue and the calls of `VMessagePool::releaseMessage`. -/
def VMessageQueue.releaseAllMessages (q : VMessageQueue) : VMessageQueue × List Event :=
  ([], q.map (fun m => Event.releaseMessage m m.getPool))

/-- Modelled from the spec: `VMessageOutputThread::releaseAllQueuedMessages` (its
source file is absent) empties the output worker's pending queue, releasing every
message back to its pool. -/
def VClientSession.releaseAllQueuedMessages (s : VClientSession) :
    VClientSession × List Event :=
  ({ s with outputQueue := (s.outputQueue.releaseAllMessages).1 },
    (s.outputQueue.releaseAllMessages).2)

/-- The method `VClientSession::_releaseQueuedClientMessages`: the output worker's
queue is released when `mOutputThread` is not null, then the standby queue is. -/
def VClientSession.releaseQueuedClientMessages (s : VClientSession) :
    VClientSession × List Event :=
  let r1 : VClientSession × List Event :=
    match s.mOutputThread with
    | some _ => s.releaseAllQueuedMessages
    | none => (s, [])
  ({ r1.1 with mStartupStandbyQueue := (r1.1.mStartupStandbyQueue.releaseAllMessages).1 },
    r1.2 ++ (r1.1.mStartupStandbyQueue.releaseAllMessages).2)

/-- The destructor `VClientSession::~VClientSession`: it runs
`_releaseQueuedClientMessages` and then sets both worker references to null.  The
result is the member values (and the output worker's queue) when the destructor has
run, and the release calls it made. -/
def VClientSession.destruct (s : VClientSession) : VClientSession × List Event :=
  let r := s.releaseQueuedClientMessages
  ({ r.1 with mInputThread := none, mOutputThread := none }, r.2)

/-! ## Sequences of session operations -/

/-- A call of one of the session's operations. -/
inductive SessionOp where
  | attachTask (task : VMessageHandlerTask)
  | detachTask (task : VMessageHandlerTask)
  | shutdown (callingThread : Option VThread)
  | postOutputMessage (message : VMessage)
      (releaseIfNotPosted queueStandbyIfStartingUp : Bool)
  | moveStandbyMessagesToAsyncOutputQueue
  | releaseQueuedClientMessages
  deriving DecidableEq, Repr

/-- The member values after one operation; `none` when the operation dereferences a
null `mOutputThread`. -/
def applyOp (s : VClientSession) : SessionOp → Option VClientSession
  | .attachTask t => some (s.attachTask t)
  | .detachTask t => some (s.detachTask t)
  | .shutdown c => some (s.shutdown c).session
  | .postOutputMessage m r q => (s.postOutputMessage m r q).map (fun x => x.2.1)
  | .moveStandbyMessagesToAsyncOutputQueue =>
    (s.moveStandbyMessagesToAsyncOutputQueue).map (fun x => x.1)
  | .releaseQueuedClientMessages => some (s.releaseQueuedClientMessages).1

/-- The member values after a sequence of operations. -/
def applyOps : VClientSession → List SessionOp → Option VClientSession
  | s, [] => some s
  | s, op :: rest =>
    match applyOp s op with
    | none => none
    | some s1 => applyOps s1 rest

/-- The output worker of the sample session calls `shutdown` last: the input worker
has detached, message 0 is still pending in the output worker's queue and message 1
is on standby. -/
def lastWorkerSession : VClientSession :=
  { sampleSession with
    mInputThread := none, mIsShuttingDown := true,
    mStartupStandbyQueue := [sampleMessage 1], outputQueue := [sampleMessage 0] }

/-- A run of operations on the sample session that starts with a `shutdown`. -/
def sampleOps : List SessionOp :=
  [SessionOp.shutdown none, SessionOp.attachTask 5,
   SessionOp.postOutputMessage (sampleMessage 3) true true,
   SessionOp.detachTask 5,
   SessionOp.shutdown (some (VThread.input 11)), SessionOp.releaseQueuedClientMessages]

/-! ## Which accesses hold the session mutex -/

/-- The data members of `VClientSession` that its operations read or write. -/
inductive Member where
  | mServer
  | mClientAddress
  | mInputThread
  | mOutputThread
  | mIsShuttingDown
  | mStartupStandbyQueue
  | mTasks
  deriving DecidableEq, Repr

/-- The members the session mutex is meant to guard as one unit: the shutdown flag,
the standby queue, the attached-task list and the two worker references. -/
def Member.guarded : Member → Bool
  | .mIsShuttingDown => true
  | .mStartupStandbyQueue => true
  | .mTasks => true
  | .mInputThread => true
  | .mOutputThread => true
  | .mServer => false
  | .mClientAddress => false

/-- One step of an operation as far as the mutex is concerned: taking `mMutex`
(a `VMutexLocker` being constructed, or `lock()`), giving it back (`unlock()`, or the
locker going out of scope), reading a member, writing a member. -/
inductive Access where
  | lock
  | unlock
  | read (m : Member)
  | write (m : Member)
  deriving DecidableEq, Repr

/-- Whether every read and write of a guarded member in the trace happens while the
mutex is held; `held` says whether it is held at the start. -/
def accessesLocked : Bool → List Access → Bool
  | _, [] => true
  | _, Access.lock :: rest => accessesLocked true rest
  | _, Access.unlock :: rest => accessesLocked false rest
  | held, Access.read m :: rest => (held || !m.guarded) && accessesLocked held rest
  | held, Access.write m :: rest => (held || !m.guarded) && accessesLocked held rest

/-- The reads and writes of guarded members a trace makes while the mutex is not
held, in order; `held` says whether it is held at the start. -/
def unlockedAccesses : Bool → List Access → List Access
  | _, [] => []
  | _, Access.lock :: rest => unlockedAccesses true rest
  | _, Access.unlock :: rest => unlockedAccesses false rest
  | held, Access.read m :: rest =>
    (if held || !m.guarded then [] else [Access.read m]) ++ unlockedAccesses held rest
  | held, Access.write m :: rest =>
    (if held || !m.guarded then [] else [Access.write m]) ++ unlockedAccesses held rest

/-- The accesses of `attachTask` (lines 51-55): locker, `push_back`, end of scope. -/
def attachTaskAccesses : List Access :=
  [Access.lock, Access.write Member.mTasks, Access.unlock]

/-- The accesses of `detachTask` (lines 57-64): locker, `std::find` over `mTasks`, the
comparison with `mTasks.end()`, the `erase` when the task was found, end of scope. -/
def detachTaskAccesses (s : VClientSession) (task : VMessageHandlerTask) : List Access :=
  [Access.lock, Access.read Member.mTasks, Access.read Member.mTasks] ++
    (if task ∈ s.mTasks then [Access.write Member.mTasks] else []) ++
    [Access.unlock]

/-- The accesses of the loop of `_selfDestruct` after its first check, for a task list
that is found non-empty `polls` times: `unlock()`, sleep, `lock()`, check again. -/
def pollAccesses : Nat → List Access
  | 0 => []
  | n + 1 => [Access.unlock, Access.lock, Access.read Member.mTasks] ++ pollAccesses n

/-- The accesses of the destructor (lines 39-49) on session `s`:
`_releaseQueuedClientMessages` (lines 164-174) constructs its locker, tests
`mOutputThread`, calls through it when it is not null, empties the standby queue, and
its locker goes out of scope; then lines 47 and 48 set the two worker references to
`NULL`.  The trace ends where the body of the destructor ends: what follows is the
destruction of the members themselves, with which the session ceases to exist. -/
def destructorAccesses (s : VClientSession) : List Access :=
  [Access.lock, Access.read Member.mOutputThread] ++
  (match s.mOutputThread with
    | some _ => [Access.read Member.mOutputThread]
    | none => []) ++
  [Access.write Member.mStartupStandbyQueue, Access.unlock,
   Access.write Member.mInputThread, Access.write Member.mOutputThread]

/-- The accesses of `_selfDestruct` (lines 132-147) on session `s`, for a task list
that is found non-empty `polls` times and then empty: locker, first check of
`mTasks`, the polls, end of the locker's scope, and `delete this`, which runs the
destructor. -/
def selfDestructAccesses (s : VClientSession) (polls : Nat) : List Access :=
  [Access.lock, Access.read Member.mTasks] ++ pollAccesses polls ++ [Access.unlock] ++
    destructorAccesses s

/-- The accesses of `shutdown` (lines 66-102) on session `s` with caller
`callingThread`: locker; the flag is set; the log line reads the client address; for
each worker the null test, the comparison with the caller, and the assignment or the
`stop()` call through the pointer; the test of line 93 (the second operand is read
only when the first holds); then either the server notification, `locker.unlock()`
and `_selfDestruct` with the destructor it ends in, or the end of the locker's
scope. -/
def shutdownAccesses (s : VClientSession) (callingThread : Option VThread)
    (polls : Nat) : List Access :=
  [Access.lock, Access.write Member.mIsShuttingDown, Access.read Member.mClientAddress] ++
  (match s.mInputThread with
    | none => [Access.read Member.mInputThread]
    | some i =>
      if callingThread = some (VThread.input i) then
        [Access.read Member.mInputThread, Access.read Member.mInputThread,
         Access.write Member.mInputThread]
      else
        [Access.read Member.mInputThread, Access.read Member.mInputThread,
         Access.read Member.mInputThread]) ++
  (match s.mOutputThread with
    | none => [Access.read Member.mOutputThread]
    | some o =>
      if callingThread = some (VThread.output o) then
        [Access.read Member.mOutputThread, Access.read Member.mOutputThread,
         Access.write Member.mOutputThread]
      else
        [Access.read Member.mOutputThread, Access.read Member.mOutputThread,
         Access.read Member.mOutputThread]) ++
  [Access.read Member.mInputThread] ++
  (if (s.shutdownDetach callingThread).1.mInputThread = none then
    [Access.read Member.mOutputThread] ++
    (if (s.shutdownDetach callingThread).1.mOutputThread = none then
      (match s.mServer with
        | some _ => [Access.read Member.mServer, Access.read Member.mServer]
        | none => [Access.read Member.mServer]) ++
      [Access.unlock] ++
        selfDestructAccesses (s.shutdownDetach callingThread).1 polls
    else [Access.unlock])
  else [Access.unlock])

/-- The accesses of `postOutputMessage` (lines 104-130) on session `s`: the test of
line 108 reads `mIsShuttingDown`; when it passes, the locker of line 110 is
constructed, then either the log line and `mStartupStandbyQueue.postMessage`, or the
call through `mOutputThread`, then the end of the locker's scope. -/
def postOutputMessageAccesses (s : VClientSession) (queueStandbyIfStartingUp : Bool) :
    List Access :=
  [Access.read Member.mIsShuttingDown] ++
  (if (! s.mIsShuttingDown) && (! s.clientGoingOffline) then
    [Access.lock] ++
    (if queueStandbyIfStartingUp && ! s.clientOnline then
      [Access.read Member.mClientAddress, Access.write Member.mStartupStandbyQueue]
    else
      [Access.read Member.mOutputThread]) ++
    [Access.unlock]
  else [])

/-! ## Broadcast counting -/

/-- The inline `VMessage::markForBroadcast` (vmessage.h). -/
def VMessage.markForBroadcast (m : VMessage) : VMessage :=
  { m with mIsBeingBroadcast := true }

/-- The inline `VMessage::isBeingBroadcast` (vmessage.h). -/
def VMessage.isBeingBroadcast (m : VMessage) : Bool := m.mIsBeingBroadcast

/-- The inline `VMessage::numBroadcastTargets` (vmessage.h). -/
def VMessage.numBroadcastTargets (m : VMessage) : Int := m.mNumBroadcastTargets

/-- Modelled from the spec: `VMessage::addBroadcastTarget` (declared in vmessage.h, its
body is absent) increments the message's broadcast target count. -/
def VMessage.addBroadcastTarget (m : VMessage) : VMessage :=
  { m with mNumBroadcastTargets := m.mNumBroadcastTargets + 1 }

/-- A message and the free list of the pool recorded on it; the free list holds the
identities of the messages returned to the pool, one entry per return. -/
structure PooledMessage where
  message : VMessage
  freeList : List Nat
  deriving DecidableEq, Repr

/-- Modelled from the spec: the return of a message to the free list of its pool, the
last step of the pool's `release(message)` (`VMessagePool::releaseMessage`, absent). -/
def PooledMessage.returnToFreeList (p : PooledMessage) : PooledMessage :=
  { p with freeList := p.freeList ++ [p.message.addr] }

/-- Modelled from the spec: `VMessage::removeBroadcastTarget` (declared in vmessage.h,
its body is absent) decrements the broadcast target count, and "a
`removeBroadcastTarget` that drops the count to 0 triggers release to the pool". -/
def PooledMessage.removeBroadcastTarget (p : PooledMessage) : PooledMessage :=
  let m : VMessage :=
    { p.message with mNumBroadcastTargets := p.message.mNumBroadcastTargets - 1 }
  if m.mNumBroadcastTargets = 0 then
    ({ p with message := m }).returnToFreeList
  else
    { p with message := m }

/-- Modelled from the spec: what a consumer does with a message it is done with.  A
message that is not marked for broadcast has one consumer and goes back to the free
list; a message marked for broadcast loses one target. -/
def PooledMessage.release (p : PooledMessage) : PooledMessage :=
  if p.message.isBeingBroadcast then p.removeBroadcastTarget else p.returnToFreeList

/-- The message after `n` calls of `addBroadcastTarget`. -/
def VMessage.addBroadcastTargets : Nat → VMessage → VMessage
  | 0, m => m
  | n + 1, m => VMessage.addBroadcastTargets n m.addBroadcastTarget

/-- The state after `n` consumers have released the message. -/
def PooledMessage.releases : Nat → PooledMessage → PooledMessage
  | 0, p => p
  | n + 1, p => PooledMessage.releases n p.release

/-! ## The handler registry -/

/-- The type `VMessageID` (vmessage.h: a `Vs16`). -/
abbrev VMessageID := Int

/-- The accessor `VMessage::getMessageID`. -/
def VMessage.getMessageID (m : VMessage) : VMessageID := m.mMessageID

/-- Identity of a `VMessageHandlerFactory` object. -/
abbrev VMessageHandlerFactory := Nat

/-- A handler as `createHandler` builds it: the factory whose handler class was
instantiated, and the constructor arguments it was given. -/
structure VMessageHandler where
  factory : VMessageHandlerFactory
  mMessage : VMessage
  mServer : Option VServer
  mSession : Option Nat
  mThread : Option Nat
  deriving DecidableEq, Repr

/-- The method `createHandler` as `DEFINE_MESSAGE_HANDLER_FACTORY` defines it: a new
handler of the factory's class, constructed with `(m, server, session, thread)`. -/
def VMessageHandlerFactory.createHandler (f : VMessageHandlerFactory) (m : VMessage)
    (server : Option VServer) (session thread : Option Nat) : VMessageHandler :=
  { factory := f, mMessage := m, mServer := server, mSession := session,
    mThread := thread }

/-- The type `VMessageHandlerFactoryMap` (a `std::map` from message ID to factory), as
the list of its entries. -/
abbrev VMessageHandlerFactoryMap := List (VMessageID × VMessageHandlerFactory)

/-- The factory the map holds for a message ID, if any. -/
def VMessageHandlerFactoryMap.find (map : VMessageHandlerFactoryMap) (messageID : VMessageID) :
    Option VMessageHandlerFactory :=
  match map with
  | [] => none
  | (k, f) :: rest =>
    if k = messageID then some f else VMessageHandlerFactoryMap.find rest messageID

/-- Outcome of `registerHandlerFactory`: the map with the new entry, or the
configuration error raised for an ID that is registered already. -/
inductive RegisterOutcome where
  | registered (map : VMessageHandlerFactoryMap)
  | duplicateMessageID (messageID : VMessageID)
  deriving DecidableEq, Repr

/-- Modelled from the spec: `VMessageHandler::registerHandlerFactory` (declared in
vmessagehandler.h, its body is absent): "re-registering the same id is a
configuration error (surfaced, not silently ignored)"; otherwise the factory is
entered for the ID. -/
def VMessageHandler.registerHandlerFactory (map : VMessageHandlerFactoryMap)
    (messageID : VMessageID) (factory : VMessageHandlerFactory) : RegisterOutcome :=
  match map.find messageID with
  | some _ => RegisterOutcome.duplicateMessageID messageID
  | none => RegisterOutcome.registered (map ++ [(messageID, factory)])

/-- Modelled from the spec: `VMessageHandler::get` (declared in vmessagehandler.h, its
body is absent) "looks up factory by `message.id`; if absent, returns a no-handler
outcome" (`NULL`, here `none`); otherwise the factory creates the handler. -/
def VMessageHandler.get (map : VMessageHandlerFactoryMap) (m : VMessage)
    (server : Option VServer) (session thread : Option Nat) : Option VMessageHandler :=
  match map.find m.getMessageID with
  | none => none
  | some f => some (f.createHandler m server session thread)

/-- The registry after the registrations of `entries` in order, starting from `map`;
a registration that raises the configuration error leaves the registry as it is. -/
def registerAll (map : VMessageHandlerFactoryMap) :
    List (VMessageID × VMessageHandlerFactory) → VMessageHandlerFactoryMap
  | [] => map
  | (k, f) :: rest =>
    match VMessageHandler.registerHandlerFactory map k f with
    | RegisterOutcome.registered map2 => registerAll map2 rest
    | RegisterOutcome.duplicateMessageID _ => registerAll map rest

/-! ## The listener -/

/-- The type `VSocketID`. -/
abbrev VSocketID := Int

/-- A per-connection worker as the listener sees it: its identity, the ID and port of
its socket, and whether it has been asked to stop. -/
structure VSocketThread where
  ident : Nat
  sockID : VSocketID
  portNumber : Int
  stopRequested : Bool
  deriving DecidableEq, Repr

/-- The data members of `VListenerThread` (vlistenerthread.h) other than the
factories and the mutex. -/
structure VListenerThread where
  mPortNumber : Int
  mBindAddress : String
  mShouldListen : Bool
  mSocketThreads : List VSocketThread
  deriving DecidableEq, Repr

/-- The inline `VListenerThread::startListening`: `mShouldListen = true`. -/
def VListenerThread.startListening (l : VListenerThread) : VListenerThread :=
  { l with mShouldListen := true }

/-- The inline `VListenerThread::stopListening`: `mShouldListen = false`. -/
def VListenerThread.stopListening (l : VListenerThread) : VListenerThread :=
  { l with mShouldListen := false }

/-- The inline `VListenerThread::isListening`: `return mShouldListen`. -/
def VListenerThread.isListening (l : VListenerThread) : Bool := l.mShouldListen

/-- Whether the worker's socket has this ID and this port. -/
def VSocketThread.hasSocket (t : VSocketThread) (socketID : VSocketID)
    (localPortNumber : Int) : Bool :=
  decide (t.sockID = socketID) && decide (t.portNumber = localPortNumber)

/-- The live-worker list with a stop requested on the first worker whose socket has
this ID and this port; `none` when there is no such worker. -/
def stopFirstWithSocket : List VSocketThread → VSocketID → Int →
    Option (List VSocketThread)
  | [], _, _ => none
  | t :: rest, socketID, localPortNumber =>
    if t.hasSocket socketID localPortNumber then
      some ({ t with stopRequested := true } :: rest)
    else
      match stopFirstWithSocket rest socketID localPortNumber with
      | none => none
      | some rest2 => some (t :: rest2)

/-- Outcome of `stopSocketThread`: the listener afterwards, or the `VException` thrown
because no socket thread has the ID and port asked for. -/
inductive StopOutcome where
  | done (listener : VListenerThread)
  | socketThreadNotFound (socketID : VSocketID) (localPortNumber : Int)
  deriving DecidableEq, Repr

/-- Modelled from the spec: `VListenerThread::stopSocketThread` (declared in
vlistenerthread.h, its body is absent) looks up "a specific worker by its (socket
id, port) pair" and requests it to stop; it "fails with a not found condition if no
match" (the header: "Throws a VException if that socket thread no longer
exists"). -/
def VListenerThread.stopSocketThread (l : VListenerThread) (socketID : VSocketID)
    (localPortNumber : Int) : StopOutcome :=
  match stopFirstWithSocket l.mSocketThreads socketID localPortNumber with
  | some threads => StopOutcome.done { l with mSocketThreads := threads }
  | none => StopOutcome.socketThreadNotFound socketID localPortNumber

/-! ## More sample data -/

/-- A message of pool 7 that has just been taken from the pool: not marked for
broadcast, no broadcast target. -/
def pooledSample : PooledMessage :=
  { message := sampleMessage 3, freeList := [] }

/-- A registry in which only message ID 42 has a factory (factory 1). -/
def registry42 : VMessageHandlerFactoryMap :=
  registerAll [] [(42, 1)]

/-- A message with ID 99. -/
def message99 : VMessage :=
  { sampleMessage 4 with mMessageID := 99 }

/-- A listener on port 4000 with three live workers: sockets (5, 4000), (5, 4001) and
(6, 4000). -/
def sampleListener : VListenerThread :=
  { mPortNumber := 4000, mBindAddress := "", mShouldListen := true,
    mSocketThreads :=
      [{ ident := 1, sockID := 5, portNumber := 4000, stopRequested := false },
       { ident := 2, sockID := 5, portNumber := 4001, stopRequested := false },
       { ident := 3, sockID := 6, portNumber := 4000, stopRequested := false }] }

/-! ## The public operations of a session -/

/-- The operations a client of the session calls between construction and teardown:
`attachTask`, `detachTask`, `shutdown` and `postOutputMessage`. -/
def SessionOp.isClientCall : SessionOp → Bool
  | .attachTask _ => true
  | .detachTask _ => true
  | .shutdown _ => true
  | .postOutputMessage _ _ _ => true
  | .moveStandbyMessagesToAsyncOutputQueue => false
  | .releaseQueuedClientMessages => false

/-- A run of the four client calls on the sample session: a message is posted while
the session is live, the output worker shuts the session down, and a later message
meets a null `mOutputThread`. -/
def clientCalls : List SessionOp :=
  [SessionOp.attachTask 5,
   SessionOp.postOutputMessage (sampleMessage 0) true false,
   SessionOp.shutdown (some (VThread.output 12)),
   SessionOp.detachTask 5,
   SessionOp.postOutputMessage (sampleMessage 1) true false]

/-! ## Log levels -/

/-- The constant `VMessageHandler::kMessageDispatchSimpleLogLevel` (vmessagehandler.h
line 155). `VLogger::kDebug` is declared in vlogger.h, which is absent, so it is a
parameter. The initialiser is an integral constant expression, so its value is the
mathematical one (an overflowing initialiser does not compile). -/
def VMessageHandler.kMessageDispatchSimpleLogLevel (kDebug : Int) : Int := kDebug

/-- The constant `VMessageHandler::kMessageDispatchDetailLogLevel` (vmessagehandler.h
line 156). -/
def VMessageHandler.kMessageDispatchDetailLogLevel (kDebug : Int) : Int := kDebug + 2

/-- The constant `VMessage::kMessageReceiveSimpleLogLevel` (vmessage.h line 198). -/
def VMessage.kMessageReceiveSimpleLogLevel (kDebug : Int) : Int := kDebug + 1

/-- The constant `VMessage::kMessageReceiveHexDumpLogLevel` (vmessage.h line 199). -/
def VMessage.kMessageReceiveHexDumpLogLevel (kDebug : Int) : Int := kDebug + 3

/-- The constant `VMessage::kMessageSendSimpleLogLevel` (vmessage.h line 201). -/
def VMessage.kMessageSendSimpleLogLevel (kDebug : Int) : Int := kDebug + 1

/-- The constant `VMessage::kMessagePostHexDumpLogLevel` (vmessage.h line 202). -/
def VMessage.kMessagePostHexDumpLogLevel (kDebug : Int) : Int := kDebug + 3

/-- The constant `VMessage::kMessageSendHexDumpLogLevel` (vmessage.h line 203). -/
def VMessage.kMessageSendHexDumpLogLevel (kDebug : Int) : Int := kDebug + 4

/-! ## Stream copy (vstream.cpp)

Sizes and counts are `Vs64` values, modelled as `Int`; none of the sums formed below
leaves the range between `0` and `numBytesToCopy`. -/

/-- A byte (`Vu8`). -/
abbrev Vu8 := Fin 256

/-- The constant `V_MAX_S32` (declared in vtypes.h, which is absent): the largest
signed 32-bit value, as the comment in `copyMemory` says ("size_t is at least 31
bits, that is that it can hold a number up to at least V_MAX_S32"). -/
def V_MAX_S32 : Int := 2147483647

/-- What the code asks of the platform: whether `sizeof(Vs64) == sizeof(size_t)`. -/
structure Platform where
  sizeTIsVs64 : Bool
  deriving DecidableEq, Repr

/-- A platform whose `size_t` is as wide as `Vs64`. -/
def wideSizeT : Platform := { sizeTIsVs64 := true }

/-- A platform whose `size_t` is narrower than `Vs64`. -/
def narrowSizeT : Platform := { sizeTIsVs64 := false }

/-- The function `VStream::needSizeConversion` (line 149). -/
def VStream.needSizeConversion (pf : Platform) (sizeValue : Int) : Bool :=
  decide (sizeValue > V_MAX_S32) && ! pf.sizeTIsVs64

/-- The expression `new Vu8[static_cast<size_t>(bufferSize)]` of `newNewBuffer`
(line 198) as the platform evaluates it at the time of the call, given `bufferSize`:
the size of the buffer it returns, or `none` when it throws `std::bad_alloc` ("if we
run out of memory").  Both the cast to `size_t` and the memory that can be had are
the platform's. -/
structure Heap where
  newArray : Int → Option Nat

/-- A heap from which at most `limit` bytes can be had in one request; a negative
size, cast to `size_t`, is a request it does not satisfy. -/
def heapOf (limit : Nat) : Heap :=
  { newArray := fun n => if 0 ≤ n ∧ n ≤ limit then some n.toNat else none }

/-- The function `VStream::newNewBuffer` (line 191): `none` is the `std::bad_alloc`
thrown at line 195 when the size does not fit `size_t`, or by `new` at line 198 when
the memory cannot be had; otherwise the size of the buffer allocated. -/
def VStream.newNewBuffer (pf : Platform) (heap : Heap) (bufferSize : Int) :
    Option Nat :=
  let fits := pf.sizeTIsVs64 || decide (bufferSize ≤ V_MAX_S32)
  if ! fits then none
  else heap.newArray bufferSize

/-- The virtual `read` and `write` of a stream whose state is of type `σ`.
`read s n` gives the bytes the stream places at the start of the buffer when asked
for `n` bytes (the count it returns is their number) and the stream afterwards;
`write s bytes` is offered `bytes` and gives the count it returns and the stream
afterwards. -/
structure VStream (σ : Type) where
  read : σ → Int → List Vu8 × σ
  write : σ → List Vu8 → Int × σ

/-- One pass of the copy loop, as observed from outside: the count `read` returned
and, when `write` was called, the count it returned. -/
structure CopyPass where
  numTempBytesRead : Int
  numTempBytesWritten : Option Int
  deriving DecidableEq, Repr

/-- What `streamCopy` leaves: the returned `numBytesCopied`, the two streams, and the
passes of the loop in order. -/
structure CopyResult (σ τ : Type) where
  numBytesCopied : Int
  fromStream : σ
  toStream : τ
  passes : List CopyPass

/-- The `while (numBytesRemaining > 0)` loop of `streamCopy` (lines 106-125).  `fuel`
bounds the number of passes; `none` means the bound was reached before the loop
ended. -/
def VStream.copyLoop {σ τ : Type} (R : VStream σ) (W : VStream τ) :
    Nat → σ → τ → Int → Int → Int → Option (CopyResult σ τ)
  | 0, _, _, _, _, _ => none
  | fuel + 1, fromStream, toStream, numBytesRemaining, tempBufferSize,
      numBytesCopied =>
    if numBytesRemaining > 0 then
      let numTempBytesToCopy := min numBytesRemaining tempBufferSize
      let rd := R.read fromStream numTempBytesToCopy
      let numTempBytesRead : Int := rd.1.length
      if numTempBytesRead = 0 then
        some { numBytesCopied := numBytesCopied, fromStream := rd.2,
               toStream := toStream,
               passes := [{ numTempBytesRead := 0, numTempBytesWritten := none }] }
      else
        let wr := W.write toStream rd.1
        let numTempBytesWritten := wr.1
        if numTempBytesWritten = 0 then
          some { numBytesCopied := numBytesCopied + numTempBytesWritten,
                 fromStream := rd.2, toStream := wr.2,
                 passes := [{ numTempBytesRead := numTempBytesRead,
                              numTempBytesWritten := some numTempBytesWritten }] }
        else
          (VStream.copyLoop R W fuel rd.2 wr.2
              (numBytesRemaining - numTempBytesWritten) tempBufferSize
              (numBytesCopied + numTempBytesWritten)).map
            (fun r => { r with passes :=
              { numTempBytesRead := numTempBytesRead,
                numTempBytesWritten := some numTempBytesWritten } :: r.passes })
    else
      some { numBytesCopied := numBytesCopied, fromStream := fromStream,
             toStream := toStream, passes := [] }

/-- How a call of `streamCopy` ends. -/
inductive CopyOutcome (σ τ : Type) where
  | returned (result : CopyResult σ τ)
  | badAlloc
  | outOfFuel

/-- The function `VStream::streamCopy` for two streams whose `_getReadIOPtr` and
`_getWriteIOPtr` return `NULL`, as the base class's do (lines 216-224): lines 55-86
are skipped and the temp-buffer branch (lines 89-128) runs. -/
def VStream.streamCopy {σ τ : Type} (pf : Platform) (heap : Heap) (fuel : Nat)
    (R : VStream σ) (W : VStream τ) (fromStream : σ) (toStream : τ)
    (numBytesToCopy tempBufferSize : Int) : CopyOutcome σ τ :=
  let numBytesCopied : Int := 0
  let numBytesRemaining := numBytesToCopy
  let tempBufferSize := min numBytesToCopy tempBufferSize
  match VStream.newNewBuffer pf heap tempBufferSize with
  | none => CopyOutcome.badAlloc
  | some _ =>
    match VStream.copyLoop R W fuel fromStream toStream numBytesRemaining
        tempBufferSize numBytesCopied with
    | none => CopyOutcome.outOfFuel
    | some r => CopyOutcome.returned r

/-- The sum of the counts the calls of `write` returned. -/
def totalWritten : List CopyPass → Int
  | [] => 0
  | p :: rest => p.numTempBytesWritten.getD 0 + totalWritten rest

/-- Whether every pass but the last read and wrote at least one byte: the loop went
on only after a `read` and a `write` that both returned a count above zero. -/
def stopsAtFirstZero : List CopyPass → Bool
  | [] => true
  | [_] => true
  | p :: q :: rest =>
    decide (0 < p.numTempBytesRead) &&
      (match p.numTempBytesWritten with
       | some w => decide (0 < w)
       | none => false) &&
      stopsAtFirstZero (q :: rest)

/-- A source holding a byte sequence: `read(n)` gives the next `min(n, remaining)`
bytes. -/
def byteSource : VStream (List Vu8) :=
  { read := fun s n => (s.take n.toNat, s.drop n.toNat),
    write := fun s _ => (0, s) }

/-- A destination that accepts every byte offered and appends it. -/
def byteSink : VStream (List Vu8) :=
  { read := fun s _ => ([], s),
    write := fun s bytes => (bytes.length, s ++ bytes) }

/-- A destination that accepts at most two bytes per call of `write`. -/
def slowSink : VStream (List Vu8) :=
  { read := fun s _ => ([], s),
    write := fun s bytes => ((bytes.take 2).length, s ++ bytes.take 2) }

/-- Whether `read` returns a count between zero and the count requested. -/
def VStream.ReadInRange {σ : Type} (S : VStream σ) : Prop :=
  ∀ (s : σ) (n : Int), 0 ≤ n → ((S.read s n).1.length : Int) ≤ n

/-- Whether `write` returns a count between zero and the count offered. -/
def VStream.WriteInRange {σ : Type} (S : VStream σ) : Prop :=
  ∀ (s : σ) (bytes : List Vu8),
    0 ≤ (S.write s bytes).1 ∧ (S.write s bytes).1 ≤ bytes.length

/-- `memcpy(to + offset, from + offset, n)` on the contents of the two buffers (both
at least `offset + n` bytes long, not overlapping). -/
def memcpyAt (toBuffer fromBuffer : List Vu8) (offset n : Nat) : List Vu8 :=
  toBuffer.take offset ++ (fromBuffer.drop offset).take n ++
    toBuffer.drop (offset + n)

/-- The `do ... while (numBytesRemaining > 0)` loop of `copyMemory` (lines 176-186):
`offset` is how far `toPtr` and `fromPtr` have advanced.  `fuel` bounds the number of
passes; `none` means the bound was reached. -/
def VStream.copyMemoryLoop (fromBuffer : List Vu8) :
    Nat → List Vu8 → Nat → Int → Option (List Vu8)
  | 0, _, _, _ => none
  | fuel + 1, toBuffer, offset, numBytesRemaining =>
    let copyChunkSize : Nat := (min V_MAX_S32 numBytesRemaining).toNat
    let toBuffer1 := memcpyAt toBuffer fromBuffer offset copyChunkSize
    let numBytesRemaining1 := numBytesRemaining - copyChunkSize
    if numBytesRemaining1 > 0 then
      VStream.copyMemoryLoop fromBuffer fuel toBuffer1 (offset + copyChunkSize)
        numBytesRemaining1
    else some toBuffer1

/-- The function `VStream::copyMemory` (line 154): the contents of the target buffer
afterwards. -/
def VStream.copyMemory (pf : Platform) (fuel : Nat) (toBuffer fromBuffer : List Vu8)
    (numBytesToCopy : Int) : Option (List Vu8) :=
  if ! VStream.needSizeConversion pf numBytesToCopy then
    some (memcpyAt toBuffer fromBuffer 0 numBytesToCopy.toNat)
  else
    VStream.copyMemoryLoop fromBuffer fuel toBuffer 0 numBytesToCopy

/-- The reference for the chunked loop: one single copy of `n` bytes from the start
of the source to the start of the target. -/
def singleCopy (toBuffer fromBuffer : List Vu8) (n : Nat) : List Vu8 :=
  fromBuffer.take n ++ toBuffer.drop n

/-! ## Path and value helpers of the settings (vsettings.cpp)

A `VString` is modelled as a `String`; its characters are `s.data`. -/

/-- The position of the first `c` in a list of characters. -/
def firstIndexOf (c : Char) : List Char → Option Nat
  | [] => none
  | x :: xs => if x = c then some 0 else (firstIndexOf c xs).map (· + 1)

/-- The position of the last `c` in a list of characters. -/
def lastIndexOfChar (c : Char) : List Char → Option Nat
  | [] => none
  | x :: xs =>
    match lastIndexOfChar c xs with
    | some j => some (j + 1)
    | none => if x = c then some 0 else none

/-- Modelled from the spec: `VString::indexOf(char)` (the VString sources are absent):
the index of the first occurrence of the character, or `-1` when there is none, which
is what the callers' `dotLocation == -1` tests ("no dot found") expect. -/
def VString.indexOf (s : String) (c : Char) : Int :=
  match firstIndexOf c s.data with
  | some i => i
  | none => -1

/-- Modelled from the spec: `VString::lastIndexOf(char)` (the VString sources are
absent): the index of the last occurrence of the character, or `-1` when there is
none. -/
def VString.lastIndexOf (s : String) (c : Char) : Int :=
  match lastIndexOfChar c s.data with
  | some i => i
  | none => -1

/-- Modelled from the spec: `VString::contains(char)` (the VString sources are
absent). -/
def VString.contains (s : String) (c : Char) : Bool :=
  decide (c ∈ s.data)

/-- Modelled from the spec: `VString::getSubstring(target, startIndex, endIndex)` (the
VString sources are absent): the characters from `startIndex` up to, not including,
`endIndex`; an `endIndex` of `-1`, the default of the two-argument calls, means the end
of the string (`splitPathFirst` relies on it for a path without delimiter: "this code
handles a leaf"); indexes outside the string are clipped. -/
def VString.getSubstring (s : String) (startIndex endIndex : Int) : String :=
  let theLength : Int := s.data.length
  let startIndex := max 0 startIndex
  let endIndex := if endIndex = -1 then theLength else min theLength endIndex
  if startIndex ≥ endIndex then ""
  else String.mk ((s.data.drop startIndex.toNat).take (endIndex - startIndex).toNat)

/-- The constant `VSettingsNode::kPathDelimiterChar` (vsettings.cpp line 608). -/
def kPathDelimiterChar : Char := '/'

/-- The function `VSettings::stringToBoolean` (line 817). -/
def VSettings.stringToBoolean (value : String) : Bool :=
  value == "1" || value == "T" || value == "t" || value == "Y" || value == "y" ||
    value == "TRUE" || value == "true" || value == "YES" || value == "yes"

/-- The function `VSettings::isPathLeaf` (line 830). -/
def VSettings.isPathLeaf (path : String) : Bool :=
  ! VString.contains path kPathDelimiterChar

/-- The function `VSettings::splitPathFirst` (line 835): the two output parameters
`nextNodeName` and `outRemainder`. -/
def VSettings.splitPathFirst (path : String) : String × String :=
  let dotLocation := VString.indexOf path kPathDelimiterChar
  let nextNodeName := VString.getSubstring path 0 dotLocation
  let outRemainder :=
    if dotLocation = -1 then "" else VString.getSubstring path (dotLocation + 1) (-1)
  (nextNodeName, outRemainder)

/-- The function `VSettings::splitPathLast` (line 849): the two output parameters
`leadingPath` and `lastNode`. -/
def VSettings.splitPathLast (path : String) : String × String :=
  let dotLocation := VString.lastIndexOf path kPathDelimiterChar
  let leadingPath :=
    if dotLocation = -1 then "" else VString.getSubstring path 0 dotLocation
  let lastNode := VString.getSubstring path (dotLocation + 1) (-1)
  (leadingPath, lastNode)

/-! ## The settings tree (vsettings.cpp)

A `VSettingsTag` owns a vector of attributes and a vector of child nodes; the
top-level `VSettings` owns a vector of nodes.  The parent pointer `mParent` is used
only by `getPath`, for the text of error messages, and is left out.  A pointer to a
node held by a tag is modelled as the node's position (`ChildRef`). -/

/-- How a call ends: it returns a value, it throws an exception, or the bound on the
depth of the recursion was reached first. -/
inductive Outcome (α : Type) where
  | returned (a : α)
  | raised
  | outOfFuel
  deriving DecidableEq, Repr

/-- Modelled from the spec: `VString::isEmpty` (the VString sources are absent). -/
def VString.isEmpty (s : String) : Bool :=
  s.data.isEmpty

/-- Modelled from the spec: `VString::endsWith(char)` (the VString sources are
absent): whether the last character of the string is `c`. -/
def VString.endsWith (s : String) (c : Char) : Bool :=
  s.data.getLast? == some c

/-- The value of a list of decimal digits read from the left, starting from `acc`;
`none` when a character is not a digit. -/
def parseDigits : List Char → Nat → Option Nat
  | [], acc => some acc
  | c :: rest, acc =>
    if c.isDigit then parseDigits rest (acc * 10 + (c.toNat - '0'.toNat)) else none

/-- Modelled from the spec: `VString::parseInt` (the VString sources are absent): the
integer a string of decimal digits with an optional leading sign denotes, zero for the
empty string; `none` stands for the exception thrown on any other string. -/
def VString.parseInt (s : String) : Option Int :=
  match s.data with
  | '-' :: rest => (parseDigits rest 0).map (fun n => - (n : Int))
  | '+' :: rest => (parseDigits rest 0).map (fun n => (n : Int))
  | cs => (parseDigits cs 0).map (fun n => (n : Int))

/-- The class `VSettingsAttribute`: a name, and a value when `mHasValue` is set. -/
structure VSettingsAttribute where
  mName : String
  mHasValue : Bool
  mValue : String
  deriving DecidableEq, Repr

/-- A settings node by its dynamic type: a `VSettingsTag` with its name, its
`mPreferCDATA`, its attributes and its child nodes; a `VSettingsCDATA` with its text;
or a `VSettingsAttribute` (`attr`).  The vector `mChildNodes` holds
`VSettingsNode*`. -/
inductive VSettingsNode where
  | tag (mName : String) (mPreferCDATA : Bool) (mAttributes : List VSettingsAttribute)
      (mChildNodes : List VSettingsNode)
  | cdata (mCDATA : String)
  | attr (a : VSettingsAttribute)
  deriving Repr

/-- The top-level `VSettings`: its vector `mNodes`. -/
structure VSettings where
  mNodes : List VSettingsNode
  deriving Repr

/-- The method `VSettingsNode::getName`; the constructor of `VSettingsCDATA` (line
1328) names every CDATA node "<cdata>". -/
def VSettingsNode.getName : VSettingsNode → String
  | .tag mName _ _ _ => mName
  | .cdata _ => "<cdata>"
  | .attr a => a.mName

/-- The names of the nodes of a vector, in order. -/
def nodeNames (nodes : List VSettingsNode) : List String :=
  nodes.map VSettingsNode.getName

/-- The names of the attributes of a vector, in order. -/
def attributeNames (attributes : List VSettingsAttribute) : List String :=
  attributes.map VSettingsAttribute.mName

/-- A pointer to a node held by a tag: the attribute at a position of `mAttributes`
or the child node at a position of `mChildNodes`. -/
inductive ChildRef where
  | attributeAt (i : Nat)
  | childAt (j : Nat)
  deriving DecidableEq, Repr

/-- One counting loop of `countNamedChildren` (lines 972-976, 978-982, 725-729) over
the names of a vector, entered with `result`. -/
def countNamedLoop (name : String) : List String → Int → Int
  | [], result => result
  | n :: rest, result =>
    if n == name then countNamedLoop name rest (result + 1)
    else countNamedLoop name rest result

/-- One search loop of `getNamedChild` (lines 990-1000, 1002-1012, 737-747) over the
names of a vector, at position `i` and entered with `numFound`: the position at
which it returns, or the value of `numFound` when the loop ends. -/
def getNamedLoop (name : String) (index : Int) : List String → Nat → Int → Nat ⊕ Int
  | [], _, numFound => Sum.inr numFound
  | n :: rest, i, numFound =>
    if n == name then
      if numFound == index then Sum.inl i
      else getNamedLoop name index rest (i + 1) (numFound + 1)
    else getNamedLoop name index rest (i + 1) numFound

/-- The method `VSettingsTag::countNamedChildren` (line 969). -/
def VSettingsTag.countNamedChildren (attributes : List VSettingsAttribute)
    (children : List VSettingsNode) (name : String) : Int :=
  countNamedLoop name (nodeNames children)
    (countNamedLoop name (attributeNames attributes) 0)

/-- The method `VSettingsTag::getNamedChild` (line 987), as the position of the node
it returns; `none` is `NULL`. -/
def VSettingsTag.getNamedChildRef (attributes : List VSettingsAttribute)
    (children : List VSettingsNode) (name : String) (index : Int) : Option ChildRef :=
  match getNamedLoop name index (attributeNames attributes) 0 0 with
  | Sum.inl i => some (ChildRef.attributeAt i)
  | Sum.inr numFound =>
    match getNamedLoop name index (nodeNames children) 0 numFound with
    | Sum.inl j => some (ChildRef.childAt j)
    | Sum.inr _ => none

/-- The node a pointer into a tag points to. -/
def derefChild (attributes : List VSettingsAttribute) (children : List VSettingsNode) :
    ChildRef → Option VSettingsNode
  | ChildRef.attributeAt i => (attributes[i]?).map VSettingsNode.attr
  | ChildRef.childAt j => children[j]?

/-- The method `VSettingsTag::getNamedChild` (line 987): the node returned. -/
def VSettingsTag.getNamedChild (attributes : List VSettingsAttribute)
    (children : List VSettingsNode) (name : String) (index : Int) :
    Option VSettingsNode :=
  (VSettingsTag.getNamedChildRef attributes children name index).bind
    (derefChild attributes children)

/-- The method `VSettings::countNamedChildren` (line 722). -/
def VSettings.countNamedChildren (s : VSettings) (name : String) : Int :=
  countNamedLoop name (nodeNames s.mNodes) 0

/-- The method `VSettings::getNamedChild` (line 734): the node returned; `none` is
`NULL`. -/
def VSettings.getNamedChild (s : VSettings) (name : String) (index : Int) :
    Option VSettingsNode :=
  match getNamedLoop name index (nodeNames s.mNodes) 0 0 with
  | Sum.inl i => s.mNodes[i]?
  | Sum.inr _ => none

/-- The nodes of a tag named `name`, attributes first, then child nodes, each in the
order of its vector. -/
def namedChildren (attributes : List VSettingsAttribute) (children : List VSettingsNode)
    (name : String) : List VSettingsNode :=
  (attributes.filter (fun a => a.mName == name)).map VSettingsNode.attr ++
    children.filter (fun c => c.getName == name)

/-- What one backwards loop of `deleteNamedChildren` leaves. -/
structure DeleteResult (α : Type) where
  remaining : List α
  examined : List α
  deriving Repr

/-- One loop of `deleteNamedChildren` (lines 1020-1027, 1029-1036, 755-762), entered
with the loop variable `i`: element `i - 1` is read, and erased when its name is
`name`.  The elements read are recorded in order; `none` means that an index was
out of range. -/
def deleteNamedLoop {α : Type} (getName : α → String) (name : String) :
    Nat → List α → Option (DeleteResult α)
  | 0, elements => some { remaining := elements, examined := [] }
  | i + 1, elements =>
    match (elements[i]?) with
    | none => none
    | some child =>
      let rest :=
        if getName child == name then
          deleteNamedLoop getName name i (elements.eraseIdx i)
        else deleteNamedLoop getName name i elements
      rest.map (fun r => { r with examined := child :: r.examined })

/-- The method `VSettingsTag::deleteNamedChildren` (line 1017): the attributes and
the child nodes afterwards; `none` means that an index was out of range. -/
def VSettingsTag.deleteNamedChildren (attributes : List VSettingsAttribute)
    (children : List VSettingsNode) (name : String) :
    Option (DeleteResult VSettingsAttribute × DeleteResult VSettingsNode) :=
  match deleteNamedLoop VSettingsAttribute.mName name attributes.length attributes with
  | none => none
  | some ra =>
    match deleteNamedLoop VSettingsNode.getName name children.length children with
    | none => none
    | some rc => some (ra, rc)

/-- The method `VSettings::deleteNamedChildren` (line 752). -/
def VSettings.deleteNamedChildren (s : VSettings) (name : String) :
    Option (DeleteResult VSettingsNode) :=
  deleteNamedLoop VSettingsNode.getName name s.mNodes.length s.mNodes

/-- A tag with attributes `a`, `b`, `a` and child nodes named `b`, `a`, "<cdata>",
`a`. -/
def sampleAttributes : List VSettingsAttribute :=
  [{ mName := "a", mHasValue := true, mValue := "1" },
   { mName := "b", mHasValue := true, mValue := "2" },
   { mName := "a", mHasValue := false, mValue := "" }]

/-- The child nodes of the sample tag. -/
def sampleChildren : List VSettingsNode :=
  [VSettingsNode.tag "b" true [] [], VSettingsNode.tag "a" true [] [],
   VSettingsNode.cdata "text",
   VSettingsNode.tag "a" false [] [VSettingsNode.cdata "inner"]]

/-! ## Finding, setting and adding settings by path

The header vsettings.h is absent.  The default argument `preferCDATA` of the
`VSettingsNode` constructor, which every `new VSettingsTag(parent, name)` takes, is a
parameter (`defaultPreferCDATA`).  `VSettingsCDATA` and `VSettingsAttribute` define
none of `_findAttribute`, `_findChildTag`, `_addLeafValue` and `addChildNode` in
vsettings.cpp: their lookups give `NULL`, and the two others are the throwing ones of
`VSettingsNode` (lines 587, 600). -/

/-- The position of the first name equal to `name`: the loops of `_findAttribute`
(line 1156) and `_findChildTag` (lines 1177, 864). -/
def firstNamed (name : String) : List String → Option Nat
  | [] => none
  | n :: rest => if n == name then some 0 else (firstNamed name rest).map (· + 1)

/-- The method `VSettingsTag::_findAttribute` (line 1155), as a position of
`mAttributes`; `none` is `NULL`. -/
def VSettingsTag.findAttribute (attributes : List VSettingsAttribute) (name : String) :
    Option Nat :=
  firstNamed name (attributeNames attributes)

/-- The method `VSettingsTag::_findChildTag` (line 1165): for a name ending in ']'
the node `getNamedChild` gives for the name before '[' and the index between the
brackets, statically cast to a tag; otherwise the first child node with that name. -/
def VSettingsTag.findChildTag (attributes : List VSettingsAttribute)
    (children : List VSettingsNode) (name : String) : Outcome (Option ChildRef) :=
  if VString.endsWith name ']' then
    let leftBracketIndex := VString.indexOf name '['
    let indexString :=
      VString.getSubstring name (leftBracketIndex + 1) ((name.data.length : Int) - 1)
    match VString.parseInt indexString with
    | none => Outcome.raised
    | some theIndex =>
      let nameOnly := VString.getSubstring name 0 leftBracketIndex
      Outcome.returned
        (VSettingsTag.getNamedChildRef attributes children nameOnly theIndex)
  else
    Outcome.returned ((firstNamed name (nodeNames children)).map ChildRef.childAt)

/-- The method `VSettings::_findChildTag` (line 863), as a position of `mNodes`. -/
def VSettings.findChildTag (s : VSettings) (name : String) : Option Nat :=
  firstNamed name (nodeNames s.mNodes)

/-- A tag's vectors after the node a pointer points to was changed in place. -/
def storeChild (attributes : List VSettingsAttribute) (children : List VSettingsNode) :
    ChildRef → VSettingsNode → List VSettingsAttribute × List VSettingsNode
  | ChildRef.childAt j, node => (attributes, children.set j node)
  | ChildRef.attributeAt i, VSettingsNode.attr a => (attributes.set i a, children)
  | ChildRef.attributeAt _, _ => (attributes, children)

mutual
/-- The virtual `getStringValue`: `VSettingsTag` (line 1065) gives the string value of
its first child node named "<cdata>", or the empty string; `VSettingsCDATA` (line
1357) its text; `VSettingsAttribute` (line 1255) its value. -/
def VSettingsNode.getStringValue : VSettingsNode → String
  | VSettingsNode.tag _ _ _ children => firstCDATAValue children
  | VSettingsNode.cdata mCDATA => mCDATA
  | VSettingsNode.attr a => a.mValue
/-- The string value of the first node named "<cdata>" in a vector, which is what
`_findChildTag("<cdata>")` finds; the empty string when there is none. -/
def firstCDATAValue : List VSettingsNode → String
  | [] => ""
  | child :: rest =>
    if child.getName == "<cdata>" then VSettingsNode.getStringValue child
    else firstCDATAValue rest
end

mutual
/-- The virtual `setLiteral`: `VSettingsTag` (line 1146) passes it on to its first
child node named "<cdata>" and throws when there is none; `VSettingsCDATA` (line
1407) and `VSettingsAttribute` (line 1317) store the value.  `none` stands for the
exception. -/
def VSettingsNode.setLiteral : VSettingsNode → String → Option VSettingsNode
  | VSettingsNode.tag mName mPreferCDATA attributes children, value =>
    (setFirstCDATA children value).map
      (fun cs => VSettingsNode.tag mName mPreferCDATA attributes cs)
  | VSettingsNode.cdata _, value => some (VSettingsNode.cdata value)
  | VSettingsNode.attr a, value =>
    some (VSettingsNode.attr { a with mHasValue := true, mValue := value })
/-- The vector after `setLiteral` on its first node named "<cdata>". -/
def setFirstCDATA : List VSettingsNode → String → Option (List VSettingsNode)
  | [], _ => none
  | child :: rest, value =>
    if child.getName == "<cdata>" then
      (VSettingsNode.setLiteral child value).map (fun c => c :: rest)
    else (setFirstCDATA rest value).map (fun cs => child :: cs)
end

/-- The method `VSettingsNode::findNode` (line 50) on a tag, a CDATA node or an
attribute: the node found, `none` for `NULL`.  `fuel` bounds the depth of the
recursion. -/
def VSettingsNode.findNode :
    Nat → VSettingsNode → String → Outcome (Option VSettingsNode)
  | 0, _, _ => Outcome.outOfFuel
  | fuel + 1, self, path =>
    if VString.isEmpty path then Outcome.returned (some self)
    else
      let nextNodeName := (VSettings.splitPathFirst path).1
      let theRemainder := (VSettings.splitPathFirst path).2
      match self with
      | VSettingsNode.tag _ _ attributes children =>
        match (if VString.isEmpty theRemainder then
            VSettingsTag.findAttribute attributes nextNodeName else none) with
        | some i => Outcome.returned ((attributes[i]?).map VSettingsNode.attr)
        | none =>
          match VSettingsTag.findChildTag attributes children nextNodeName with
          | Outcome.returned (some ref) =>
            match derefChild attributes children ref with
            | some child => VSettingsNode.findNode fuel child theRemainder
            | none => Outcome.returned none
          | Outcome.returned none => Outcome.returned none
          | Outcome.raised => Outcome.raised
          | Outcome.outOfFuel => Outcome.outOfFuel
      | _ => Outcome.returned none

/-- The call `findMutableNode(path)` (line 75) followed by `setLiteral(value)` on the
node found, which changes that node in place: the receiver afterwards, `none` when
`findMutableNode` gives `NULL`; `raised` when `setLiteral` throws. -/
def VSettingsNode.setLiteralAt :
    Nat → VSettingsNode → String → String → Outcome (Option VSettingsNode)
  | 0, _, _, _ => Outcome.outOfFuel
  | fuel + 1, self, path, value =>
    if VString.isEmpty path then
      match self.setLiteral value with
      | some self1 => Outcome.returned (some self1)
      | none => Outcome.raised
    else
      let nextNodeName := (VSettings.splitPathFirst path).1
      let theRemainder := (VSettings.splitPathFirst path).2
      match self with
      | VSettingsNode.tag mName mPreferCDATA attributes children =>
        match (if VString.isEmpty theRemainder then
            VSettingsTag.findAttribute attributes nextNodeName else none) with
        | some i =>
          match (attributes[i]?) with
          | some a =>
            Outcome.returned (some (VSettingsNode.tag mName mPreferCDATA
              (attributes.set i { a with mHasValue := true, mValue := value })
              children))
          | none => Outcome.returned none
        | none =>
          match VSettingsTag.findChildTag attributes children nextNodeName with
          | Outcome.returned (some ref) =>
            match derefChild attributes children ref with
            | some child =>
              match VSettingsNode.setLiteralAt fuel child theRemainder value with
              | Outcome.returned (some child1) =>
                Outcome.returned (some (VSettingsNode.tag mName mPreferCDATA
                  (storeChild attributes children ref child1).1
                  (storeChild attributes children ref child1).2))
              | Outcome.returned none => Outcome.returned none
              | Outcome.raised => Outcome.raised
              | Outcome.outOfFuel => Outcome.outOfFuel
            | none => Outcome.returned none
          | Outcome.returned none => Outcome.returned none
          | Outcome.raised => Outcome.raised
          | Outcome.outOfFuel => Outcome.outOfFuel
      | _ => Outcome.returned none

/-- A new `VSettingsTag` named `name` with one child node, a `VSettingsCDATA` holding
`value` (lines 557-560, 881-883, 1190-1191). -/
def newTagWithCDATA (defaultPreferCDATA : Bool) (name value : String) : VSettingsNode :=
  VSettingsNode.tag name defaultPreferCDATA [] [VSettingsNode.cdata value]

/-- The name of the tag made for a path component (lines 568-573, 874-879): for a
component ending in ']', what stands before its '['. -/
def tagNameOf (name : String) : String :=
  if VString.endsWith name ']' then
    VString.getSubstring name 0 (VString.indexOf name '[')
  else name

/-- The method `VSettingsTag::_addLeafValue` (line 1187): the attributes and child
nodes afterwards. -/
def VSettingsTag.addLeafValue (defaultPreferCDATA mPreferCDATA : Bool)
    (attributes : List VSettingsAttribute) (children : List VSettingsNode)
    (name : String) (hasValue : Bool) (value : String) :
    List VSettingsAttribute × List VSettingsNode :=
  if hasValue then
    if mPreferCDATA then
      (attributes, children ++ [newTagWithCDATA defaultPreferCDATA name value])
    else
      (attributes ++ [{ mName := name, mHasValue := true, mValue := value }], children)
  else
    (attributes ++ [{ mName := name, mHasValue := false, mValue := "" }], children)

/-- The method `VSettingsNode::add` (line 538) on a tag, a CDATA node or an
attribute: the receiver afterwards.  On a CDATA node or an attribute it ends in the
throwing `_addLeafValue` or `addChildNode` of `VSettingsNode`.  `fuel` bounds the
depth of the recursion. -/
def VSettingsNode.add (defaultPreferCDATA : Bool) :
    Nat → VSettingsNode → String → Bool → String → Outcome VSettingsNode
  | 0, _, _, _, _ => Outcome.outOfFuel
  | fuel + 1, self, path, hasValue, value =>
    let nextNodeName := (VSettings.splitPathFirst path).1
    let theRemainder := (VSettings.splitPathFirst path).2
    match self with
    | VSettingsNode.tag mName mPreferCDATA attributes children =>
      if VString.isEmpty theRemainder then
        Outcome.returned (VSettingsNode.tag mName mPreferCDATA
          (VSettingsTag.addLeafValue defaultPreferCDATA mPreferCDATA attributes children
            nextNodeName hasValue value).1
          (VSettingsTag.addLeafValue defaultPreferCDATA mPreferCDATA attributes children
            nextNodeName hasValue value).2)
      else
        match VSettingsTag.findChildTag attributes children nextNodeName with
        | Outcome.returned (some ref) =>
          match derefChild attributes children ref with
          | some child =>
            match VSettingsNode.add defaultPreferCDATA fuel child theRemainder hasValue
                value with
            | Outcome.returned child1 =>
              Outcome.returned (VSettingsNode.tag mName mPreferCDATA
                (storeChild attributes children ref child1).1
                (storeChild attributes children ref child1).2)
            | Outcome.raised => Outcome.raised
            | Outcome.outOfFuel => Outcome.outOfFuel
          | none => Outcome.raised
        | Outcome.returned none =>
          match (VSettingsTag.findAttribute attributes nextNodeName).bind
              (fun i => (attributes[i]?).map (fun a => (i, a))) with
          | some (i, found) =>
            match VSettingsNode.add defaultPreferCDATA fuel
                (newTagWithCDATA defaultPreferCDATA nextNodeName found.mValue)
                theRemainder hasValue value with
            | Outcome.returned child1 =>
              Outcome.returned (VSettingsNode.tag mName mPreferCDATA
                (attributes.eraseIdx i) (children ++ [child1]))
            | Outcome.raised => Outcome.raised
            | Outcome.outOfFuel => Outcome.outOfFuel
          | none =>
            match VSettingsNode.add defaultPreferCDATA fuel
                (VSettingsNode.tag (tagNameOf nextNodeName) defaultPreferCDATA [] [])
                theRemainder hasValue value with
            | Outcome.returned child1 =>
              Outcome.returned (VSettingsNode.tag mName mPreferCDATA attributes
                (children ++ [child1]))
            | Outcome.raised => Outcome.raised
            | Outcome.outOfFuel => Outcome.outOfFuel
        | Outcome.raised => Outcome.raised
        | Outcome.outOfFuel => Outcome.outOfFuel
    | _ => Outcome.raised

/-- The method `VSettingsNode::getString(path)` (line 202) on a tag: the string value
of the node found; it throws when no node is found. -/
def VSettingsNode.getString (fuel : Nat) (self : VSettingsNode) (path : String) :
    Outcome String :=
  match VSettingsNode.findNode fuel self path with
  | Outcome.returned (some node) => Outcome.returned node.getStringValue
  | Outcome.returned none => Outcome.raised
  | Outcome.raised => Outcome.raised
  | Outcome.outOfFuel => Outcome.outOfFuel

/-- The method `VSettings::findNode` (line 709). -/
def VSettings.findNode (fuel : Nat) (s : VSettings) (path : String) :
    Outcome (Option VSettingsNode) :=
  let nextNodeName := (VSettings.splitPathFirst path).1
  let theRemainder := (VSettings.splitPathFirst path).2
  match (s.findChildTag nextNodeName).bind (fun j => s.mNodes[j]?) with
  | some child => VSettingsNode.findNode fuel child theRemainder
  | none => Outcome.returned none

/-- The call `findMutableNode(path)` on the top-level settings followed by
`setLiteral(value)` on the node found: the settings afterwards, `none` when
`findMutableNode` gives `NULL`. -/
def VSettings.setLiteralAt (fuel : Nat) (s : VSettings) (path value : String) :
    Outcome (Option VSettings) :=
  let nextNodeName := (VSettings.splitPathFirst path).1
  let theRemainder := (VSettings.splitPathFirst path).2
  match (s.findChildTag nextNodeName).bind
      (fun j => (s.mNodes[j]?).map (fun c => (j, c))) with
  | some (j, child) =>
    match VSettingsNode.setLiteralAt fuel child theRemainder value with
    | Outcome.returned (some child1) =>
      Outcome.returned (some { mNodes := s.mNodes.set j child1 })
    | Outcome.returned none => Outcome.returned none
    | Outcome.raised => Outcome.raised
    | Outcome.outOfFuel => Outcome.outOfFuel
  | none => Outcome.returned none

/-- The method `VSettingsNode::add` (line 538) on the top-level settings, whose
`_addLeafValue` is that of line 873, whose `addChildNode` is that of line 813, and
whose `_findAttribute` gives `NULL`. -/
def VSettings.add (defaultPreferCDATA : Bool) (fuel : Nat) (s : VSettings)
    (path : String) (hasValue : Bool) (value : String) : Outcome VSettings :=
  let nextNodeName := (VSettings.splitPathFirst path).1
  let theRemainder := (VSettings.splitPathFirst path).2
  if VString.isEmpty theRemainder then
    Outcome.returned { mNodes := s.mNodes ++
      [newTagWithCDATA defaultPreferCDATA (tagNameOf nextNodeName) value] }
  else
    match (s.findChildTag nextNodeName).bind
        (fun j => (s.mNodes[j]?).map (fun c => (j, c))) with
    | some (j, child) =>
      match VSettingsNode.add defaultPreferCDATA fuel child theRemainder hasValue
          value with
      | Outcome.returned child1 => Outcome.returned { mNodes := s.mNodes.set j child1 }
      | Outcome.raised => Outcome.raised
      | Outcome.outOfFuel => Outcome.outOfFuel
    | none =>
      match VSettingsNode.add defaultPreferCDATA fuel
          (VSettingsNode.tag (tagNameOf nextNodeName) defaultPreferCDATA [] [])
          theRemainder hasValue value with
      | Outcome.returned child1 => Outcome.returned { mNodes := s.mNodes ++ [child1] }
      | Outcome.raised => Outcome.raised
      | Outcome.outOfFuel => Outcome.outOfFuel

/-- The method `VSettingsNode::setStringValue` (line 496) on the top-level settings:
`setLiteral` on the node found, or `addStringValue` (line 409), which is
`add(path, true, value)`, when none is found. -/
def VSettings.setStringValue (defaultPreferCDATA : Bool) (fuel : Nat) (s : VSettings)
    (path value : String) : Outcome VSettings :=
  match s.setLiteralAt fuel path value with
  | Outcome.returned (some s1) => Outcome.returned s1
  | Outcome.returned none => s.add defaultPreferCDATA fuel path true value
  | Outcome.raised => Outcome.raised
  | Outcome.outOfFuel => Outcome.outOfFuel

/-- The method `VSettingsNode::nodeExists` (line 393) on the top-level settings. -/
def VSettings.nodeExists (fuel : Nat) (s : VSettings) (path : String) : Outcome Bool :=
  match s.findNode fuel path with
  | Outcome.returned node => Outcome.returned node.isSome
  | Outcome.raised => Outcome.raised
  | Outcome.outOfFuel => Outcome.outOfFuel

/-- The method `VSettingsNode::getString(path)` (line 202) on the top-level settings. -/
def VSettings.getString (fuel : Nat) (s : VSettings) (path : String) : Outcome String :=
  match s.findNode fuel path with
  | Outcome.returned (some node) => Outcome.returned node.getStringValue
  | Outcome.returned none => Outcome.raised
  | Outcome.raised => Outcome.raised
  | Outcome.outOfFuel => Outcome.outOfFuel

/-- The components of a path: the runs of characters between its '/' delimiters. -/
def pathComponents : List Char → List (List Char)
  | [] => [[]]
  | c :: rest =>
    if c = kPathDelimiterChar then [] :: pathComponents rest
    else
      match pathComponents rest with
      | [] => [[c]]
      | first :: others => (c :: first) :: others

/-- Settings as the parser leaves them for `<r a="x"/>`: one top-level tag `r` with
the attribute `a="x"`. -/
def sampleSettings : VSettings :=
  { mNodes := [VSettingsNode.tag "r" true
      [{ mName := "a", mHasValue := true, mValue := "x" }] []] }

/-- Whether a path holds no '[' and no ']'. -/
def noBrackets (path : String) : Bool :=
  path.data.all (fun c => c != '[' && c != ']')

/-- Whether none of the components of a path is "<cdata>", the name of the CDATA
nodes. -/
def noCDATAComponent (path : String) : Bool :=
  ! decide ("<cdata>".data ∈ pathComponents path.data)

/-! ## One call of `shutdown` -/

/-- A call of `shutdown` that ran `_selfDestruct`: the caller was the last worker the
session referred to, `_selfDestruct` was called once, and so was
`removeClientSession` on the session's server (when it has one). -/
theorem shutdown_destructed_facts (s : VClientSession) (c : Option VThread)
    (h : (s.shutdown c).selfDestructed = true) :
    workersCalled s [c] = true ∧
    (s.shutdown c).events.count Event.selfDestruct = 1 ∧
    (∀ server, s.mServer = some server →
      (s.shutdown c).events.count (Event.removeClientSession server) = 1) := by
  rcases c with _ | j | j | j <;> rcases hi : s.mInputThread with _ | i <;>
    rcases ho : s.mOutputThread with _ | o <;> rcases hs : s.mServer with _ | srv <;>
    simp [VClientSession.shutdown, VClientSession.shutdownDetach, workersCalled,
      hi, ho, hs] at h ⊢ <;>
    (try split_ifs at h ⊢) <;>
    simp_all

/-- A call of `shutdown` that did not run `_selfDestruct`: it called neither
`_selfDestruct` nor `removeClientSession`, kept the server reference, left at least
one worker reference set, and the workers still referred to are those of before,
the caller excepted. -/
theorem shutdown_alive_facts (s : VClientSession) (c : Option VThread)
    (h : (s.shutdown c).selfDestructed = false) :
    (s.shutdown c).events.count Event.selfDestruct = 0 ∧
    (∀ server, (s.shutdown c).events.count (Event.removeClientSession server) = 0) ∧
    (s.shutdown c).session.mServer = s.mServer ∧
    workersCalled (s.shutdown c).session [] = false ∧
    (∀ cs, workersCalled (s.shutdown c).session cs = workersCalled s (c :: cs)) := by
  rcases c with _ | j | j | j <;> rcases hi : s.mInputThread with _ | i <;>
    rcases ho : s.mOutputThread with _ | o <;> rcases hs : s.mServer with _ | srv <;>
    simp [VClientSession.shutdown, VClientSession.shutdownDetach, workersCalled,
      hi, ho, hs] at h ⊢ <;>
    (try split_ifs at h ⊢ with hj) <;>
    simp_all <;>
    (intro cs; have hj2 := Ne.symm hj; simp [hj2])

/-- Over a sequence of calls, `_selfDestruct` and `removeClientSession` are each
called once when the sequence is not empty and names every worker the session
referred to, and not at all otherwise. -/
theorem runShutdowns_counts (cs : List (Option VThread)) :
    ∀ (s : VClientSession) (r : ShutdownResult), runShutdowns s cs = some r →
      r.selfDestructed = (!cs.isEmpty && workersCalled s cs) ∧
      r.events.count Event.selfDestruct =
        (if (!cs.isEmpty && workersCalled s cs) = true then 1 else 0) ∧
      (∀ server, s.mServer = some server →
        r.events.count (Event.removeClientSession server) =
          (if (!cs.isEmpty && workersCalled s cs) = true then 1 else 0)) := by
  induction cs with
  | nil =>
    intro s r h
    simp only [runShutdowns, Option.some.injEq] at h
    subst h
    simp
  | cons c cs ih =>
    intro s r h
    simp only [runShutdowns] at h
    cases hd : (s.shutdown c).selfDestructed with
    | true =>
      obtain ⟨hw, hsd, hrm⟩ := shutdown_destructed_facts s c hd
      simp only [hd, if_true] at h
      cases cs with
      | nil =>
        simp only [Option.some.injEq] at h
        subst h
        simp [hw, hsd, hd]
        intro server hs
        exact hrm server hs
      | cons c2 cs2 => simp at h
    | false =>
      obtain ⟨hsd, hrm, hsrv, hne, hwc⟩ := shutdown_alive_facts s c hd
      simp only [hd, Bool.false_eq_true, if_false] at h
      cases hr2 : runShutdowns (s.shutdown c).session cs with
      | none => simp [hr2] at h
      | some r2 =>
        simp only [hr2, Option.map, Option.some.injEq] at h
        subst h
        obtain ⟨ih1, ih2, ih3⟩ := ih _ _ hr2
        have hb : (!cs.isEmpty && workersCalled (s.shutdown c).session cs) =
            (!(c :: cs).isEmpty && workersCalled s (c :: cs)) := by
          rw [← hwc cs]
          cases cs with
          | nil => simp [hne]
          | cons c2 cs2 => simp
        rw [hb] at ih1 ih2 ih3
        refine ⟨ih1, ?_, ?_⟩
        · simp only [List.count_append, hsd, ih2, Nat.zero_add]
        · intro server hs
          simp only [List.count_append, hrm server, Nat.zero_add]
          exact ih3 server (hsrv.trans hs)

/-- A sequence of calls has a defined outcome when no call before the last one has
already named every worker: the session then still exists at each call. -/
theorem runShutdowns_defined (pre : List (Option VThread)) :
    ∀ (s : VClientSession) (c : Option VThread),
      (pre = [] ∨ workersCalled s pre = false) →
      (runShutdowns s (pre ++ [c])).isSome = true := by
  induction pre with
  | nil =>
    intro s c _
    simp only [List.nil_append, runShutdowns]
    cases (s.shutdown c).selfDestructed <;> simp [runShutdowns]
  | cons p ps ih =>
    intro s c h
    have hw : workersCalled s (p :: ps) = false := by
      rcases h with h | h
      · simp at h
      · exact h
    cases hd : (s.shutdown p).selfDestructed with
    | true =>
      obtain ⟨hw1, _, _⟩ := shutdown_destructed_facts s p hd
      have : workersCalled s (p :: ps) = true := by
        revert hw1
        cases hi : s.mInputThread <;> cases ho : s.mOutputThread <;>
          simp [workersCalled, hi, ho] <;> intros <;> simp_all
      rw [this] at hw
      simp at hw
    | false =>
      obtain ⟨_, _, _, hne, hwc⟩ := shutdown_alive_facts s p hd
      have hps : ps = [] ∨ workersCalled (s.shutdown p).session ps = false :=
        Or.inr (by rw [hwc ps]; exact hw)
      have := ih (s.shutdown p).session c hps
      simp only [List.cons_append, runShutdowns, hd, Bool.false_eq_true, if_false]
      cases hr : runShutdowns (s.shutdown p).session (ps ++ [c]) with
      | none => simp [hr] at this
      | some r2 => simp

/-- C1 (as amended): for every session and every sequence of `shutdown` calls made
while the session exists, `_selfDestruct` runs exactly once, and
`removeClientSession` is called exactly once on the session's server, when the
sequence is not empty and every worker the session refers to occurs among the
initiators; otherwise (for instance when only the server calls on a session with
workers) neither runs at all. -/
theorem shutdown_sequence_destructs_once_iff_workers_called (s : VClientSession)
    (cs : List (Option VThread)) (r : ShutdownResult)
    (hrun : runShutdowns s cs = some r) :
    (r.selfDestructed = true ↔ (cs ≠ [] ∧ workersCalled s cs = true)) ∧
    r.events.count Event.selfDestruct =
      (if cs ≠ [] ∧ workersCalled s cs = true then 1 else 0) ∧
    (∀ server, s.mServer = some server →
      r.events.count (Event.removeClientSession server) =
        (if cs ≠ [] ∧ workersCalled s cs = true then 1 else 0)) := by
  obtain ⟨h1, h2, h3⟩ := runShutdowns_counts cs s r hrun
  have hb : (!cs.isEmpty && workersCalled s cs) = true ↔
      (cs ≠ [] ∧ workersCalled s cs = true) := by
    cases cs <;> simp
  refine ⟨?_, ?_, ?_⟩
  · rw [h1]; exact hb
  · rw [h2]; simp only [hb]
  · intro server hs
    rw [h3 server hs]; simp only [hb]

/-- C1, an instance: the server, the input worker, the server and the output worker
call `shutdown` in turn; the fourth call is the only one that runs `_selfDestruct`
and calls `removeClientSession`. -/
theorem shutdown_sequence_destructs_once_witness :
    runShutdowns sampleSession sampleCallers =
      some { session := { sampleSession with
                            mIsShuttingDown := true, mInputThread := none,
                            mOutputThread := none },
             selfDestructed := true,
             events :=
               [Event.logShutdown none, Event.stop (VThread.input 11),
                Event.stop (VThread.output 12),
                Event.logShutdown (some (VThread.input 11)),
                Event.stop (VThread.output 12),
                Event.logShutdown none, Event.stop (VThread.output 12),
                Event.logShutdown (some (VThread.output 12)),
                Event.removeClientSession 1, Event.selfDestruct] } ∧
    (sampleCallers ≠ [] ∧ workersCalled sampleSession sampleCallers = true) ∧
    ∃ r, runShutdowns sampleSession sampleCallers = some r ∧
      r.events.count Event.selfDestruct = 1 ∧
      r.events.count (Event.removeClientSession 1) = 1 :=
  ⟨by decide, by decide,
    (runShutdowns sampleSession sampleCallers).get (by decide), by decide,
    ((shutdown_sequence_destructs_once_iff_workers_called sampleSession sampleCallers
      ((runShutdowns sampleSession sampleCallers).get (by decide)) (by decide)).2.1).trans
      (by decide),
    ((shutdown_sequence_destructs_once_iff_workers_called sampleSession sampleCallers
      ((runShutdowns sampleSession sampleCallers).get (by decide)) (by decide)).2.2 1
      (by decide)).trans (by decide)⟩

/-- C1, the claim as stated fails: one call of `shutdown` by the server (K = 1) on a
session whose two workers are running only asks the workers to stop; it runs no
`_selfDestruct` and calls no `removeClientSession`. -/
theorem shutdown_by_server_alone_never_destructs :
    runShutdowns sampleSession [none] =
      some { session := { sampleSession with mIsShuttingDown := true },
             selfDestructed := false,
             events := [Event.logShutdown none, Event.stop (VThread.input 11),
               Event.stop (VThread.output 12)] } ∧
    [Event.logShutdown none, Event.stop (VThread.input 11),
      Event.stop (VThread.output 12)].count Event.selfDestruct = 0 ∧
    [Event.logShutdown none, Event.stop (VThread.input 11),
      Event.stop (VThread.output 12)].count (Event.removeClientSession 1) = 0 := by
  decide

/-- C2: when the worker that calls `shutdown` is the session's input worker
(respectively its output worker), `shutdown` does not call `stop()` on that worker
and sets the reference to it to null. -/
theorem shutdown_initiator_detached_not_stopped (s : VClientSession) :
    (∀ i, s.mInputThread = some i →
      Event.stop (VThread.input i) ∉ (s.shutdown (some (VThread.input i))).events ∧
      (s.shutdown (some (VThread.input i))).session.mInputThread = none) ∧
    (∀ o, s.mOutputThread = some o →
      Event.stop (VThread.output o) ∉ (s.shutdown (some (VThread.output o))).events ∧
      (s.shutdown (some (VThread.output o))).session.mOutputThread = none) := by
  constructor
  · intro i hi
    cases hs : s.mServer <;> cases ho : s.mOutputThread <;>
      simp [VClientSession.shutdown, VClientSession.shutdownDetach, hi, ho, hs]
  · intro o ho
    cases hs : s.mServer <;> cases hi : s.mInputThread <;>
      simp [VClientSession.shutdown, VClientSession.shutdownDetach, hi, ho, hs]

/-- C2, an instance: the input worker 11 of the sample session calls `shutdown`; the
only `stop()` goes to the output worker 12. -/
theorem shutdown_initiator_detached_not_stopped_witness :
    sampleSession.mInputThread = some 11 ∧
    (sampleSession.shutdown (some (VThread.input 11))).events =
      [Event.logShutdown (some (VThread.input 11)), Event.stop (VThread.output 12)] ∧
    (Event.stop (VThread.input 11) ∉
        (sampleSession.shutdown (some (VThread.input 11))).events ∧
      (sampleSession.shutdown (some (VThread.input 11))).session.mInputThread = none) :=
  ⟨rfl, by decide, (shutdown_initiator_detached_not_stopped sampleSession).1 11 rfl⟩

/-- C3: for every session and every caller (the server included), `shutdown` calls
`stop()` exactly once on each worker the session refers to that is not the caller,
and leaves the reference to that worker set. -/
theorem shutdown_stops_each_other_worker_once (s : VClientSession) (c : Option VThread) :
    (∀ i, s.mInputThread = some i → c ≠ some (VThread.input i) →
      (s.shutdown c).events.count (Event.stop (VThread.input i)) = 1 ∧
      (s.shutdown c).session.mInputThread = some i) ∧
    (∀ o, s.mOutputThread = some o → c ≠ some (VThread.output o) →
      (s.shutdown c).events.count (Event.stop (VThread.output o)) = 1 ∧
      (s.shutdown c).session.mOutputThread = some o) := by
  constructor
  · intro i hi hc
    cases ho : s.mOutputThread with
    | none => simp [VClientSession.shutdown, VClientSession.shutdownDetach, hi, ho, hc]
    | some o =>
      by_cases hco : c = some (VThread.output o) <;>
        simp [VClientSession.shutdown, VClientSession.shutdownDetach, hi, ho, hc, hco]
  · intro o ho hc
    cases hi : s.mInputThread with
    | none => simp [VClientSession.shutdown, VClientSession.shutdownDetach, hi, ho, hc]
    | some i =>
      by_cases hci : c = some (VThread.input i) <;>
        cases hs : s.mServer <;>
        simp [VClientSession.shutdown, VClientSession.shutdownDetach, hi, ho, hc, hci, hs]

/-- C3, an instance: the server calls `shutdown` on the sample session; each of the
two workers gets one `stop()` and stays referred to. -/
theorem shutdown_stops_each_other_worker_once_witness :
    (sampleSession.shutdown none).events =
      [Event.logShutdown none, Event.stop (VThread.input 11),
        Event.stop (VThread.output 12)] ∧
    ((sampleSession.shutdown none).events.count (Event.stop (VThread.input 11)) = 1 ∧
      (sampleSession.shutdown none).session.mInputThread = some 11) ∧
    ((sampleSession.shutdown none).events.count (Event.stop (VThread.output 12)) = 1 ∧
      (sampleSession.shutdown none).session.mOutputThread = some 12) :=
  ⟨by decide,
    (shutdown_stops_each_other_worker_once sampleSession none).1 11 rfl (by decide),
    (shutdown_stops_each_other_worker_once sampleSession none).2 12 rfl (by decide)⟩

/-- C4: a call of `shutdown` runs `_selfDestruct` exactly when both worker references
are null after the detach/stop step; it then calls `removeClientSession` (when the
server reference is not null) and `_selfDestruct` last, in that order.  When a worker
reference is still set the call makes neither: its events are those of the
detach/stop step, which contain no `removeClientSession` and no `_selfDestruct`. -/
theorem shutdown_destructs_iff_both_detached (s : VClientSession) (c : Option VThread) :
    (s.shutdown c).session = (s.shutdownDetach c).1 ∧
    ((s.shutdown c).selfDestructed = true ↔
      ((s.shutdownDetach c).1.mInputThread = none ∧
        (s.shutdownDetach c).1.mOutputThread = none)) ∧
    (((s.shutdownDetach c).1.mInputThread = none ∧
        (s.shutdownDetach c).1.mOutputThread = none) →
      (s.shutdown c).events =
        (s.shutdownDetach c).2 ++
          (match s.mServer with
            | some server => [Event.removeClientSession server]
            | none => []) ++ [Event.selfDestruct]) ∧
    (¬ ((s.shutdownDetach c).1.mInputThread = none ∧
        (s.shutdownDetach c).1.mOutputThread = none) →
      (s.shutdown c).events = (s.shutdownDetach c).2) ∧
    (∀ e ∈ (s.shutdownDetach c).2, e.isRemove = false ∧ e ≠ Event.selfDestruct) := by
  have hsrv : (s.shutdownDetach c).1.mServer = s.mServer := by
    unfold VClientSession.shutdownDetach
    cases hi : s.mInputThread <;> cases ho : s.mOutputThread <;> simp <;>
      (repeat' split) <;> simp
  refine ⟨?_, ?_, ?_, ?_, ?_⟩
  · by_cases h : (s.shutdownDetach c).1.mInputThread = none ∧
        (s.shutdownDetach c).1.mOutputThread = none <;>
      simp [VClientSession.shutdown, h]
  · by_cases h : (s.shutdownDetach c).1.mInputThread = none ∧
        (s.shutdownDetach c).1.mOutputThread = none <;>
      simp [VClientSession.shutdown, h]
  · intro h
    simp only [VClientSession.shutdown, if_pos h, hsrv]
    cases s.mServer <;> simp
  · intro h
    simp only [VClientSession.shutdown, if_neg h]
  · intro e he
    unfold VClientSession.shutdownDetach at he
    cases hi : s.mInputThread <;> cases ho : s.mOutputThread <;> simp [hi, ho] at he <;>
      (repeat' split at he) <;> (try simp at he) <;>
      (try rcases he with he | he | he) <;> (try subst he) <;> simp_all [Event.isRemove]

/-- C4, an instance: the output worker calls `shutdown` after the input worker has
detached; the call notifies server 1 and then runs `_selfDestruct`. -/
theorem shutdown_destructs_iff_both_detached_witness :
    (({ sampleSession with mInputThread := none }).shutdown
        (some (VThread.output 12))).events =
      [Event.logShutdown (some (VThread.output 12)), Event.removeClientSession 1,
        Event.selfDestruct] ∧
    ((({ sampleSession with mInputThread := none }).shutdown
        (some (VThread.output 12))).selfDestructed = true ↔
      ((({ sampleSession with mInputThread := none }).shutdownDetach
          (some (VThread.output 12))).1.mInputThread = none ∧
        (({ sampleSession with mInputThread := none }).shutdownDetach
          (some (VThread.output 12))).1.mOutputThread = none)) :=
  ⟨by decide,
    (shutdown_destructs_iff_both_detached { sampleSession with mInputThread := none }
      (some (VThread.output 12))).2.1⟩

/-! ## Self-destruction waits for the tasks -/

/-- A task that is attached before a step is still attached after it, unless the
step is that task ending. -/
theorem destructStep_task_stays_or_ended (d d2 : DestructState) (e : DestructEvent)
    (h : destructStep d e = some d2) (t : VMessageHandlerTask)
    (ht : t ∈ d.session.mTasks) :
    t ∈ d2.session.mTasks ∨ e = DestructEvent.taskEnded t := by
  obtain ⟨s, ph⟩ := d
  cases e with
  | self =>
    left
    cases ph <;> simp [destructStep] at h
    · split at h <;> simp at h <;> subst h <;> exact ht
    · subst h; exact ht
    · subst h; exact ht
  | taskEnded u =>
    by_cases hu : t = u
    · right; rw [hu]
    · left
      cases ph <;> simp [destructStep] at h <;> subst h <;>
        simpa [VClientSession.detachTask] using (List.mem_erase_of_ne hu).mpr ht
  | taskAttached u =>
    left
    cases ph <;> simp [destructStep] at h <;> subst h <;>
      simpa [VClientSession.attachTask] using Or.inl ht

/-- A task that is attached before a run is still attached after it, unless the run
contains that task ending. -/
theorem destructRun_task_stays_or_ended (sched : List DestructEvent) :
    ∀ (d d2 : DestructState), destructRun d sched = some d2 →
      ∀ t ∈ d.session.mTasks,
        t ∈ d2.session.mTasks ∨ DestructEvent.taskEnded t ∈ sched := by
  induction sched with
  | nil =>
    intro d d2 h t ht
    simp only [destructRun, Option.some.injEq] at h
    subst h
    exact Or.inl ht
  | cons e es ih =>
    intro d d2 h t ht
    simp only [destructRun] at h
    cases hstep : destructStep d e with
    | none => simp [hstep] at h
    | some d1 =>
      simp only [hstep] at h
      rcases destructStep_task_stays_or_ended d d1 e hstep t ht with h1 | h1
      · rcases ih d1 d2 h t h1 with h2 | h2
        · exact Or.inl h2
        · exact Or.inr (List.mem_cons_of_mem _ h2)
      · exact Or.inr (by rw [h1]; exact List.mem_cons_self _ _)

/-- A run over a schedule followed by one more event is the run over the schedule
followed by one step. -/
theorem destructRun_snoc (sched : List DestructEvent) (e : DestructEvent) :
    ∀ d : DestructState,
      destructRun d (sched ++ [e])
        = (destructRun d sched).bind (fun d1 => destructStep d1 e) := by
  induction sched with
  | nil =>
    intro d
    simp only [List.nil_append, destructRun, Option.bind]
    cases destructStep d e <;> rfl
  | cons e1 es ih =>
    intro d
    simp only [List.cons_append, destructRun]
    cases destructStep d e1 with
    | none => rfl
    | some d1 => exact ih d1

/-- Once the loop of `_selfDestruct` is left, every task that was attached when
`_selfDestruct` started has been detached: the check that left the loop found the
list empty. -/
theorem destructRun_left_loop_after_tasks_ended (s : VClientSession)
    (sched : List DestructEvent) :
    ∀ d : DestructState, destructRun (destructEntry s) sched = some d →
      d.phase = DestructPhase.leaving ∨ d.phase = DestructPhase.deleted →
      ∀ t ∈ s.mTasks, DestructEvent.taskEnded t ∈ sched := by
  induction sched using List.reverseRecOn with
  | nil =>
    intro d h hph
    simp only [destructRun, Option.some.injEq] at h
    subst h
    simp [destructEntry] at hph
  | append_singleton pre e ih =>
    intro d h hph t ht
    rw [destructRun_snoc] at h
    cases hpre : destructRun (destructEntry s) pre with
    | none => simp [hpre] at h
    | some d1 =>
      simp only [hpre, Option.bind] at h
      have hmem : DestructEvent.taskEnded t ∈ pre →
          DestructEvent.taskEnded t ∈ pre ++ [e] :=
        fun hm => List.mem_append_left _ hm
      by_cases hph1 : d1.phase = DestructPhase.leaving ∨ d1.phase = DestructPhase.deleted
      · exact hmem (ih d1 hpre hph1 t ht)
      · obtain ⟨s1, ph1⟩ := d1
        cases ph1 with
        | leaving => simp at hph1
        | deleted => simp at hph1
        | sleeping =>
          cases e <;> simp [destructStep] at h <;> subst h <;> simp at hph
        | checking =>
          cases e with
          | taskEnded u => simp [destructStep] at h
          | taskAttached u => simp [destructStep] at h
          | self =>
            simp only [destructStep] at h
            by_cases hempty : s1.mTasks.isEmpty = true
            · have hnil : s1.mTasks = [] := List.isEmpty_iff.mp hempty
              rcases destructRun_task_stays_or_ended pre (destructEntry s) _ hpre t
                (by simpa [destructEntry] using ht) with h1 | h1
              · rw [show ({ session := s1, phase := DestructPhase.checking } :
                  DestructState).session.mTasks = s1.mTasks from rfl, hnil] at h1
                simp at h1
              · exact hmem h1
            · simp only [hempty, Bool.false_eq_true, if_false, Option.some.injEq] at h
              subst h
              simp at hph

/-- What `_selfDestruct` does wait for: the step that deletes the session is taken
right after the loop was left, and every task that was attached when `_selfDestruct`
started has been detached by then. -/
theorem selfDestruct_waits_for_tasks_attached_at_entry (s : VClientSession)
    (sched : List DestructEvent) (d d2 : DestructState)
    (hrun : destructRun (destructEntry s) sched = some d)
    (hstep : destructStep d DestructEvent.self = some d2)
    (hdel : d2.phase = DestructPhase.deleted) :
    d.phase = DestructPhase.leaving ∧
    ∀ t ∈ s.mTasks, DestructEvent.taskEnded t ∈ sched := by
  have hph : d.phase = DestructPhase.leaving := by
    obtain ⟨ds, ph⟩ := d
    cases ph <;> simp [destructStep] at hstep
    · split at hstep <;> simp at hstep <;> subst hstep <;> simp at hdel
    · subst hstep; simp at hdel
    · rfl
  exact ⟨hph, destructRun_left_loop_after_tasks_ended s sched d hrun (Or.inl hph)⟩

/-- The run of `_selfDestruct` on a session with tasks 5 and 6 attached: the first
check finds both, task 5 ends during the first sleep, the second check finds task 6,
which ends during the second sleep, and the third check finds the list empty; the
delete step follows, and both tasks have ended by then. -/
theorem selfDestruct_waits_for_sample_tasks :
    destructRun (destructEntry busySession) sampleSchedule =
      some { session := sampleSession, phase := DestructPhase.leaving } ∧
    destructStep { session := sampleSession, phase := DestructPhase.leaving }
        DestructEvent.self =
      some { session := sampleSession, phase := DestructPhase.deleted } ∧
    destructRun (destructEntry busySession) [DestructEvent.self, DestructEvent.self] =
      some { session := busySession, phase := DestructPhase.checking } ∧
    ∀ t ∈ busySession.mTasks, DestructEvent.taskEnded t ∈ sampleSchedule :=
  ⟨by decide, by decide, by decide,
    (selfDestruct_waits_for_tasks_attached_at_entry busySession sampleSchedule
      { session := sampleSession, phase := DestructPhase.leaving }
      { session := sampleSession, phase := DestructPhase.deleted }
      (by decide) (by decide) rfl).2⟩

/-- C5 fails on the code: `attachTask` can run between the last check of the task
list and `delete this`, when the mutex is free.  On the sample session with task 5
attached, the task ends during the sleep and the second check finds the list empty;
another thread then attaches task 9, and the delete step is taken in a state whose
task list is `[9]`.  The same happens at once on a session without tasks. -/
theorem selfDestruct_deletes_with_task_attached_after_last_check :
    destructRun (destructEntry { detachedSession with mTasks := [5] })
        lateAttachSchedule
      = some { session := { detachedSession with mTasks := [9] },
               phase := DestructPhase.deleted } ∧
    destructRun (destructEntry detachedSession)
        [DestructEvent.self, DestructEvent.taskAttached 9, DestructEvent.self]
      = some { session := { detachedSession with mTasks := [9] },
               phase := DestructPhase.deleted } ∧
    (destructRun (destructEntry detachedSession)
        [DestructEvent.self, DestructEvent.taskAttached 9]).map
      (fun d => (d.phase, d.session.mTasks)) = some (DestructPhase.leaving, [9]) := by
  decide

/-! ## Posting output messages -/

/-- C6: on a session that is shutting down `postOutputMessage` returns false and
leaves the session as it is; with `releaseIfNotPosted` the one thing it does is
release the message, once, to the pool recorded on the message
(`message->getPool()`), and without it the call does nothing at all. -/
theorem postOutputMessage_refused_when_shutting_down (s : VClientSession) (m : VMessage)
    (q : Bool) (h : s.mIsShuttingDown = true) :
    s.postOutputMessage m true q = some (false, s, [Event.releaseMessage m m.getPool]) ∧
    s.postOutputMessage m false q = some (false, s, []) := by
  simp [VClientSession.postOutputMessage, h]

/-- C6, an instance: message 3 of pool 7 posted to a session that is shutting down. -/
theorem postOutputMessage_refused_when_shutting_down_witness :
    shuttingDownSession.mIsShuttingDown = true ∧
    (sampleMessage 3).getPool = some 7 ∧
    (shuttingDownSession.postOutputMessage (sampleMessage 3) true true =
        some (false, shuttingDownSession,
          [Event.releaseMessage (sampleMessage 3) (sampleMessage 3).getPool]) ∧
      shuttingDownSession.postOutputMessage (sampleMessage 3) false true =
        some (false, shuttingDownSession, [])) :=
  ⟨rfl, rfl,
    postOutputMessage_refused_when_shutting_down shuttingDownSession (sampleMessage 3)
      true rfl⟩

/-- C7: when the shutdown flag is set or the client is going offline,
`postOutputMessage` returns false and leaves the standby queue and the output
worker's queue as they were, whatever `releaseIfNotPosted` and
`queueStandbyIfStartingUp` are. -/
theorem postOutputMessage_refused_keeps_queues (s : VClientSession) (m : VMessage)
    (r q : Bool) (h : s.mIsShuttingDown = true ∨ s.clientGoingOffline = true) :
    ∃ s2 ev, s.postOutputMessage m r q = some (false, s2, ev) ∧
      s2.mStartupStandbyQueue = s.mStartupStandbyQueue ∧
      s2.outputQueue = s.outputQueue := by
  rcases h with h | h <;> cases r <;>
    simp [VClientSession.postOutputMessage, h]

/-- C7, an instance: a post to a client that is going offline, with two messages on
standby and one in the output queue. -/
theorem postOutputMessage_refused_keeps_queues_witness :
    ({ standbySession with clientGoingOffline := true }).postOutputMessage
        (sampleMessage 3) false true =
      some (false, { standbySession with clientGoingOffline := true }, []) ∧
    ∃ s2 ev,
      ({ standbySession with clientGoingOffline := true }).postOutputMessage
          (sampleMessage 3) false true = some (false, s2, ev) ∧
      s2.mStartupStandbyQueue = [sampleMessage 1, sampleMessage 2] ∧
      s2.outputQueue = [sampleMessage 0] :=
  ⟨by decide,
    postOutputMessage_refused_keeps_queues
      { standbySession with clientGoingOffline := true } (sampleMessage 3) false true
      (Or.inr rfl)⟩

/-- C8 (as amended): on a session that is neither shutting down nor going offline,
`postOutputMessage` with `queueStandbyIfStartingUp` set and the client not online
returns true, appends the message at the tail of the standby queue and changes
nothing else; otherwise, when the output worker reference is not null, it returns
true, appends the message to the output worker's queue and changes nothing else.
In both cases no message is released. -/
theorem postOutputMessage_accepted_one_queue (s : VClientSession) (m : VMessage)
    (r q : Bool) (hs : s.mIsShuttingDown = false) (hg : s.clientGoingOffline = false) :
    ((q = true ∧ s.clientOnline = false) →
      s.postOutputMessage m r q =
        some (true, { s with mStartupStandbyQueue := s.mStartupStandbyQueue ++ [m] },
          [Event.logStandby m])) ∧
    (¬ (q = true ∧ s.clientOnline = false) → ∀ o, s.mOutputThread = some o →
      s.postOutputMessage m r q =
        some (true, { s with outputQueue := s.outputQueue ++ [m] }, [])) := by
  constructor
  · rintro ⟨hq, ho⟩
    simp [VClientSession.postOutputMessage, hs, hg, hq, ho, VMessageQueue.postMessage]
  · intro hn o ho
    have hb : (q && !s.clientOnline) = false := by
      cases q <;> cases hc : s.clientOnline <;> simp_all
    simp [VClientSession.postOutputMessage, VClientSession.postToOutputThread, hs, hg,
      hb, ho, VMessageQueue.postMessage]

/-- C8, an instance: on the sample session (not online, output worker 12) a post with
`queueStandbyIfStartingUp` goes to the standby queue and one without it goes to the
output worker's queue. -/
theorem postOutputMessage_accepted_one_queue_witness :
    sampleSession.postOutputMessage (sampleMessage 3) true true =
      some (true, { sampleSession with mStartupStandbyQueue := [sampleMessage 3] },
        [Event.logStandby (sampleMessage 3)]) ∧
    sampleSession.postOutputMessage (sampleMessage 3) true false =
      some (true, { sampleSession with outputQueue := [sampleMessage 3] }, []) :=
  ⟨(postOutputMessage_accepted_one_queue sampleSession (sampleMessage 3) true true
      rfl rfl).1 ⟨rfl, rfl⟩,
   (postOutputMessage_accepted_one_queue sampleSession (sampleMessage 3) true false
      rfl rfl).2 (by decide) 12 rfl⟩

/-- C8, the claim as stated fails: a session as the constructor leaves it is neither
shutting down nor going offline, and a post to it without
`queueStandbyIfStartingUp` does not return true: it calls `postOutputMessage`
through the null `mOutputThread`. -/
theorem postOutputMessage_without_output_worker_fails :
    newSession.mIsShuttingDown = false ∧ newSession.clientGoingOffline = false ∧
    newSession.mOutputThread = none ∧
    newSession.postOutputMessage (sampleMessage 3) false false = none := by
  decide

/-! ## The standby queue -/

/-- The loop of `_moveStandbyMessagesToAsyncOutputQueue`, entered with a message in
hand and `q` on standby, posts that message and then those of `q`, in order. -/
theorem moveStandbyLoop_drains (q : List VMessage) :
    ∀ (s : VClientSession) (msg : VMessage) (ev : List Event) (o : VMessageOutputThread),
      s.mOutputThread = some o → s.mStartupStandbyQueue = q →
      VClientSession.moveStandbyLoop s (some msg) ev =
        some ({ s with mStartupStandbyQueue := [],
                       outputQueue := s.outputQueue ++ msg :: q },
              ev ++ (msg :: q).map Event.logMove) := by
  induction q with
  | nil =>
    intro s msg ev o ho hq
    rw [VClientSession.moveStandbyLoop]
    simp only [ho, hq, VMessageQueue.getNextMessage, VClientSession.postToOutputThread]
    rw [VClientSession.moveStandbyLoop]
    simp [VMessageQueue.postMessage]
  | cons x rest ih =>
    intro s msg ev o ho hq
    rw [VClientSession.moveStandbyLoop]
    simp only [ho, hq, VMessageQueue.getNextMessage, VClientSession.postToOutputThread]
    rw [ih _ x _ o rfl rfl]
    simp [VMessageQueue.postMessage]

/-- With an output worker, `_moveStandbyMessagesToAsyncOutputQueue` returns, with the
standby queue empty and its messages appended to the output queue. -/
theorem moveStandby_eq (s : VClientSession) (o : VMessageOutputThread)
    (h : s.mOutputThread = some o) :
    s.moveStandbyMessagesToAsyncOutputQueue =
      some ({ s with mStartupStandbyQueue := [],
                     outputQueue := s.outputQueue ++ s.mStartupStandbyQueue },
            s.mStartupStandbyQueue.map Event.logMove) := by
  unfold VClientSession.moveStandbyMessagesToAsyncOutputQueue
  cases hq : s.mStartupStandbyQueue with
  | nil =>
    simp only [VMessageQueue.getNextMessage]
    rw [VClientSession.moveStandbyLoop]
    cases s
    simp_all
  | cons x rest =>
    simp only [VMessageQueue.getNextMessage]
    rw [moveStandbyLoop_drains rest { s with mStartupStandbyQueue := rest } x [] o h rfl]
    simp

/-- Posts with `queueStandbyIfStartingUp` to an active session that is not online are
all accepted and queue the messages on standby, in order. -/
theorem postEach_standby (early : List (VMessage × Bool)) :
    ∀ s : VClientSession, s.mIsShuttingDown = false → s.clientGoingOffline = false →
      s.clientOnline = false →
      postEach s (early.map (fun p => (p.1, p.2, true))) =
        some ({ s with mStartupStandbyQueue :=
                  s.mStartupStandbyQueue ++ early.map (fun p => p.1) },
              early.map (fun _ => true)) := by
  induction early with
  | nil => intro s _ _ _; simp [postEach]
  | cons p rest ih =>
    intro s hs hg ho
    simp only [List.map_cons, postEach]
    have hp : s.postOutputMessage p.1 p.2 true =
        some (true, { s with mStartupStandbyQueue := s.mStartupStandbyQueue ++ [p.1] },
          [Event.logStandby p.1]) := by
      simp [VClientSession.postOutputMessage, hs, hg, ho, VMessageQueue.postMessage]
    rw [hp]
    simp only
    rw [ih { s with mStartupStandbyQueue := s.mStartupStandbyQueue ++ [p.1] } hs hg ho]
    simp

/-- Posts to an active session that is online and has an output worker are all
accepted and queue the messages for output, in order. -/
theorem postEach_online (late : List (VMessage × Bool × Bool)) :
    ∀ (s : VClientSession) (o : VMessageOutputThread), s.mIsShuttingDown = false →
      s.clientGoingOffline = false → s.clientOnline = true → s.mOutputThread = some o →
      postEach s late =
        some ({ s with outputQueue := s.outputQueue ++ late.map (fun p => p.1) },
              late.map (fun _ => true)) := by
  induction late with
  | nil => intro s o _ _ _ _; simp [postEach]
  | cons p rest ih =>
    intro s o hs hg hon ho
    obtain ⟨m, r, q⟩ := p
    simp only [List.map_cons, postEach]
    have hp : s.postOutputMessage m r q =
        some (true, { s with outputQueue := s.outputQueue ++ [m] }, []) := by
      simp [VClientSession.postOutputMessage, VClientSession.postToOutputThread, hs, hg,
        hon, ho, VMessageQueue.postMessage]
    rw [hp]
    simp only
    rw [ih { s with outputQueue := s.outputQueue ++ [m] } o hs hg hon ho]
    simp

/-- Posts to a session that is shutting down or going offline are all refused and
leave the session as it is. -/
theorem postEach_refused (calls : List (VMessage × Bool × Bool)) :
    ∀ s : VClientSession, (s.mIsShuttingDown = true ∨ s.clientGoingOffline = true) →
      postEach s calls = some (s, calls.map (fun _ => false)) := by
  induction calls with
  | nil => intro s _; simp [postEach]
  | cons p rest ih =>
    intro s h
    obtain ⟨m, r, q⟩ := p
    have hp : ∃ ev, s.postOutputMessage m r q = some (false, s, ev) := by
      rcases h with h | h <;> cases r <;> simp [VClientSession.postOutputMessage, h]
    obtain ⟨ev, hp⟩ := hp
    simp only [postEach, hp, ih s h, List.map_cons]

/-- With nothing on standby `_moveStandbyMessagesToAsyncOutputQueue` does nothing (the
loop body, and with it the output worker, is never reached). -/
theorem moveStandby_nothing_on_standby (s : VClientSession)
    (h : s.mStartupStandbyQueue = []) :
    s.moveStandbyMessagesToAsyncOutputQueue = some (s, []) := by
  unfold VClientSession.moveStandbyMessagesToAsyncOutputQueue
  simp only [h, VMessageQueue.getNextMessage]
  rw [VClientSession.moveStandbyLoop]
  cases s
  simp_all

/-- With a message on standby and a null `mOutputThread` the loop body calls
`postOutputMessage` through the null pointer. -/
theorem moveStandby_without_output_worker (s : VClientSession) (x : VMessage)
    (rest : List VMessage) (h : s.mOutputThread = none)
    (hq : s.mStartupStandbyQueue = x :: rest) :
    s.moveStandbyMessagesToAsyncOutputQueue = none := by
  unfold VClientSession.moveStandbyMessagesToAsyncOutputQueue
  simp only [hq, VMessageQueue.getNextMessage]
  rw [VClientSession.moveStandbyLoop]
  simp [h]

/-- Whenever the start-up scenario runs and every post returned true, the output
queue holds the early messages followed by the late ones. -/
theorem startup_all_accepted_order (s : VClientSession) (early : List (VMessage × Bool))
    (late : List (VMessage × Bool × Bool)) (s3 : VClientSession) (results : List Bool)
    (hon : s.clientOnline = false) (hq : s.outputQueue = [])
    (hsb : s.mStartupStandbyQueue = [])
    (hrun : startupScenario s early late = some (s3, results))
    (hall : ∀ b ∈ results, b = true) :
    s3.outputQueue = early.map (fun p => p.1) ++ late.map (fun p => p.1) ∧
    s3.mStartupStandbyQueue = [] := by
  by_cases hact : s.mIsShuttingDown = true ∨ s.clientGoingOffline = true
  · -- every post is refused, so there was none
    unfold startupScenario at hrun
    rw [postEach_refused _ s hact] at hrun
    simp only at hrun
    rw [moveStandby_nothing_on_standby { s with clientOnline := true } hsb] at hrun
    simp only at hrun
    rw [postEach_refused late { s with clientOnline := true } hact] at hrun
    simp only [Option.some.injEq, Prod.mk.injEq] at hrun
    obtain ⟨rfl, rfl⟩ := hrun
    have he : early = [] := by
      cases early with
      | nil => rfl
      | cons p rest => simpa using hall false (by simp)
    have hl : late = [] := by
      cases late with
      | nil => rfl
      | cons p rest => simpa using hall false (by simp)
    subst he hl
    simp [hq, hsb]
  · have hs : s.mIsShuttingDown = false := by
      cases h : s.mIsShuttingDown <;> simp_all
    have hg : s.clientGoingOffline = false := by
      cases h : s.clientGoingOffline <;> simp_all
    unfold startupScenario at hrun
    rw [postEach_standby early s hs hg hon] at hrun
    simp only at hrun
    cases ho : s.mOutputThread with
    | some o =>
      rw [moveStandby_eq
        { s with mStartupStandbyQueue := s.mStartupStandbyQueue ++ early.map (fun p => p.1),
                 clientOnline := true } o ho] at hrun
      simp only at hrun
      rw [postEach_online late
        { s with mStartupStandbyQueue := [],
                 outputQueue := s.outputQueue ++
                   (s.mStartupStandbyQueue ++ early.map (fun p => p.1)),
                 clientOnline := true } o hs hg rfl ho] at hrun
      simp only [Option.some.injEq, Prod.mk.injEq] at hrun
      obtain ⟨rfl, _⟩ := hrun
      simp [hq, hsb]
    | none =>
      cases early with
      | cons p rest =>
        rw [moveStandby_without_output_worker
          { s with mStartupStandbyQueue :=
                     s.mStartupStandbyQueue ++ List.map (fun p => p.1) (p :: rest),
                   clientOnline := true } p.1 (rest.map (fun p => p.1)) ho
          (by simp [hsb])] at hrun
        simp at hrun
      | nil =>
        rw [moveStandby_nothing_on_standby
          { s with mStartupStandbyQueue := s.mStartupStandbyQueue ++ List.map (fun p : VMessage × Bool => p.1) [],
                   clientOnline := true } (by simp [hsb])] at hrun
        simp only at hrun
        cases late with
        | nil =>
          simp only [postEach, Option.some.injEq, Prod.mk.injEq] at hrun
          obtain ⟨rfl, _⟩ := hrun
          simp [hq, hsb]
        | cons p rest =>
          obtain ⟨m, r, q⟩ := p
          have hp : VClientSession.postOutputMessage
              { s with mStartupStandbyQueue :=
                         s.mStartupStandbyQueue ++ List.map (fun p : VMessage × Bool => p.1) [],
                       clientOnline := true } m r q = none := by
            simp [VClientSession.postOutputMessage, hs, hg, ho]
          simp only [List.map_nil, List.append_nil] at hp
          simp [postEach, hp] at hrun

/-- On an active session with an output worker the start-up scenario runs to its end
and every post returns true. -/
theorem startup_scenario_accepts_all (s : VClientSession) (o : VMessageOutputThread)
    (early : List (VMessage × Bool)) (late : List (VMessage × Bool × Bool))
    (hs : s.mIsShuttingDown = false) (hg : s.clientGoingOffline = false)
    (hon : s.clientOnline = false) (ho : s.mOutputThread = some o) :
    ∃ s3, startupScenario s early late =
        some (s3, (early.map (fun _ => true)) ++ (late.map (fun _ => true))) := by
  unfold startupScenario
  rw [postEach_standby early s hs hg hon]
  simp only
  rw [moveStandby_eq
    { s with mStartupStandbyQueue := s.mStartupStandbyQueue ++ early.map (fun p => p.1),
             clientOnline := true } o ho]
  simp only
  rw [postEach_online late
    { s with mStartupStandbyQueue := [],
             outputQueue := s.outputQueue ++
               (s.mStartupStandbyQueue ++ early.map (fun p => p.1)),
             clientOnline := true } o hs hg rfl ho]
  simp

/-- C9: a session that is not online and whose queues are empty gets the messages of
`early` posted with `queueStandbyIfStartingUp`, goes online and runs
`_moveStandbyMessagesToAsyncOutputQueue`, and then gets the messages of `late`
posted.  Whenever all these messages were posted (every call returned true), the
output worker's queue holds exactly the messages of `early` followed by those of
`late`, each in the order posted, and nothing is left on standby.  On an active
session with an output worker the scenario does run this way: every post returns
true. -/
theorem startup_messages_reach_output_in_post_order (s : VClientSession)
    (early : List (VMessage × Bool)) (late : List (VMessage × Bool × Bool))
    (hon : s.clientOnline = false) (hq : s.outputQueue = [])
    (hsb : s.mStartupStandbyQueue = []) :
    (∀ s3 results, startupScenario s early late = some (s3, results) →
      (∀ b ∈ results, b = true) →
      s3.outputQueue = early.map (fun p => p.1) ++ late.map (fun p => p.1) ∧
      s3.mStartupStandbyQueue = []) ∧
    (∀ o, s.mIsShuttingDown = false → s.clientGoingOffline = false →
      s.mOutputThread = some o →
      ∃ s3, startupScenario s early late =
        some (s3, (early.map (fun _ => true)) ++ (late.map (fun _ => true)))) :=
  ⟨fun s3 results hrun hall =>
      startup_all_accepted_order s early late s3 results hon hq hsb hrun hall,
    fun o hs hg ho => startup_scenario_accepts_all s o early late hs hg hon ho⟩

/-- C9, an instance: messages 1 and 2 are posted during start-up, then messages 3 and
4 once online; the output queue holds 1, 2, 3, 4. -/
theorem startup_messages_reach_output_in_post_order_witness :
    ∃ s3,
      startupScenario sampleSession [(sampleMessage 1, true), (sampleMessage 2, false)]
          [(sampleMessage 3, true, true), (sampleMessage 4, false, false)] =
        some (s3, [true, true, true, true]) ∧
      s3.outputQueue =
        [sampleMessage 1, sampleMessage 2, sampleMessage 3, sampleMessage 4] ∧
      s3.mStartupStandbyQueue = [] := by
  obtain ⟨s3, h3⟩ :=
    (startup_messages_reach_output_in_post_order sampleSession
      [(sampleMessage 1, true), (sampleMessage 2, false)]
      [(sampleMessage 3, true, true), (sampleMessage 4, false, false)] rfl rfl rfl).2
      12 rfl rfl rfl
  exact ⟨s3, h3,
    (startup_messages_reach_output_in_post_order sampleSession
      [(sampleMessage 1, true), (sampleMessage 2, false)]
      [(sampleMessage 3, true, true), (sampleMessage 4, false, false)] rfl rfl rfl).1
      s3 _ h3 (by decide)⟩

/-- C10: for every standby queue S and output queue Q of a session with an output
worker (and also without one when S is empty),
`_moveStandbyMessagesToAsyncOutputQueue` returns; afterwards the standby queue is
empty and the output queue is Q followed by S in the order of S, nothing else of the
session has changed, and the only events are the log lines of the moves, one per
message (no message is released). -/
theorem moveStandby_appends_standby_in_order (s : VClientSession)
    (h : (∃ o, s.mOutputThread = some o) ∨ s.mStartupStandbyQueue = []) :
    s.moveStandbyMessagesToAsyncOutputQueue =
      some ({ s with mStartupStandbyQueue := [],
                     outputQueue := s.outputQueue ++ s.mStartupStandbyQueue },
            s.mStartupStandbyQueue.map Event.logMove) := by
  rcases h with ⟨o, ho⟩ | he
  · exact moveStandby_eq s o ho
  · rw [moveStandby_nothing_on_standby s he]
    cases s
    simp_all

/-- C10, an instance: messages 1 and 2 on standby are moved behind message 0. -/
theorem moveStandby_appends_standby_in_order_witness :
    standbySession.mOutputThread = some 12 ∧
    standbySession.moveStandbyMessagesToAsyncOutputQueue =
      some ({ sampleSession with
                outputQueue := [sampleMessage 0, sampleMessage 1, sampleMessage 2] },
            [Event.logMove (sampleMessage 1), Event.logMove (sampleMessage 2)]) :=
  ⟨rfl, moveStandby_appends_standby_in_order standbySession (Or.inl ⟨12, rfl⟩)⟩

/-! ## What `shutdown` leaves alone -/

/-- The detach/stop step of `shutdown` sets the flag and changes no member other than
the two worker references. -/
theorem shutdownDetach_members (s : VClientSession) (c : Option VThread) :
    (s.shutdownDetach c).1 =
      { s with mIsShuttingDown := true,
               mInputThread := (s.shutdownDetach c).1.mInputThread,
               mOutputThread := (s.shutdownDetach c).1.mOutputThread } := by
  rcases c with _ | j | j | j <;> cases hi : s.mInputThread <;>
    cases ho : s.mOutputThread <;>
    simp [VClientSession.shutdownDetach, hi, ho] <;>
    (try split_ifs) <;> simp

/-- The members after `shutdown` are those after its detach/stop step. -/
theorem shutdown_session_eq (s : VClientSession) (c : Option VThread) :
    (s.shutdown c).session = (s.shutdownDetach c).1 := by
  by_cases h : (s.shutdownDetach c).1.mInputThread = none ∧
      (s.shutdownDetach c).1.mOutputThread = none <;>
    simp [VClientSession.shutdown, h]

/-- Every call of `shutdown` leaves the shutdown flag set. -/
theorem shutdown_sets_flag (s : VClientSession) (c : Option VThread) :
    (s.shutdown c).session.mIsShuttingDown = true := by
  rw [shutdown_session_eq, shutdownDetach_members]

/-- A call of `shutdown` touches neither queue. -/
theorem shutdown_keeps_queues (s : VClientSession) (c : Option VThread) :
    (s.shutdown c).session.mStartupStandbyQueue = s.mStartupStandbyQueue ∧
    (s.shutdown c).session.outputQueue = s.outputQueue := by
  rw [shutdown_session_eq, shutdownDetach_members]
  exact ⟨rfl, rfl⟩

/-- A call of `shutdown` runs `_selfDestruct` exactly when it leaves both worker
references null. -/
theorem shutdown_destructs_both_null (s : VClientSession) (c : Option VThread) :
    (s.shutdown c).selfDestructed = true ↔
      ((s.shutdown c).session.mInputThread = none ∧
        (s.shutdown c).session.mOutputThread = none) := by
  by_cases h : (s.shutdownDetach c).1.mInputThread = none ∧
      (s.shutdownDetach c).1.mOutputThread = none <;>
    simp [VClientSession.shutdown, h]

/-- A refused post returns false and leaves the session as it is. -/
theorem postOutputMessage_refused_is_identity (s : VClientSession) (m : VMessage)
    (r q : Bool) (h : s.mIsShuttingDown = true ∨ s.clientGoingOffline = true) :
    ∃ ev, s.postOutputMessage m r q = some (false, s, ev) := by
  rcases h with h | h <;> cases r <;>
    simp [VClientSession.postOutputMessage, h]

/-! ## Teardown releases the queued messages -/

/-- C11 (as amended): `_releaseQueuedClientMessages` always leaves the standby queue
empty and releases each of its messages once to its pool, in queue order; it empties
the output worker's pending queue, releasing each of its messages first, only when
the output worker reference is not null.  When the reference is null the output
worker's queue is left as it is and none of its messages is released; this is the
case whenever the destructor runs from the self-destruction of `shutdown`, where the
session releases the standby messages only. -/
theorem releaseQueuedClientMessages_releases_reachable_queues (s : VClientSession) :
    (s.releaseQueuedClientMessages).1.mStartupStandbyQueue = [] ∧
    (∀ o, s.mOutputThread = some o →
      (s.releaseQueuedClientMessages).1.outputQueue = [] ∧
      (s.releaseQueuedClientMessages).2 =
        s.outputQueue.map (fun m => Event.releaseMessage m m.getPool) ++
          s.mStartupStandbyQueue.map (fun m => Event.releaseMessage m m.getPool)) ∧
    (s.mOutputThread = none →
      (s.releaseQueuedClientMessages).1.outputQueue = s.outputQueue ∧
      (s.releaseQueuedClientMessages).2 =
        s.mStartupStandbyQueue.map (fun m => Event.releaseMessage m m.getPool)) ∧
    (∀ c, (s.shutdown c).selfDestructed = true →
      ((s.shutdown c).session.destruct).1.mStartupStandbyQueue = [] ∧
      ((s.shutdown c).session.destruct).1.outputQueue = s.outputQueue ∧
      ((s.shutdown c).session.destruct).2 =
        s.mStartupStandbyQueue.map (fun m => Event.releaseMessage m m.getPool)) := by
  refine ⟨?_, ?_, ?_, ?_⟩
  · cases ho : s.mOutputThread <;>
      simp [VClientSession.releaseQueuedClientMessages,
        VClientSession.releaseAllQueuedMessages, VMessageQueue.releaseAllMessages, ho]
  · intro o ho
    simp [VClientSession.releaseQueuedClientMessages,
      VClientSession.releaseAllQueuedMessages, VMessageQueue.releaseAllMessages, ho]
  · intro ho
    simp [VClientSession.releaseQueuedClientMessages,
      VMessageQueue.releaseAllMessages, ho]
  · intro c hc
    have h := (shutdown_destructs_both_null s c).1 hc
    have hq := shutdown_keeps_queues s c
    simp [VClientSession.destruct, VClientSession.releaseQueuedClientMessages,
      VMessageQueue.releaseAllMessages, h.2, hq.1, hq.2]

/-- C11, an instance: with output worker 12 still referred to, teardown of the
session releases message 0 of its queue and then the standby messages 1 and 2. -/
theorem releaseQueuedClientMessages_releases_reachable_queues_witness :
    standbySession.mOutputThread = some 12 ∧
    ((standbySession.releaseQueuedClientMessages).1.outputQueue = [] ∧
      (standbySession.releaseQueuedClientMessages).2 =
        standbySession.outputQueue.map (fun m => Event.releaseMessage m m.getPool) ++
          standbySession.mStartupStandbyQueue.map
            (fun m => Event.releaseMessage m m.getPool)) ∧
    (standbySession.releaseQueuedClientMessages).2 =
      [Event.releaseMessage (sampleMessage 0) (some 7),
       Event.releaseMessage (sampleMessage 1) (some 7),
       Event.releaseMessage (sampleMessage 2) (some 7)] :=
  ⟨rfl, (releaseQueuedClientMessages_releases_reachable_queues standbySession).2.1 12 rfl,
    by decide⟩

/-- C11, the claim as stated fails: on the sample session message 1 is posted to
standby and message 0 to the output worker, the input worker calls `shutdown`, and
then the output worker calls `shutdown` as the last worker.  That call
self-destructs, and the destructor releases message 1 only: message 0 stays in the
output worker's queue, unreleased by the session. -/
theorem destructor_leaves_detached_output_queue :
    applyOps sampleSession
        [SessionOp.postOutputMessage (sampleMessage 1) false true,
         SessionOp.postOutputMessage (sampleMessage 0) false false,
         SessionOp.shutdown (some (VThread.input 11))] = some lastWorkerSession ∧
    (lastWorkerSession.shutdown (some (VThread.output 12))).selfDestructed = true ∧
    ((lastWorkerSession.shutdown (some (VThread.output 12))).session.destruct).1.outputQueue =
      [sampleMessage 0] ∧
    ((lastWorkerSession.shutdown (some (VThread.output 12))).session.destruct).2 =
      [Event.releaseMessage (sampleMessage 1) (some 7)] := by
  decide

/-! ## The task list -/

/-- C12 (as amended): after `attachTask(t)` the task is in the list.  `detachTask(t)`
removes one occurrence of `t`: afterwards `t` is no longer in the list when it
occurred at most once before, and is still in it when it occurred more than once
(the list keeps a task once per `attachTask`). -/
theorem detachTask_removes_one_occurrence (s : VClientSession) (t : VMessageHandlerTask) :
    t ∈ (s.attachTask t).mTasks ∧
    (s.detachTask t).mTasks.count t = s.mTasks.count t - 1 ∧
    (t ∉ (s.detachTask t).mTasks ↔ s.mTasks.count t ≤ 1) := by
  refine ⟨?_, ?_, ?_⟩
  · simp [VClientSession.attachTask]
  · simp [VClientSession.detachTask, List.count_erase_self]
  · rw [← List.count_eq_zero]
    simp only [VClientSession.detachTask, List.count_erase_self]
    omega

/-- C12, an instance: task 5 attached once to the sample session and detached is
gone. -/
theorem detachTask_removes_one_occurrence_witness :
    ((sampleSession.attachTask 5).detachTask 5).mTasks = [] ∧
    5 ∈ ((sampleSession.attachTask 5).attachTask 5).mTasks ∧
    (((sampleSession.attachTask 5).attachTask 5).detachTask 5).mTasks.count 5 =
      ((sampleSession.attachTask 5).attachTask 5).mTasks.count 5 - 1 :=
  ⟨by decide,
    (detachTask_removes_one_occurrence (sampleSession.attachTask 5) 5).1,
    (detachTask_removes_one_occurrence ((sampleSession.attachTask 5).attachTask 5) 5).2.1⟩

/-- C12, the claim as stated fails: task 5 is attached twice and detached once; it is
still in the list. -/
theorem detachTask_keeps_second_occurrence :
    (((sampleSession.attachTask 5).attachTask 5).detachTask 5).mTasks = [5] ∧
    5 ∈ (((sampleSession.attachTask 5).attachTask 5).detachTask 5).mTasks := by
  decide

/-! ## Repeated `shutdown` -/

/-- C13 (as amended): on a session that is already shutting down, a further call of
`shutdown` changes no member other than the worker references, and of these only the
reference to the caller, which it sets to null; with the server or a thread that is
not one of the session's workers as caller the session is left as it is.  The call
is not limited to logging: it calls `stop()` once more on every worker still
referred to that is not the caller. -/
theorem shutdown_again_repeats_stops (s : VClientSession) (c : Option VThread)
    (h : s.mIsShuttingDown = true) :
    (s.shutdown c).session =
      { s with mInputThread := (s.shutdown c).session.mInputThread,
               mOutputThread := (s.shutdown c).session.mOutputThread } ∧
    (∀ i, s.mInputThread = some i →
      (c = some (VThread.input i) → (s.shutdown c).session.mInputThread = none) ∧
      (c ≠ some (VThread.input i) → (s.shutdown c).session.mInputThread = some i ∧
        Event.stop (VThread.input i) ∈ (s.shutdown c).events)) ∧
    (∀ o, s.mOutputThread = some o →
      (c = some (VThread.output o) → (s.shutdown c).session.mOutputThread = none) ∧
      (c ≠ some (VThread.output o) → (s.shutdown c).session.mOutputThread = some o ∧
        Event.stop (VThread.output o) ∈ (s.shutdown c).events)) ∧
    ((∀ i, s.mInputThread = some i → c ≠ some (VThread.input i)) →
      (∀ o, s.mOutputThread = some o → c ≠ some (VThread.output o)) →
      (s.shutdown c).session = s) := by
  obtain ⟨sv, ct, ip, pt, ad, i, o, sd, sq, tk, oq, onl, off⟩ := s
  simp only at h
  subst h
  rcases i with _ | i <;> rcases o with _ | o <;> rcases sv with _ | sv <;>
    rcases c with _ | j | j | j <;>
    simp [VClientSession.shutdown, VClientSession.shutdownDetach] <;>
    (try split_ifs) <;> simp_all

/-- C13, an instance: the server calls `shutdown` a second time on the sample session;
the members stay as they are and both workers get another `stop()`. -/
theorem shutdown_again_repeats_stops_witness :
    shuttingDownSession.mIsShuttingDown = true ∧
    (shuttingDownSession.shutdown none).session = shuttingDownSession ∧
    (shuttingDownSession.shutdown none).events =
      [Event.logShutdown none, Event.stop (VThread.input 11),
        Event.stop (VThread.output 12)] :=
  ⟨rfl,
    (shutdown_again_repeats_stops shuttingDownSession none rfl).2.2.2
      (by decide) (by decide),
    by decide⟩

/-- C13, the claim as stated fails: on the sample session, already shutting down, a
further `shutdown` by the input worker 11 sets the input worker reference to null
and calls `stop()` on the output worker 12. -/
theorem shutdown_again_by_worker_changes_state :
    shuttingDownSession.mIsShuttingDown = true ∧
    shuttingDownSession.mInputThread = some 11 ∧
    (shuttingDownSession.shutdown (some (VThread.input 11))).session.mInputThread = none ∧
    (shuttingDownSession.shutdown (some (VThread.input 11))).events =
      [Event.logShutdown (some (VThread.input 11)), Event.stop (VThread.output 12)] := by
  decide

/-! ## The shutdown flag never goes back -/

/-- No operation of the session clears the shutdown flag. -/
theorem applyOp_keeps_shutdown_flag (s s2 : VClientSession) (op : SessionOp)
    (h : s.mIsShuttingDown = true) (hop : applyOp s op = some s2) :
    s2.mIsShuttingDown = true := by
  cases op with
  | attachTask t =>
    simp only [applyOp, Option.some.injEq] at hop
    subst hop
    simpa [VClientSession.attachTask] using h
  | detachTask t =>
    simp only [applyOp, Option.some.injEq] at hop
    subst hop
    simpa [VClientSession.detachTask] using h
  | shutdown c =>
    simp only [applyOp, Option.some.injEq] at hop
    subst hop
    exact shutdown_sets_flag s c
  | postOutputMessage m r q =>
    have hp := (postOutputMessage_refused_is_identity s m r q (Or.inl h))
    obtain ⟨ev, hp⟩ := hp
    simp only [applyOp, hp, Option.map, Option.some.injEq] at hop
    subst hop
    exact h
  | moveStandbyMessagesToAsyncOutputQueue =>
    simp only [applyOp] at hop
    cases ho : s.mOutputThread with
    | some o =>
      rw [moveStandby_eq s o ho] at hop
      simp only [Option.map, Option.some.injEq] at hop
      subst hop
      exact h
    | none =>
      cases hq : s.mStartupStandbyQueue with
      | nil =>
        rw [moveStandby_nothing_on_standby s hq] at hop
        simp only [Option.map, Option.some.injEq] at hop
        subst hop
        exact h
      | cons x rest =>
        rw [moveStandby_without_output_worker s x rest ho hq] at hop
        simp at hop
  | releaseQueuedClientMessages =>
    simp only [applyOp, Option.some.injEq] at hop
    subst hop
    cases ho : s.mOutputThread <;>
      simpa [VClientSession.releaseQueuedClientMessages,
        VClientSession.releaseAllQueuedMessages, ho] using h

/-- No sequence of operations clears the shutdown flag. -/
theorem applyOps_keeps_shutdown_flag (ops : List SessionOp) :
    ∀ s s2 : VClientSession, s.mIsShuttingDown = true → applyOps s ops = some s2 →
      s2.mIsShuttingDown = true := by
  induction ops with
  | nil =>
    intro s s2 h hops
    simp only [applyOps, Option.some.injEq] at hops
    subst hops
    exact h
  | cons op rest ih =>
    intro s s2 h hops
    simp only [applyOps] at hops
    cases hop : applyOp s op with
    | none => simp [hop] at hops
    | some s1 =>
      simp only [hop] at hops
      exact ih s1 s2 (applyOp_keeps_shutdown_flag s s1 op h hop) hops

/-- C14: a new session starts with the shutdown flag false; every call of `shutdown`
leaves it true; and from a state in which it is true, no sequence of `attachTask`,
`detachTask`, `shutdown`, `postOutputMessage`,
`_moveStandbyMessagesToAsyncOutputQueue` and `_releaseQueuedClientMessages` reaches
a state in which it is false: a session that has begun shutting down does not
return to active. -/
theorem shutdown_flag_monotone :
    (∀ (server : Option VServer) (clientType hostName : String) (portNumber : Int)
        (online goingOffline : Bool),
      (VClientSession.construct server clientType hostName portNumber online
        goingOffline).mIsShuttingDown = false) ∧
    (∀ (s : VClientSession) (c : Option VThread),
      (s.shutdown c).session.mIsShuttingDown = true) ∧
    (∀ (s s2 : VClientSession) (ops : List SessionOp),
      s.mIsShuttingDown = true → applyOps s ops = some s2 →
      s2.mIsShuttingDown = true) :=
  ⟨fun _ _ _ _ _ _ => rfl, shutdown_sets_flag,
    fun s s2 ops h hops => applyOps_keeps_shutdown_flag ops s s2 h hops⟩

/-- C14, an instance: a run on the sample session that starts with a `shutdown` by the
server and goes through every kind of operation ends with the flag still set. -/
theorem shutdown_flag_monotone_witness :
    (newSession.mIsShuttingDown = false ∧ sampleSession.mIsShuttingDown = false) ∧
    (applyOps sampleSession sampleOps).isSome = true ∧
    (∀ s2, applyOps shuttingDownSession sampleOps = some s2 →
      s2.mIsShuttingDown = true) :=
  ⟨⟨rfl, rfl⟩, by decide,
    fun s2 h => shutdown_flag_monotone.2.2 shuttingDownSession s2 sampleOps rfl h⟩

/-! ## The mutex and the guarded members -/

/-- A trace keeps the lock discipline exactly when it makes no access of a guarded
member outside the mutex. -/
theorem accessesLocked_iff_no_unlocked (trace : List Access) :
    ∀ held, accessesLocked held trace = true ↔ unlockedAccesses held trace = [] := by
  induction trace with
  | nil => intro held; simp [accessesLocked, unlockedAccesses]
  | cons a rest ih =>
    intro held
    cases a with
    | lock => simpa [accessesLocked, unlockedAccesses] using ih true
    | unlock => simpa [accessesLocked, unlockedAccesses] using ih false
    | read m =>
      cases hg : (held || !m.guarded) <;>
        simp [accessesLocked, unlockedAccesses, hg, ih held]
    | write m =>
      cases hg : (held || !m.guarded) <;>
        simp [accessesLocked, unlockedAccesses, hg, ih held]

/-- The polls of `_selfDestruct` start and end with the mutex held and read `mTasks`
only while it is held. -/
theorem unlockedAccesses_pollAccesses (n : Nat) (rest : List Access) :
    unlockedAccesses true (pollAccesses n ++ rest) = unlockedAccesses true rest := by
  induction n with
  | zero => simp [pollAccesses]
  | succ k ih =>
    simp only [pollAccesses, List.append_assoc, List.cons_append, List.nil_append,
      unlockedAccesses, Member.guarded, Bool.true_or, if_true]
    exact ih

/-- The destructor writes the two worker references outside the mutex, and makes no
other access of a guarded member outside it. -/
theorem unlockedAccesses_destructor (held : Bool) (s : VClientSession) :
    unlockedAccesses held (destructorAccesses s)
      = [Access.write Member.mInputThread, Access.write Member.mOutputThread] := by
  cases ho : s.mOutputThread <;>
    simp [destructorAccesses, ho, unlockedAccesses, Member.guarded]

/-- The accesses of `_selfDestruct` outside the mutex are the two writes of the
destructor. -/
theorem unlockedAccesses_selfDestruct (held : Bool) (s : VClientSession) (polls : Nat) :
    unlockedAccesses held (selfDestructAccesses s polls)
      = [Access.write Member.mInputThread, Access.write Member.mOutputThread] := by
  show unlockedAccesses held
    (Access.lock :: Access.read Member.mTasks ::
      (pollAccesses polls ++ [Access.unlock] ++ destructorAccesses s)) = _
  simp only [unlockedAccesses, Member.guarded, Bool.true_or, if_true, List.nil_append,
    List.append_assoc, unlockedAccesses_pollAccesses, List.singleton_append]
  exact unlockedAccesses_destructor false s

/-- C15 (as amended): in `attachTask`, `detachTask`, `shutdown` (with the
`_selfDestruct` and the destructor it ends in) and `postOutputMessage`, every read or
write of the shutdown flag, the standby queue, the task list and the worker
references happens with the session mutex held, but for two places.
`postOutputMessage` first reads the shutdown flag (line 108), before it constructs
its locker (line 110); and when `shutdown` ends in self-destruction, the destructor
sets the two worker references to `NULL` (lines 47-48) after the mutex was
released. -/
theorem unlocked_accesses_are_flag_read_and_destructor_writes (s : VClientSession) :
    unlockedAccesses false attachTaskAccesses = [] ∧
    (∀ t, unlockedAccesses false (detachTaskAccesses s t) = []) ∧
    (∀ c polls, unlockedAccesses false (shutdownAccesses s c polls) =
      if (s.shutdownDetach c).1.mInputThread = none ∧
          (s.shutdownDetach c).1.mOutputThread = none then
        [Access.write Member.mInputThread, Access.write Member.mOutputThread]
      else []) ∧
    (∀ q, unlockedAccesses false (postOutputMessageAccesses s q)
      = [Access.read Member.mIsShuttingDown]) := by
  refine ⟨by decide, ?_, ?_, ?_⟩
  · intro t
    by_cases ht : t ∈ s.mTasks <;>
      simp [detachTaskAccesses, ht, unlockedAccesses, Member.guarded]
  · intro c polls
    have hsd := fun s1 => unlockedAccesses_selfDestruct false s1 polls
    rcases c with _ | j | j | j <;> rcases hi : s.mInputThread with _ | i <;>
      rcases ho : s.mOutputThread with _ | o <;> rcases hs : s.mServer with _ | srv <;>
      simp [shutdownAccesses, VClientSession.shutdownDetach, hi, ho, hs,
        unlockedAccesses, Member.guarded] <;>
      (try split_ifs) <;>
      simp_all [unlockedAccesses, Member.guarded]
  · intro q
    cases hsd : s.mIsShuttingDown <;> cases hg : s.clientGoingOffline <;>
      cases q <;> cases hon : s.clientOnline <;>
      simp [postOutputMessageAccesses, hsd, hg, hon, unlockedAccesses, Member.guarded]

/-- C15, an instance: the trace of `detachTask` of an attached task, and that of
`shutdown` by the last worker with two polls of the task list. -/
theorem unlocked_accesses_are_flag_read_and_destructor_writes_witness :
    detachTaskAccesses busySession 5 =
      [Access.lock, Access.read Member.mTasks, Access.read Member.mTasks,
       Access.write Member.mTasks, Access.unlock] ∧
    unlockedAccesses false (detachTaskAccesses busySession 5) = [] ∧
    unlockedAccesses false (shutdownAccesses sampleSession none 2) = [] ∧
    unlockedAccesses false
        (shutdownAccesses lastWorkerSession (some (VThread.output 12)) 2)
      = [Access.write Member.mInputThread, Access.write Member.mOutputThread] :=
  ⟨by decide,
    (unlocked_accesses_are_flag_read_and_destructor_writes busySession).2.1 5,
    by decide,
    (unlocked_accesses_are_flag_read_and_destructor_writes lastWorkerSession).2.2.1
      (some (VThread.output 12)) 2⟩

/-- C15, the claim as stated fails in two places.  A call of `postOutputMessage` on
the sample session reads `mIsShuttingDown` first and takes the mutex after that.  A
call of `shutdown` by the last worker ends in `_selfDestruct` and the destructor,
whose last two accesses write `mInputThread` and `mOutputThread` after the locker of
`_releaseQueuedClientMessages` has gone out of scope. -/
theorem public_operations_access_guarded_members_unlocked :
    postOutputMessageAccesses sampleSession true =
      [Access.read Member.mIsShuttingDown, Access.lock,
       Access.read Member.mClientAddress, Access.write Member.mStartupStandbyQueue,
       Access.unlock] ∧
    Member.mIsShuttingDown.guarded = true ∧
    accessesLocked false (postOutputMessageAccesses sampleSession true) = false ∧
    shutdownAccesses lastWorkerSession (some (VThread.output 12)) 0 =
      [Access.lock, Access.write Member.mIsShuttingDown,
       Access.read Member.mClientAddress, Access.read Member.mInputThread,
       Access.read Member.mOutputThread, Access.read Member.mOutputThread,
       Access.write Member.mOutputThread, Access.read Member.mInputThread,
       Access.read Member.mOutputThread, Access.read Member.mServer,
       Access.read Member.mServer, Access.unlock,
       Access.lock, Access.read Member.mTasks, Access.unlock,
       Access.lock, Access.read Member.mOutputThread,
       Access.write Member.mStartupStandbyQueue, Access.unlock,
       Access.write Member.mInputThread, Access.write Member.mOutputThread] ∧
    Member.mInputThread.guarded = true ∧ Member.mOutputThread.guarded = true ∧
    accessesLocked false
      (shutdownAccesses lastWorkerSession (some (VThread.output 12)) 0) = false := by
  decide

/-! ## Broadcast messages go back to the pool once -/

/-- Adding broadcast targets raises the count and changes nothing else. -/
theorem addBroadcastTargets_eq (n : Nat) :
    ∀ m : VMessage, VMessage.addBroadcastTargets n m =
      { m with mNumBroadcastTargets := m.mNumBroadcastTargets + n } := by
  induction n with
  | zero => intro m; simp [VMessage.addBroadcastTargets]
  | succ k ih =>
    intro m
    simp only [VMessage.addBroadcastTargets, ih, VMessage.addBroadcastTarget]
    congr 1
    push_cast
    ring

/-- A message marked for broadcast with `c` targets left, released by `k ≤ c`
consumers: the count is `c - k`, and the message has gone back to the free list,
once, exactly when the last target released it. -/
theorem releases_broadcast (k : Nat) :
    ∀ (p : PooledMessage) (c : Nat), p.message.mIsBeingBroadcast = true →
      p.message.mNumBroadcastTargets = (c : Int) → k ≤ c →
      (PooledMessage.releases k p).message.mNumBroadcastTargets = (c : Int) - (k : Int) ∧
      (PooledMessage.releases k p).freeList =
        (if k = c ∧ 0 < k then p.freeList ++ [p.message.addr] else p.freeList) := by
  induction k with
  | zero =>
    intro p c _ hc _
    simp [PooledMessage.releases, hc]
  | succ k ih =>
    intro p c hb hc hk
    simp only [PooledMessage.releases, PooledMessage.release, VMessage.isBeingBroadcast, hb,
      if_true]
    by_cases h1 : c = 1
    · subst h1
      have hk0 : k = 0 := by omega
      subst hk0
      simp [PooledMessage.releases, PooledMessage.removeBroadcastTarget, hc,
        PooledMessage.returnToFreeList]
    · have hne : ¬ (p.message.mNumBroadcastTargets - 1 = 0) := by
        rw [hc]; omega
      have hstep : p.removeBroadcastTarget =
          { p with message :=
              { p.message with
                mNumBroadcastTargets := p.message.mNumBroadcastTargets - 1 } } := by
        simp [PooledMessage.removeBroadcastTarget, hne]
      rw [hstep]
      have := ih
        { p with message :=
            { p.message with mNumBroadcastTargets := p.message.mNumBroadcastTargets - 1 } }
        (c - 1) hb (by simp only [hc]; omega) (by omega)
      obtain ⟨ih1, ih2⟩ := this
      refine ⟨by rw [ih1]; omega, ?_⟩
      rw [ih2]
      have hiff : (k = c - 1 ∧ 0 < k) ↔ (k + 1 = c ∧ 0 < k + 1) := by omega
      simp only [hiff]

/-- C16: a message that is not marked for broadcast goes back to the free list of its
pool at its one release.  A message with no target that is marked for broadcast and
given `n ≥ 1` targets is released `n` times: after `k ≤ n` releases the count is
`n - k`, never negative, and the free list has gained the message exactly once when
`k = n` and not at all before; the first `n - 1` releases only decrement the
count. -/
theorem broadcast_message_returns_once (p : PooledMessage) (n : Nat) (hn : 1 ≤ n)
    (h0 : p.message.mNumBroadcastTargets = 0) :
    (p.message.isBeingBroadcast = false →
      (p.release).freeList = p.freeList ++ [p.message.addr]) ∧
    (p.message.isBeingBroadcast = true → p.release = p.removeBroadcastTarget) ∧
    (∀ k, k ≤ n →
      (PooledMessage.releases k
          { p with message :=
              VMessage.addBroadcastTargets n p.message.markForBroadcast }).message.mNumBroadcastTargets =
        (n : Int) - (k : Int) ∧
      0 ≤ (PooledMessage.releases k
          { p with message :=
              VMessage.addBroadcastTargets n p.message.markForBroadcast }).message.mNumBroadcastTargets ∧
      (PooledMessage.releases k
          { p with message :=
              VMessage.addBroadcastTargets n p.message.markForBroadcast }).freeList =
        (if k = n then p.freeList ++ [p.message.addr] else p.freeList)) := by
  refine ⟨?_, ?_, ?_⟩
  · intro hb
    simp [PooledMessage.release, hb, PooledMessage.returnToFreeList]
  · intro hb
    simp [PooledMessage.release, hb]
  · intro k hk
    have h := releases_broadcast k
      { p with message := VMessage.addBroadcastTargets n p.message.markForBroadcast } n
      (by simp [addBroadcastTargets_eq, VMessage.markForBroadcast])
      (by simp [addBroadcastTargets_eq, VMessage.markForBroadcast, h0]) hk
    obtain ⟨h1, h2⟩ := h
    refine ⟨h1, by rw [h1]; omega, ?_⟩
    rw [h2]
    have hiff : (k = n ∧ 0 < k) ↔ k = n := by omega
    simp [hiff, addBroadcastTargets_eq, VMessage.markForBroadcast]

/-- C16, an instance: message 3 broadcast to three targets; after two releases it is
still out with one target left, after the third it is in the free list once. -/
theorem broadcast_message_returns_once_witness :
    (PooledMessage.releases 2
        { pooledSample with
          message := VMessage.addBroadcastTargets 3 pooledSample.message.markForBroadcast }) =
      { message := { sampleMessage 3 with
                       mIsBeingBroadcast := true, mNumBroadcastTargets := 1 },
        freeList := [] } ∧
    (PooledMessage.releases 3
        { pooledSample with
          message := VMessage.addBroadcastTargets 3 pooledSample.message.markForBroadcast }) =
      { message := { sampleMessage 3 with
                       mIsBeingBroadcast := true, mNumBroadcastTargets := 0 },
        freeList := [3] } ∧
    (pooledSample.release).freeList = pooledSample.freeList ++ [pooledSample.message.addr] :=
  ⟨by decide, by decide,
    (broadcast_message_returns_once pooledSample 3 (by decide) rfl).1 rfl⟩

/-! ## Dispatch by message ID -/

/-- Looking an ID up after one more entry was appended to the map. -/
theorem find_append_entry (map : VMessageHandlerFactoryMap) (k messageID : VMessageID)
    (f : VMessageHandlerFactory) :
    VMessageHandlerFactoryMap.find (map ++ [(k, f)]) messageID =
      (match VMessageHandlerFactoryMap.find map messageID with
        | some g => some g
        | none => if k = messageID then some f else none) := by
  induction map with
  | nil => simp [VMessageHandlerFactoryMap.find]
  | cons e rest ih =>
    obtain ⟨k2, f2⟩ := e
    by_cases h : k2 = messageID
    · simp [VMessageHandlerFactoryMap.find, h]
    · simp only [List.cons_append, VMessageHandlerFactoryMap.find, h, if_false]
      exact ih

/-- A registration that was accepted entered the factory for an ID that had none. -/
theorem registered_iff (map map2 : VMessageHandlerFactoryMap) (messageID : VMessageID)
    (f : VMessageHandlerFactory)
    (h : VMessageHandler.registerHandlerFactory map messageID f =
      RegisterOutcome.registered map2) :
    VMessageHandlerFactoryMap.find map messageID = none ∧
    map2 = map ++ [(messageID, f)] := by
  unfold VMessageHandler.registerHandlerFactory at h
  cases hf : VMessageHandlerFactoryMap.find map messageID with
  | none =>
    simp only [hf, RegisterOutcome.registered.injEq] at h
    exact ⟨rfl, h.symm⟩
  | some g => simp [hf] at h

/-- C17: for every registry and message, `get` returns the handler built by the
factory registered for the message's ID when there is one, and the no-handler
outcome (`NULL`) when there is none.  After a factory was registered for an ID,
`get` builds the handler of a message with that ID by that factory, and its
outcome for messages with another ID is what it was before. -/
theorem get_builds_handler_of_registered_factory (map : VMessageHandlerFactoryMap)
    (m : VMessage) (server : Option VServer) (session thread : Option Nat) :
    (∀ f, VMessageHandlerFactoryMap.find map m.getMessageID = some f →
      VMessageHandler.get map m server session thread =
        some (f.createHandler m server session thread)) ∧
    (VMessageHandlerFactoryMap.find map m.getMessageID = none →
      VMessageHandler.get map m server session thread = none) ∧
    (∀ f map2,
      VMessageHandler.registerHandlerFactory map m.getMessageID f =
        RegisterOutcome.registered map2 →
      VMessageHandler.get map2 m server session thread =
        some (f.createHandler m server session thread)) ∧
    (∀ k f map2, k ≠ m.getMessageID →
      VMessageHandler.registerHandlerFactory map k f = RegisterOutcome.registered map2 →
      VMessageHandler.get map2 m server session thread =
        VMessageHandler.get map m server session thread) := by
  refine ⟨?_, ?_, ?_, ?_⟩
  · intro f hf
    simp [VMessageHandler.get, hf]
  · intro hf
    simp [VMessageHandler.get, hf]
  · intro f map2 h
    obtain ⟨hnone, rfl⟩ := registered_iff map map2 m.getMessageID f h
    simp [VMessageHandler.get, find_append_entry, hnone]
  · intro k f map2 hk h
    obtain ⟨_, rfl⟩ := registered_iff map map2 k f h
    simp only [VMessageHandler.get, find_append_entry]
    cases VMessageHandlerFactoryMap.find map m.getMessageID <;> simp [hk]

/-- C17, an instance: with only ID 42 registered (factory 1), a message with ID 42
gets a handler built by factory 1 and a message with ID 99 gets none. -/
theorem get_builds_handler_of_registered_factory_witness :
    registry42 = [(42, 1)] ∧
    VMessageHandler.get registry42 (sampleMessage 1) (some 1) (some 2) (some 3) =
      some { factory := 1, mMessage := sampleMessage 1, mServer := some 1,
             mSession := some 2, mThread := some 3 } ∧
    VMessageHandler.get registry42 message99 (some 1) (some 2) (some 3) = none :=
  ⟨by decide,
    (get_builds_handler_of_registered_factory registry42 (sampleMessage 1) (some 1)
      (some 2) (some 3)).1 1 (by decide),
    (get_builds_handler_of_registered_factory registry42 message99 (some 1)
      (some 2) (some 3)).2.1 (by decide)⟩

/-- C18: once a factory is registered for a message ID, a second
`registerHandlerFactory` for the same ID is refused with the configuration error
and changes nothing: the factory registered first stays in effect, and `get` still
builds the handler by it. -/
theorem second_registration_is_refused (map map1 : VMessageHandlerFactoryMap)
    (messageID : VMessageID) (f1 f2 : VMessageHandlerFactory)
    (h : VMessageHandler.registerHandlerFactory map messageID f1 =
      RegisterOutcome.registered map1) :
    VMessageHandler.registerHandlerFactory map1 messageID f2 =
      RegisterOutcome.duplicateMessageID messageID ∧
    VMessageHandlerFactoryMap.find map1 messageID = some f1 ∧
    registerAll map1 [(messageID, f2)] = map1 ∧
    (∀ (m : VMessage) (server : Option VServer) (session thread : Option Nat),
      m.getMessageID = messageID →
      VMessageHandler.get (registerAll map1 [(messageID, f2)]) m server session thread =
        some (f1.createHandler m server session thread)) := by
  obtain ⟨hnone, rfl⟩ := registered_iff map map1 messageID f1 h
  have hfind : VMessageHandlerFactoryMap.find (map ++ [(messageID, f1)]) messageID =
      some f1 := by
    simp [find_append_entry, hnone]
  have hreg : VMessageHandler.registerHandlerFactory (map ++ [(messageID, f1)])
      messageID f2 = RegisterOutcome.duplicateMessageID messageID := by
    simp [VMessageHandler.registerHandlerFactory, hfind]
  refine ⟨hreg, hfind, ?_, ?_⟩
  · simp [registerAll, hreg]
  · intro m server session thread hm
    simp [registerAll, hreg, VMessageHandler.get, hm, hfind]

/-- C18, an instance: factory 1 is registered for ID 42 in an empty registry; the
registration of factory 2 for ID 42 is refused and factory 1 stays. -/
theorem second_registration_is_refused_witness :
    VMessageHandler.registerHandlerFactory [] 42 1 = RegisterOutcome.registered [(42, 1)] ∧
    VMessageHandler.registerHandlerFactory [(42, 1)] 42 2 =
      RegisterOutcome.duplicateMessageID 42 ∧
    VMessageHandlerFactoryMap.find [(42, 1)] 42 = some 1 :=
  ⟨by decide,
    (second_registration_is_refused [] [(42, 1)] 42 1 2 (by decide)).1,
    (second_registration_is_refused [] [(42, 1)] 42 1 2 (by decide)).2.1⟩

/-! ## The listener -/

/-- No stop is requested exactly when no worker has the socket asked for. -/
theorem stopFirstWithSocket_none (threads : List VSocketThread) (socketID : VSocketID)
    (localPortNumber : Int) :
    stopFirstWithSocket threads socketID localPortNumber = none ↔
      ∀ t ∈ threads, ¬ (t.sockID = socketID ∧ t.portNumber = localPortNumber) := by
  induction threads with
  | nil => simp [stopFirstWithSocket]
  | cons t rest ih =>
    by_cases h : t.sockID = socketID ∧ t.portNumber = localPortNumber
    · have hm : t.hasSocket socketID localPortNumber = true := by
        simp [VSocketThread.hasSocket, h.1, h.2]
      simp only [stopFirstWithSocket, hm, if_true, List.mem_cons, forall_eq_or_imp]
      simp [h]
    · have hm : t.hasSocket socketID localPortNumber = false := by
        simp only [VSocketThread.hasSocket, Bool.and_eq_false_iff, decide_eq_false_iff_not]
        by_cases h1 : t.sockID = socketID
        · right; intro h2; exact h ⟨h1, h2⟩
        · left; exact h1
      simp only [stopFirstWithSocket, hm, Bool.false_eq_true, if_false, List.mem_cons,
        forall_eq_or_imp]
      cases hr : stopFirstWithSocket rest socketID localPortNumber with
      | none =>
        simp only [true_iff]
        exact ⟨h, ih.mp hr⟩
      | some rest2 =>
        constructor
        · intro hc
          simp at hc
        · rintro ⟨_, hall⟩
          have := ih.mpr hall
          rw [hr] at this
          simp at this

/-- When a stop is requested, it is requested on one worker, which has the socket
asked for, and the list is otherwise as it was. -/
theorem stopFirstWithSocket_some (threads : List VSocketThread) (socketID : VSocketID)
    (localPortNumber : Int) :
    ∀ threads2, stopFirstWithSocket threads socketID localPortNumber = some threads2 →
      ∃ before t after, threads = before ++ t :: after ∧
        t.sockID = socketID ∧ t.portNumber = localPortNumber ∧
        threads2 = before ++ { t with stopRequested := true } :: after := by
  induction threads with
  | nil => intro threads2 h; simp [stopFirstWithSocket] at h
  | cons t rest ih =>
    intro threads2 h
    by_cases hm : t.hasSocket socketID localPortNumber = true
    · simp only [stopFirstWithSocket, hm, if_true, Option.some.injEq] at h
      simp only [VSocketThread.hasSocket, Bool.and_eq_true, decide_eq_true_eq] at hm
      exact ⟨[], t, rest, rfl, hm.1, hm.2, by simp [← h]⟩
    · have hm2 : t.hasSocket socketID localPortNumber = false := by simpa using hm
      simp only [stopFirstWithSocket, hm2, Bool.false_eq_true, if_false] at h
      cases hr : stopFirstWithSocket rest socketID localPortNumber with
      | none => simp [hr] at h
      | some rest2 =>
        simp only [hr, Option.some.injEq] at h
        obtain ⟨before, u, after, h1, h2, h3, h4⟩ := ih rest2 hr
        exact ⟨t :: before, u, after, by simp [h1], h2, h3, by simp [← h, h4]⟩

/-- C19: `stopSocketThread(socketID, localPortNumber)` throws the not-found exception
exactly when no live worker has both that socket ID and that port; otherwise it
requests a stop on one worker, which has both, and leaves every other worker
(those with only the ID or only the port included) and the rest of the listener as
they were. -/
theorem stopSocketThread_stops_match_or_throws (l : VListenerThread)
    (socketID : VSocketID) (localPortNumber : Int) :
    (l.stopSocketThread socketID localPortNumber =
        StopOutcome.socketThreadNotFound socketID localPortNumber ↔
      ∀ t ∈ l.mSocketThreads, ¬ (t.sockID = socketID ∧ t.portNumber = localPortNumber)) ∧
    ((∃ t ∈ l.mSocketThreads, t.sockID = socketID ∧ t.portNumber = localPortNumber) →
      ∃ l2, l.stopSocketThread socketID localPortNumber = StopOutcome.done l2) ∧
    (∀ l2, l.stopSocketThread socketID localPortNumber = StopOutcome.done l2 →
      ∃ before t after, l.mSocketThreads = before ++ t :: after ∧
        t.sockID = socketID ∧ t.portNumber = localPortNumber ∧
        l2 = { l with
               mSocketThreads := before ++ { t with stopRequested := true } :: after }) ∧
    (∀ l2, l.stopSocketThread socketID localPortNumber = StopOutcome.done l2 →
      ∀ u ∈ l.mSocketThreads, ¬ (u.sockID = socketID ∧ u.portNumber = localPortNumber) →
        u ∈ l2.mSocketThreads) := by
  have hdec : ∀ l2, l.stopSocketThread socketID localPortNumber = StopOutcome.done l2 →
      ∃ before t after, l.mSocketThreads = before ++ t :: after ∧
        t.sockID = socketID ∧ t.portNumber = localPortNumber ∧
        l2 = { l with
               mSocketThreads := before ++ { t with stopRequested := true } :: after } := by
    intro l2 h
    unfold VListenerThread.stopSocketThread at h
    cases hr : stopFirstWithSocket l.mSocketThreads socketID localPortNumber with
    | none => simp [hr] at h
    | some threads =>
      simp only [hr, StopOutcome.done.injEq] at h
      obtain ⟨before, t, after, h1, h2, h3, h4⟩ :=
        stopFirstWithSocket_some _ _ _ threads hr
      exact ⟨before, t, after, h1, h2, h3, by rw [← h, h4]⟩
  refine ⟨?_, ?_, hdec, ?_⟩
  · rw [← stopFirstWithSocket_none]
    unfold VListenerThread.stopSocketThread
    cases stopFirstWithSocket l.mSocketThreads socketID localPortNumber <;> simp
  · rintro ⟨t, ht, hts⟩
    unfold VListenerThread.stopSocketThread
    cases hr : stopFirstWithSocket l.mSocketThreads socketID localPortNumber with
    | none =>
      exact absurd hts ((stopFirstWithSocket_none _ _ _).mp hr t ht)
    | some threads => exact ⟨_, rfl⟩
  · intro l2 h u hu hnot
    obtain ⟨before, t, after, h1, h2, h3, rfl⟩ := hdec l2 h
    rw [h1] at hu
    simp only [List.mem_append, List.mem_cons] at hu ⊢
    rcases hu with hu | hu | hu
    · exact Or.inl hu
    · exact absurd ⟨hu ▸ h2, hu ▸ h3⟩ hnot
    · exact Or.inr (Or.inr hu)

/-- C19, an instance: of the workers with sockets (5, 4000), (5, 4001) and (6, 4000),
`stopSocketThread(5, 4001)` stops the second only, and `stopSocketThread(6, 4001)`,
which matches the ID of one worker and the port of another, throws. -/
theorem stopSocketThread_stops_match_or_throws_witness :
    sampleListener.stopSocketThread 5 4001 =
      StopOutcome.done
        { sampleListener with
          mSocketThreads :=
            [{ ident := 1, sockID := 5, portNumber := 4000, stopRequested := false },
             { ident := 2, sockID := 5, portNumber := 4001, stopRequested := true },
             { ident := 3, sockID := 6, portNumber := 4000, stopRequested := false }] } ∧
    sampleListener.stopSocketThread 6 4001 = StopOutcome.socketThreadNotFound 6 4001 :=
  ⟨by decide,
    (stopSocketThread_stops_match_or_throws sampleListener 6 4001).1.mpr (by decide)⟩

/-- C20: `isListening()` is true after `startListening()` and false after
`stopListening()`; each of the two calls changes nothing when the listener is
already in that state, and neither changes the port, the bind address or the
live-worker list. -/
theorem listening_flag_toggles (l : VListenerThread) :
    l.startListening.isListening = true ∧
    l.stopListening.isListening = false ∧
    (l.isListening = true → l.startListening = l) ∧
    (l.isListening = false → l.stopListening = l) ∧
    l.startListening.startListening = l.startListening ∧
    l.stopListening.stopListening = l.stopListening ∧
    (l.startListening.mPortNumber = l.mPortNumber ∧
      l.startListening.mBindAddress = l.mBindAddress ∧
      l.startListening.mSocketThreads = l.mSocketThreads) ∧
    (l.stopListening.mPortNumber = l.mPortNumber ∧
      l.stopListening.mBindAddress = l.mBindAddress ∧
      l.stopListening.mSocketThreads = l.mSocketThreads) := by
  refine ⟨rfl, rfl, ?_, ?_, rfl, rfl, ⟨rfl, rfl, rfl⟩, ⟨rfl, rfl, rfl⟩⟩
  · intro h
    cases l
    simp_all [VListenerThread.startListening, VListenerThread.isListening]
  · intro h
    cases l
    simp_all [VListenerThread.stopListening, VListenerThread.isListening]

/-- C20, an instance: the sample listener, which is listening, is unchanged by
`startListening()` and stops listening at `stopListening()`. -/
theorem listening_flag_toggles_witness :
    sampleListener.isListening = true ∧
    sampleListener.startListening = sampleListener ∧
    sampleListener.stopListening.isListening = false ∧
    sampleListener.stopListening.startListening = sampleListener :=
  ⟨rfl, (listening_flag_toggles sampleListener).2.2.1 rfl,
    (listening_flag_toggles sampleListener).2.1, by decide⟩

/-! ## A newly constructed session -/

/-- The address of the sample constructor call is the host name, a colon and the port
in decimal digits. -/
theorem construct_sample_address :
    newSession.mClientAddress = "10.0.0.5:4000" ∧
    (VClientSession.construct none "c" "host" (-7) true false).mClientAddress =
      "host:-7" := by
  decide

/-- C21: for every host name `ip` and port number `p` the constructor leaves
`mClientIP = ip`, `mClientPort = p` and `mClientAddress` equal to `ip`, a colon and
the decimal digits of `p`; the shutdown flag is false, both worker references are
null, and the task list and the standby queue are empty. -/
theorem construct_sets_address_and_empty_state (server : Option VServer)
    (clientType ip : String) (p : Int) (online goingOffline : Bool) :
    (VClientSession.construct server clientType ip p online goingOffline).mClientIP
      = ip ∧
    (VClientSession.construct server clientType ip p online goingOffline).mClientPort
      = p ∧
    (VClientSession.construct server clientType ip p online goingOffline).mClientAddress
      = ip ++ ":" ++ toString p ∧
    (VClientSession.construct server clientType ip p online goingOffline).mIsShuttingDown
      = false ∧
    (VClientSession.construct server clientType ip p online goingOffline).mInputThread
      = none ∧
    (VClientSession.construct server clientType ip p online goingOffline).mOutputThread
      = none ∧
    (VClientSession.construct server clientType ip p online goingOffline).mTasks
      = [] ∧
    (VClientSession.construct server clientType ip p online
      goingOffline).mStartupStandbyQueue = [] ∧
    (VClientSession.construct server clientType ip p online goingOffline).mServer
      = server ∧
    (VClientSession.construct server clientType ip p online goingOffline).mClientType
      = clientType := by
  simp [VClientSession.construct]

/-- C21 on the sample constructor call: host 10.0.0.5, port 4000. -/
theorem construct_sets_address_and_empty_state_witness :
    newSession.mClientIP = "10.0.0.5" ∧ newSession.mClientPort = 4000 ∧
    newSession.mClientAddress = "10.0.0.5" ++ ":" ++ toString (4000 : Int) ∧
    newSession.mIsShuttingDown = false ∧ newSession.mInputThread = none ∧
    newSession.mOutputThread = none ∧ newSession.mTasks = [] ∧
    newSession.mStartupStandbyQueue = [] ∧ newSession.mServer = some 1 ∧
    newSession.mClientType = "client" :=
  construct_sets_address_and_empty_state (some 1) "client" "10.0.0.5" 4000 false false

/-! ## The dispatch log levels -/

/-- C22: whatever the value of `VLogger::kDebug`, the four dispatch log levels are
`kDebug`, `kDebug + 1`, `kDebug + 2` and `kDebug + 3`, strictly increasing in the
order handler name, message properties, readable fields, hex dump. -/
theorem dispatch_log_levels_strictly_increase (kDebug : Int) :
    VMessageHandler.kMessageDispatchSimpleLogLevel kDebug = kDebug + 0 ∧
    VMessage.kMessageReceiveSimpleLogLevel kDebug = kDebug + 1 ∧
    VMessageHandler.kMessageDispatchDetailLogLevel kDebug = kDebug + 2 ∧
    VMessage.kMessageReceiveHexDumpLogLevel kDebug = kDebug + 3 ∧
    VMessageHandler.kMessageDispatchSimpleLogLevel kDebug <
      VMessage.kMessageReceiveSimpleLogLevel kDebug ∧
    VMessage.kMessageReceiveSimpleLogLevel kDebug <
      VMessageHandler.kMessageDispatchDetailLogLevel kDebug ∧
    VMessageHandler.kMessageDispatchDetailLogLevel kDebug <
      VMessage.kMessageReceiveHexDumpLogLevel kDebug := by
  unfold VMessageHandler.kMessageDispatchSimpleLogLevel
    VMessage.kMessageReceiveSimpleLogLevel
    VMessageHandler.kMessageDispatchDetailLogLevel
    VMessage.kMessageReceiveHexDumpLogLevel
  omega

/-- C22 at `kDebug = 80`: the four levels are 80, 81, 82 and 83. -/
theorem dispatch_log_levels_strictly_increase_witness :
    VMessageHandler.kMessageDispatchSimpleLogLevel 80 = 80 + 0 ∧
    VMessage.kMessageReceiveSimpleLogLevel 80 = 80 + 1 ∧
    VMessageHandler.kMessageDispatchDetailLogLevel 80 = 80 + 2 ∧
    VMessage.kMessageReceiveHexDumpLogLevel 80 = 80 + 3 ∧
    VMessageHandler.kMessageDispatchSimpleLogLevel 80 <
      VMessage.kMessageReceiveSimpleLogLevel 80 ∧
    VMessage.kMessageReceiveSimpleLogLevel 80 <
      VMessageHandler.kMessageDispatchDetailLogLevel 80 ∧
    VMessageHandler.kMessageDispatchDetailLogLevel 80 <
      VMessage.kMessageReceiveHexDumpLogLevel 80 :=
  dispatch_log_levels_strictly_increase 80

/-! ## A null output worker means the session is shutting down -/

/-- The members the four client calls can change: a client call keeps "a null
`mOutputThread` implies `mIsShuttingDown`", and in a state where that holds it never
dereferences a null `mOutputThread`. -/
theorem applyOp_client_call_keeps_invariant (s : VClientSession) (op : SessionOp)
    (hop : op.isClientCall = true)
    (hinv : s.mOutputThread = none → s.mIsShuttingDown = true) :
    ∃ s2, applyOp s op = some s2 ∧
      (s2.mOutputThread = none → s2.mIsShuttingDown = true) := by
  cases op with
  | attachTask t => exact ⟨_, rfl, by simpa [VClientSession.attachTask] using hinv⟩
  | detachTask t => exact ⟨_, rfl, by simpa [VClientSession.detachTask] using hinv⟩
  | shutdown c => exact ⟨_, rfl, fun _ => shutdown_sets_flag s c⟩
  | postOutputMessage m r q =>
    by_cases hflag : s.mIsShuttingDown = true
    · obtain ⟨ev, hp⟩ := postOutputMessage_refused_is_identity s m r q (Or.inl hflag)
      exact ⟨s, by simp [applyOp, hp], hinv⟩
    · have hf : s.mIsShuttingDown = false := by simpa using hflag
      rcases ho : s.mOutputThread with _ | o
      · exact absurd (hinv ho) hflag
      · cases r <;> cases q <;> cases hon : s.clientOnline <;>
          cases hoff : s.clientGoingOffline <;>
          simp [applyOp, VClientSession.postOutputMessage, hf, ho, hon, hoff,
            VClientSession.postToOutputThread]
  | moveStandbyMessagesToAsyncOutputQueue => simp [SessionOp.isClientCall] at hop
  | releaseQueuedClientMessages => simp [SessionOp.isClientCall] at hop

/-- In a state where a null `mOutputThread` implies `mIsShuttingDown`,
`postOutputMessage` returns: it does not reach the dereference of a null
`mOutputThread`. -/
theorem postOutputMessage_returns_under_invariant (s : VClientSession) (m : VMessage)
    (r q : Bool) (hinv : s.mOutputThread = none → s.mIsShuttingDown = true) :
    (s.postOutputMessage m r q).isSome = true := by
  obtain ⟨s2, h2, _⟩ :=
    applyOp_client_call_keeps_invariant s (SessionOp.postOutputMessage m r q) rfl hinv
  cases hp : s.postOutputMessage m r q with
  | none => simp [applyOp, hp] at h2
  | some x => rfl

/-- C23: from a session whose output worker reference is set, every sequence of
`attachTask`, `detachTask`, `shutdown` and `postOutputMessage` runs to the end
without dereferencing a null `mOutputThread`; in the state reached a null
`mOutputThread` implies that `mIsShuttingDown` is set, so every further
`postOutputMessage` returns instead of reaching the dereference on the live-queue
branch. -/
theorem null_output_worker_implies_shutdown_flag (ops : List SessionOp) :
    ∀ s : VClientSession, s.mOutputThread ≠ none →
      (∀ op ∈ ops, SessionOp.isClientCall op = true) →
      ∃ s2, applyOps s ops = some s2 ∧
        (s2.mOutputThread = none → s2.mIsShuttingDown = true) ∧
        ∀ (m : VMessage) (r q : Bool), (s2.postOutputMessage m r q).isSome = true := by
  suffices key : ∀ s : VClientSession,
      (s.mOutputThread = none → s.mIsShuttingDown = true) →
      (∀ op ∈ ops, SessionOp.isClientCall op = true) →
      ∃ s2, applyOps s ops = some s2 ∧
        (s2.mOutputThread = none → s2.mIsShuttingDown = true) by
    intro s hout hops
    obtain ⟨s2, h2, hinv⟩ := key s (fun h => absurd h hout) hops
    exact ⟨s2, h2, hinv, fun m r q =>
      postOutputMessage_returns_under_invariant s2 m r q hinv⟩
  induction ops with
  | nil => exact fun s hinv _ => ⟨s, rfl, hinv⟩
  | cons op rest ih =>
    intro s hinv hops
    obtain ⟨s1, h1, hinv1⟩ :=
      applyOp_client_call_keeps_invariant s op (hops op (List.mem_cons_self _ _)) hinv
    obtain ⟨s2, h2, hinv2⟩ :=
      ih s1 hinv1 (fun o ho => hops o (List.mem_cons_of_mem _ ho))
    exact ⟨s2, by simp [applyOps, h1, h2], hinv2⟩

/-- C23 on the sample session: the output worker shuts the session down between two
posts; the run ends with a null `mOutputThread` and the flag set. -/
theorem null_output_worker_implies_shutdown_flag_witness :
    sampleSession.mOutputThread ≠ none ∧
    (∀ op ∈ clientCalls, SessionOp.isClientCall op = true) ∧
    (∃ s2, applyOps sampleSession clientCalls = some s2 ∧
      (s2.mOutputThread = none → s2.mIsShuttingDown = true) ∧
      ∀ (m : VMessage) (r q : Bool), (s2.postOutputMessage m r q).isSome = true) ∧
    (applyOps sampleSession clientCalls).map (fun s2 => s2.mOutputThread) =
      some none :=
  ⟨by decide, by decide,
   null_output_worker_implies_shutdown_flag clientCalls sampleSession (by decide)
     (by decide),
   by decide⟩

/-! ## Attaching and detaching tasks -/

/-- C24: `detachTask(t)` removes exactly the first occurrence of `t` from the task
list and keeps every other entry in order (the list is `before ++ t :: after` with
`t` not in `before`, and becomes `before ++ after`); when `t` does not occur the list
is unchanged; `attachTask(t)` appends `t`; neither changes the shutdown flag, the
worker references, the standby queue or any other member. -/
theorem detachTask_removes_first_occurrence_only (s : VClientSession)
    (t : VMessageHandlerTask) :
    (t ∈ s.mTasks →
      ∃ before after, t ∉ before ∧ s.mTasks = before ++ t :: after ∧
        (s.detachTask t).mTasks = before ++ after) ∧
    (t ∉ s.mTasks → (s.detachTask t).mTasks = s.mTasks) ∧
    (s.attachTask t).mTasks = s.mTasks ++ [t] ∧
    s.detachTask t = { s with mTasks := (s.detachTask t).mTasks } ∧
    s.attachTask t = { s with mTasks := (s.attachTask t).mTasks } ∧
    (s.detachTask t).mIsShuttingDown = s.mIsShuttingDown ∧
    (s.detachTask t).mInputThread = s.mInputThread ∧
    (s.detachTask t).mOutputThread = s.mOutputThread ∧
    (s.detachTask t).mStartupStandbyQueue = s.mStartupStandbyQueue ∧
    (s.attachTask t).mIsShuttingDown = s.mIsShuttingDown ∧
    (s.attachTask t).mInputThread = s.mInputThread ∧
    (s.attachTask t).mOutputThread = s.mOutputThread ∧
    (s.attachTask t).mStartupStandbyQueue = s.mStartupStandbyQueue := by
  refine ⟨fun h => ?_, fun h => ?_, rfl, rfl, rfl, rfl, rfl, rfl, rfl, rfl, rfl, rfl,
    rfl⟩
  · obtain ⟨l1, l2, h1, h2, h3⟩ := List.exists_erase_eq h
    exact ⟨l1, l2, h1, h2, by simpa [VClientSession.detachTask] using h3⟩
  · simpa [VClientSession.detachTask] using List.erase_of_not_mem h

/-- C24 on a sample: task 5 is attached twice around task 6; `detachTask(5)` removes
the first 5 and keeps 6 and the second 5 in order, and `detachTask(7)` changes
nothing. -/
theorem detachTask_removes_first_occurrence_only_witness :
    (5 : VMessageHandlerTask) ∈ ({ sampleSession with mTasks := [5, 6, 5] }).mTasks ∧
    (∃ before after, (5 : VMessageHandlerTask) ∉ before ∧
      ({ sampleSession with mTasks := [5, 6, 5] }).mTasks = before ++ 5 :: after ∧
      (VClientSession.detachTask { sampleSession with mTasks := [5, 6, 5] } 5).mTasks
        = before ++ after) ∧
    (VClientSession.detachTask { sampleSession with mTasks := [5, 6, 5] } 5).mTasks
      = [6, 5] ∧
    (VClientSession.detachTask { sampleSession with mTasks := [5, 6, 5] } 7).mTasks
      = [5, 6, 5] :=
  ⟨by decide,
   (detachTask_removes_first_occurrence_only { sampleSession with mTasks := [5, 6, 5] }
     5).1 (by decide),
   by decide, by decide⟩

/-! ## Stream copy through the temp buffer -/

/-- Reading a list in two steps, the first asking for `c` elements, gives the same
prefix and the same rest as reading `k` elements at once. -/
theorem take_drop_in_two_steps {α : Type} (s : List α) (c k : Nat) (hck : c ≤ k) :
    s.take c ++ (s.drop c).take (k - min c s.length) = s.take k ∧
    (s.drop c).drop (k - min c s.length) = s.drop k := by
  by_cases h : c ≤ s.length
  · have hk : k = c + (k - c) := by omega
    rw [Nat.min_eq_left h]
    constructor
    · conv_rhs => rw [hk, List.take_add]
    · rw [List.drop_drop]
      congr 1
      omega
  · have hlen : s.length ≤ c := by omega
    rw [List.drop_eq_nil_of_le hlen, List.take_of_length_le hlen,
      List.take_of_length_le (by omega : s.length ≤ k),
      List.drop_eq_nil_of_le (by omega : s.length ≤ k)]
    simp

/-- The `read` of a byte source returns at most the count requested. -/
theorem byteSource_read_in_range : byteSource.ReadInRange := by
  intro s n hn
  simp only [byteSource, List.length_take]
  omega

/-- The `write` of the accepting destination returns the count offered. -/
theorem byteSink_write_in_range : byteSink.WriteInRange := by
  intro s bytes
  simp [byteSink]

/-- The `write` of the slow destination returns at most the count offered. -/
theorem slowSink_write_in_range : slowSink.WriteInRange := by
  intro s bytes
  simp only [slowSink, List.length_take]
  omega

/-- The copy loop on streams whose counts are in range: with more passes allowed
than bytes remain it ends; the count returned is the count on entry plus the sum of
what `write` returned, which lies between zero and the bytes remaining on entry; and
every pass but the last read and wrote at least one byte. -/
theorem copyLoop_terminates {σ τ : Type} (R : VStream σ) (W : VStream τ)
    (hR : R.ReadInRange) (hW : W.WriteInRange) (tbs : Int) (ht : 0 ≤ tbs) :
    ∀ (fuel : Nat) (f : σ) (t : τ) (rem copied : Int), 0 ≤ rem → rem < fuel →
      ∃ r, VStream.copyLoop R W fuel f t rem tbs copied = some r ∧
        r.numBytesCopied = copied + totalWritten r.passes ∧
        0 ≤ totalWritten r.passes ∧ totalWritten r.passes ≤ rem ∧
        stopsAtFirstZero r.passes = true := by
  intro fuel
  induction fuel with
  | zero => intro f t rem copied h0 h1; simp at h1; omega
  | succ fuel ih =>
    intro f t rem copied h0 h1
    unfold VStream.copyLoop
    by_cases hrem : rem > 0
    · have hlen := hR f (min rem tbs) (by omega)
      simp only [hrem, if_true]
      by_cases hz : (((R.read f (min rem tbs)).1.length : Nat) : Int) = 0
      · simp only [hz, if_true]
        refine ⟨_, rfl, ?_, ?_, ?_, ?_⟩ <;> simp [totalWritten, stopsAtFirstZero]
        omega
      · simp only [hz, if_false]
        have hw := hW t (R.read f (min rem tbs)).1
        by_cases hwz : (W.write t (R.read f (min rem tbs)).1).1 = 0
        · simp only [hwz, if_true]
          refine ⟨_, rfl, ?_, ?_, ?_, ?_⟩ <;> simp [totalWritten, stopsAtFirstZero]
          omega
        · simp only [hwz, if_false]
          obtain ⟨r, hr, h2, h3, h4, h5⟩ :=
            ih (R.read f (min rem tbs)).2 (W.write t (R.read f (min rem tbs)).1).2
              (rem - (W.write t (R.read f (min rem tbs)).1).1)
              (copied + (W.write t (R.read f (min rem tbs)).1).1)
              (by omega) (by push_cast at h1; omega)
          refine ⟨_, by rw [hr]; rfl, ?_, ?_, ?_, ?_⟩
          · simp only [totalWritten, Option.getD_some]
            omega
          · simp only [totalWritten, Option.getD_some]
            omega
          · simp only [totalWritten, Option.getD_some]
            omega
          · show stopsAtFirstZero (_ :: r.passes) = true
            cases hp : r.passes with
            | nil => simp [stopsAtFirstZero]
            | cons q rest =>
              rw [hp] at h5
              simp only [stopsAtFirstZero, h5, Bool.and_true, Bool.and_eq_true,
                decide_eq_true_eq]
              constructor <;> omega
    · simp only [hrem, if_false]
      refine ⟨_, rfl, ?_, ?_, ?_, ?_⟩ <;> simp [totalWritten, stopsAtFirstZero]
      omega

/-- The copy loop from a byte source to an accepting destination, with a temp buffer
of at least one byte: it returns the count on entry plus `min(remaining, |s|)`,
appends that many bytes of `s` in order, and leaves the rest of `s` in the source. -/
theorem copyLoop_byte_streams (tbs : Int) (ht : 1 ≤ tbs) :
    ∀ (fuel : Nat) (s d : List Vu8) (rem copied : Int), 0 ≤ rem → rem < fuel →
      ∃ r, VStream.copyLoop byteSource byteSink fuel s d rem tbs copied = some r ∧
        r.numBytesCopied = copied + min rem s.length ∧
        r.toStream = d ++ s.take rem.toNat ∧
        r.fromStream = s.drop rem.toNat := by
  intro fuel
  induction fuel with
  | zero => intro s d rem copied h0 h1; simp at h1; omega
  | succ fuel ih =>
    intro s d rem copied h0 h1
    unfold VStream.copyLoop
    by_cases hrem : rem > 0
    · simp only [hrem, if_true]
      have hc : 1 ≤ (min rem tbs).toNat ∧ (min rem tbs).toNat ≤ rem.toNat := by omega
      have hlen : (byteSource.read s (min rem tbs)).1.length
          = min (min rem tbs).toNat s.length := by
        simp [byteSource, List.length_take]
      by_cases hz : (((byteSource.read s (min rem tbs)).1.length : Nat) : Int) = 0
      · simp only [hz, if_true]
        have hs : s = [] := by
          apply List.length_eq_zero.mp
          omega
        subst hs
        refine ⟨_, rfl, ?_, ?_, ?_⟩ <;> simp [byteSource]
        omega
      · simp only [hz, if_false]
        have hw : (byteSink.write d (byteSource.read s (min rem tbs)).1).1
            = ((byteSource.read s (min rem tbs)).1.length : Int) := by
          simp [byteSink]
        simp only [hw, hz, if_false]
        obtain ⟨r, hr, h2, h3, h4⟩ :=
          ih (byteSource.read s (min rem tbs)).2
            (byteSink.write d (byteSource.read s (min rem tbs)).1).2
            (rem - ((byteSource.read s (min rem tbs)).1.length : Int))
            (copied + ((byteSource.read s (min rem tbs)).1.length : Int))
            (by omega) (by push_cast at h1; omega)
        have hk : (rem - ((byteSource.read s (min rem tbs)).1.length : Int)).toNat
            = rem.toNat - min (min rem tbs).toNat s.length := by
          omega
        obtain ⟨ht1, ht2⟩ :=
          take_drop_in_two_steps s (min rem tbs).toNat rem.toNat hc.2
        refine ⟨_, by rw [hr]; rfl, ?_, ?_, ?_⟩
        · simp only [h2]
          have : ((byteSource.read s (min rem tbs)).2).length
              = s.length - (min rem tbs).toNat := by
            simp [byteSource]
          omega
        · simp only [h3, hk]
          simp only [byteSource, byteSink, List.append_assoc]
          rw [ht1]
        · simp only [h4, hk]
          simp only [byteSource]
          rw [ht2]
    · simp only [hrem, if_false]
      have h00 : rem = 0 := by omega
      subst h00
      refine ⟨_, rfl, ?_, ?_, ?_⟩ <;> simp

/-- The function `newNewBuffer` returns a buffer when the size fits `size_t` and the
heap has the memory: the buffer `new` returns. -/
theorem newNewBuffer_fits (pf : Platform) (heap : Heap) (bufferSize : Int)
    (hfit : pf.sizeTIsVs64 = true ∨ bufferSize ≤ V_MAX_S32) :
    VStream.newNewBuffer pf heap bufferSize = heap.newArray bufferSize := by
  rcases hfit with h | h <;> simp [VStream.newNewBuffer, h]

/-- Taking or dropping `min k |s|` elements is taking or dropping `k`. -/
theorem take_drop_min_length {α : Type} (s : List α) (k : Nat) :
    s.take (min k s.length) = s.take k ∧ s.drop (min k s.length) = s.drop k := by
  by_cases h : k ≤ s.length
  · rw [Nat.min_eq_left h]
    exact ⟨rfl, rfl⟩
  · have hlen : s.length ≤ k := by omega
    rw [Nat.min_eq_right hlen, List.take_of_length_le hlen, List.take_of_length_le
      (Nat.le_refl _), List.drop_eq_nil_of_le hlen, List.drop_eq_nil_of_le (Nat.le_refl _)]
    exact ⟨rfl, rfl⟩

/-- C25 as stated fails when `newNewBuffer` throws.  Where `size_t` is narrower than
`Vs64`: asked for 2147483648 bytes through a temp buffer of 2147483648 bytes from a
source holding three bytes, `streamCopy` throws `std::bad_alloc` at line 195, whatever
the heap holds.  Where `size_t` is as wide as `Vs64`: asked for 4611686018427387904
bytes through a temp buffer of that size, with a heap that cannot give as much,
`streamCopy` throws `std::bad_alloc` from `new` (line 198).  In both cases it returns
nothing, however long it may run. -/
theorem streamCopy_large_temp_buffer_throws :
    (0 : Int) ≤ 2147483648 ∧ (1 : Int) ≤ 2147483648 ∧
    (fun fuel => VStream.streamCopy narrowSizeT (heapOf 4294967296) fuel byteSource
      byteSink [1, 2, 3] [] 2147483648 2147483648) = (fun _ => CopyOutcome.badAlloc) ∧
    (fun fuel => VStream.streamCopy wideSizeT (heapOf 4294967296) fuel byteSource
      byteSink [1, 2, 3] [] 4611686018427387904 4611686018427387904)
      = fun _ => CopyOutcome.badAlloc := by
  refine ⟨by decide, by decide, ?_, ?_⟩
  · funext fuel
    simp [VStream.streamCopy, VStream.newNewBuffer, narrowSizeT, V_MAX_S32]
  · funext fuel
    simp [VStream.streamCopy, VStream.newNewBuffer, wideSizeT, heapOf]

/-- C25 (as amended): on the temp-buffer path, from a source holding the bytes `s` to
a destination that accepts every byte, for every `numBytesToCopy >= 0` and every
`tempBufferSize >= 1` for which `newNewBuffer` returns the temp buffer (the size
`min(numBytesToCopy, tempBufferSize)` fits `size_t`, that is `size_t` is as wide as
`Vs64` or the size is `<= V_MAX_S32`, and `new` has the memory), `streamCopy` returns
`min(numBytesToCopy, |s|)`, appends exactly the first `min(numBytesToCopy, |s|)`
bytes of `s` to the destination in order, and leaves the rest of `s` in the source,
whatever `tempBufferSize` is; more passes than `numBytesToCopy` are never needed. -/
theorem streamCopy_copies_first_bytes (pf : Platform) (heap : Heap) (s d : List Vu8)
    (numBytesToCopy tempBufferSize : Int) (fuel : Nat)
    (hn : 0 ≤ numBytesToCopy) (ht : 1 ≤ tempBufferSize)
    (hfit : pf.sizeTIsVs64 = true ∨ min numBytesToCopy tempBufferSize ≤ V_MAX_S32)
    (halloc : (heap.newArray (min numBytesToCopy tempBufferSize)).isSome = true)
    (hfuel : numBytesToCopy < fuel) :
    ∃ r, VStream.streamCopy pf heap fuel byteSource byteSink s d numBytesToCopy
          tempBufferSize = CopyOutcome.returned r ∧
      r.numBytesCopied = min numBytesToCopy s.length ∧
      r.toStream = d ++ s.take (min numBytesToCopy s.length).toNat ∧
      r.fromStream = s.drop (min numBytesToCopy s.length).toNat := by
  obtain ⟨buffer, hbuffer⟩ := Option.isSome_iff_exists.mp halloc
  have hnew : VStream.newNewBuffer pf heap (min numBytesToCopy tempBufferSize)
      = some buffer := by
    rw [newNewBuffer_fits pf heap _ hfit, hbuffer]
  have hk : (min numBytesToCopy (s.length : Int)).toNat
      = min numBytesToCopy.toNat s.length := by omega
  obtain ⟨hk1, hk2⟩ := take_drop_min_length s numBytesToCopy.toNat
  by_cases h0 : numBytesToCopy = 0
  · subst h0
    cases fuel with
    | zero => simp at hfuel
    | succ k =>
      refine ⟨_, by simp only [VStream.streamCopy, hnew, VStream.copyLoop]; rfl,
        ?_, ?_, ?_⟩ <;> simp
  · obtain ⟨r, hr, h2, h3, h4⟩ :=
      copyLoop_byte_streams (min numBytesToCopy tempBufferSize) (by omega) fuel s d
        numBytesToCopy 0 hn hfuel
    refine ⟨r, by simp only [VStream.streamCopy, hnew, hr], ?_, ?_, ?_⟩
    · rw [h2]; omega
    · rw [h3, hk, hk1]
    · rw [h4, hk, hk2]

/-- C25 on a sample: seven bytes are asked of a source holding five, through a temp
buffer of two bytes, where `size_t` is narrower than `Vs64` and the heap gives up to
1024 bytes. -/
theorem streamCopy_copies_first_bytes_witness :
    (∃ r, VStream.streamCopy narrowSizeT (heapOf 1024) 8 byteSource byteSink
          [1, 2, 3, 4, 5] [9] 7 2 = CopyOutcome.returned r ∧
      r.numBytesCopied = min (7 : Int) ([1, 2, 3, 4, 5] : List Vu8).length ∧
      r.toStream = [9] ++
        ([1, 2, 3, 4, 5] : List Vu8).take
          (min (7 : Int) ([1, 2, 3, 4, 5] : List Vu8).length).toNat ∧
      r.fromStream =
        ([1, 2, 3, 4, 5] : List Vu8).drop
          (min (7 : Int) ([1, 2, 3, 4, 5] : List Vu8).length).toNat) ∧
    VStream.newNewBuffer narrowSizeT (heapOf 1024) (min 7 2) = some 2 ∧
    (VStream.copyLoop byteSource byteSink 8 [1, 2, 3, 4, 5] [9] 7 2 0).map
      (fun r => (r.numBytesCopied, r.toStream, r.fromStream)) =
      some (5, [9, 1, 2, 3, 4, 5], []) :=
  ⟨streamCopy_copies_first_bytes narrowSizeT (heapOf 1024) [1, 2, 3, 4, 5] [9] 7 2 8
     (by decide) (by decide) (Or.inr (by decide)) (by decide) (by decide),
   by decide, by decide⟩

/-- C26 as stated fails when `newNewBuffer` throws, on streams whose counts are in
range.  Where `size_t` is narrower than `Vs64`: with `numBytesToCopy = 4294967296`
and `tempBufferSize = 2147483648`, `streamCopy` throws `std::bad_alloc` at line 195
before the loop.  Where `size_t` is as wide as `Vs64`: with both equal to
4611686018427387904 and a heap that cannot give as much, it throws `std::bad_alloc`
from `new` (line 198).  In both cases it returns no value. -/
theorem streamCopy_throws_before_loop :
    byteSource.ReadInRange ∧ slowSink.WriteInRange ∧
    (fun fuel => VStream.streamCopy narrowSizeT (heapOf 4294967296) fuel byteSource
      slowSink [1, 2, 3, 4, 5] [9] 4294967296 2147483648)
      = (fun _ => CopyOutcome.badAlloc) ∧
    (fun fuel => VStream.streamCopy wideSizeT (heapOf 4294967296) fuel byteSource
      slowSink [1, 2, 3, 4, 5] [9] 4611686018427387904 4611686018427387904)
      = fun _ => CopyOutcome.badAlloc := by
  refine ⟨byteSource_read_in_range, slowSink_write_in_range, ?_, ?_⟩
  · funext fuel
    simp [VStream.streamCopy, VStream.newNewBuffer, narrowSizeT, V_MAX_S32]
  · funext fuel
    simp [VStream.streamCopy, VStream.newNewBuffer, wideSizeT, heapOf]

/-- C26 (as amended): on the temp-buffer path, for a source whose `read` and a
destination whose `write` return a count between zero and the count requested, every
`numBytesToCopy >= 0` and every `tempBufferSize >= 0` for which `newNewBuffer`
returns the temp buffer (the size `min(numBytesToCopy, tempBufferSize)` fits
`size_t`, that is `size_t` is as wide as `Vs64` or the size is `<= V_MAX_S32`, and
`new` has the memory), the copy loop ends within `numBytesToCopy + 1` passes, every
pass but the last having read and written at least one byte; the value returned is
the sum of the counts `write` returned and lies between zero and `numBytesToCopy`. -/
theorem streamCopy_terminates_with_count_written {σ τ : Type} (pf : Platform)
    (heap : Heap) (R : VStream σ) (W : VStream τ) (fromStream : σ) (toStream : τ)
    (numBytesToCopy tempBufferSize : Int) (fuel : Nat)
    (hR : R.ReadInRange) (hW : W.WriteInRange)
    (hn : 0 ≤ numBytesToCopy) (ht : 0 ≤ tempBufferSize)
    (hfit : pf.sizeTIsVs64 = true ∨ min numBytesToCopy tempBufferSize ≤ V_MAX_S32)
    (halloc : (heap.newArray (min numBytesToCopy tempBufferSize)).isSome = true)
    (hfuel : numBytesToCopy < fuel) :
    ∃ r, VStream.streamCopy pf heap fuel R W fromStream toStream numBytesToCopy
          tempBufferSize = CopyOutcome.returned r ∧
      r.numBytesCopied = totalWritten r.passes ∧
      0 ≤ r.numBytesCopied ∧ r.numBytesCopied ≤ numBytesToCopy ∧
      stopsAtFirstZero r.passes = true := by
  obtain ⟨buffer, hbuffer⟩ := Option.isSome_iff_exists.mp halloc
  have hnew : VStream.newNewBuffer pf heap (min numBytesToCopy tempBufferSize)
      = some buffer := by
    rw [newNewBuffer_fits pf heap _ hfit, hbuffer]
  obtain ⟨r, hr, h2, h3, h4, h5⟩ :=
    copyLoop_terminates R W hR hW (min numBytesToCopy tempBufferSize) (by omega) fuel
      fromStream toStream numBytesToCopy 0 hn hfuel
  refine ⟨r, by simp only [VStream.streamCopy, hnew, hr], ?_, ?_, ?_, h5⟩ <;> omega

/-- C26 on a sample: the destination takes two bytes per `write`, so one of the three
bytes of the first pass is dropped; four bytes are written in all. -/
theorem streamCopy_terminates_with_count_written_witness :
    (∃ r, VStream.streamCopy narrowSizeT (heapOf 1024) 8 byteSource slowSink
          [1, 2, 3, 4, 5] [9] 7 3 = CopyOutcome.returned r ∧
      r.numBytesCopied = totalWritten r.passes ∧
      0 ≤ r.numBytesCopied ∧ r.numBytesCopied ≤ 7 ∧
      stopsAtFirstZero r.passes = true) ∧
    VStream.newNewBuffer narrowSizeT (heapOf 1024) (min 7 3) = some 3 ∧
    (VStream.copyLoop byteSource slowSink 8 [1, 2, 3, 4, 5] [9] 7 3 0).map
      (fun r => (r.numBytesCopied, r.toStream, r.passes.length)) =
      some (4, [9, 1, 2, 4, 5], 3) :=
  ⟨streamCopy_terminates_with_count_written narrowSizeT (heapOf 1024) byteSource
     slowSink [1, 2, 3, 4, 5] [9] 7 3 8 byteSource_read_in_range
     slowSink_write_in_range (by decide) (by decide) (Or.inr (by decide)) (by decide)
     (by decide),
   by decide, by decide⟩

/-! ## Memory copy in chunks -/

/-- A `memcpy` inside the target buffer keeps the buffer's length. -/
theorem memcpyAt_length (toBuffer fromBuffer : List Vu8) (offset n : Nat)
    (hto : offset + n ≤ toBuffer.length) (hfrom : offset + n ≤ fromBuffer.length) :
    (memcpyAt toBuffer fromBuffer offset n).length = toBuffer.length := by
  simp only [memcpyAt, List.length_append, List.length_take, List.length_drop]
  omega

/-- Two adjacent `memcpy` calls, of `a` bytes and then of `b` bytes, leave what one
`memcpy` of `a + b` bytes leaves. -/
theorem memcpyAt_adjacent (toBuffer fromBuffer : List Vu8) (offset a b : Nat)
    (hto : offset + a + b ≤ toBuffer.length)
    (hfrom : offset + a + b ≤ fromBuffer.length) :
    memcpyAt (memcpyAt toBuffer fromBuffer offset a) fromBuffer (offset + a) b
      = memcpyAt toBuffer fromBuffer offset (a + b) := by
  have hlen : (toBuffer.take offset ++ (fromBuffer.drop offset).take a).length
      = offset + a := by
    simp only [List.length_append, List.length_take, List.length_drop]
    omega
  have h1 : (memcpyAt toBuffer fromBuffer offset a).take (offset + a)
      = toBuffer.take offset ++ (fromBuffer.drop offset).take a := by
    unfold memcpyAt
    rw [← hlen, List.take_left]
  have h2 : (memcpyAt toBuffer fromBuffer offset a).drop (offset + a + b)
      = toBuffer.drop (offset + a + b) := by
    unfold memcpyAt
    rw [← hlen, List.drop_append, List.drop_drop, hlen]
  have h3 : (fromBuffer.drop offset).take (a + b)
      = (fromBuffer.drop offset).take a ++ (fromBuffer.drop (offset + a)).take b := by
    rw [List.take_add, List.drop_drop]
  show (memcpyAt toBuffer fromBuffer offset a).take (offset + a) ++
      (fromBuffer.drop (offset + a)).take b ++
      (memcpyAt toBuffer fromBuffer offset a).drop (offset + a + b) = _
  rw [h1, h2]
  unfold memcpyAt
  rw [h3, Nat.add_assoc]
  simp only [List.append_assoc]

/-- The chunked loop of `copyMemory`: when `fuel` chunks of `V_MAX_S32` bytes cover
the bytes remaining, it ends and leaves what one `memcpy` of all the remaining bytes
leaves. -/
theorem copyMemoryLoop_copies (fromBuffer : List Vu8) :
    ∀ (fuel : Nat) (toBuffer : List Vu8) (offset : Nat) (rem : Int),
      0 ≤ rem → 1 ≤ fuel → rem ≤ fuel * V_MAX_S32 →
      offset + rem.toNat ≤ toBuffer.length →
      offset + rem.toNat ≤ fromBuffer.length →
      VStream.copyMemoryLoop fromBuffer fuel toBuffer offset rem
        = some (memcpyAt toBuffer fromBuffer offset rem.toNat) := by
  have hM : V_MAX_S32 = 2147483647 := rfl
  simp only [hM]
  intro fuel
  induction fuel with
  | zero => intro toBuffer offset rem h0 h1; omega
  | succ fuel ih =>
    intro toBuffer offset rem h0 _ hfuel hto hfrom
    unfold VStream.copyMemoryLoop
    simp only [hM]
    push_cast at hfuel
    by_cases hmore : rem > 2147483647
    · have hchunk : (min 2147483647 rem).toNat = 2147483647 := by omega
      have hcond : rem - ((2147483647 : Nat) : Int) > 0 := by omega
      have hrest : (rem - ((2147483647 : Nat) : Int)).toNat = rem.toNat - 2147483647 := by
        omega
      have hsum : rem.toNat = 2147483647 + (rem.toNat - 2147483647) := by omega
      simp only [hchunk, hcond, if_true]
      rw [ih _ _ _ (by omega) (by omega) (by omega)
        (by rw [memcpyAt_length _ _ _ _ (by omega) (by omega)]; omega) (by omega)]
      rw [hrest, memcpyAt_adjacent _ _ _ _ _ (by omega) (by omega), ← hsum]
    · have hchunk : (min 2147483647 rem).toNat = rem.toNat := by omega
      have hcond : ¬ rem - (rem.toNat : Int) > 0 := by omega
      simp only [hchunk, hcond, if_false]

/-- One `memcpy` from the start of the buffers is the single copy. -/
theorem memcpyAt_zero (toBuffer fromBuffer : List Vu8) (n : Nat) :
    memcpyAt toBuffer fromBuffer 0 n = singleCopy toBuffer fromBuffer n := by
  simp [memcpyAt, singleCopy]

/-- C27: for every `numBytesToCopy >= 0` that both buffers hold, on either platform,
`copyMemory` leaves what one single copy of `numBytesToCopy` bytes leaves: the first
`numBytesToCopy` bytes of the target are those of the source and the rest of the
target is untouched.  The chunked loop ends as soon as its chunks of `V_MAX_S32`
bytes cover `numBytesToCopy`, with the same result as the single copy. -/
theorem copyMemory_chunked_is_single_copy (pf : Platform) (fuel : Nat)
    (toBuffer fromBuffer : List Vu8) (numBytesToCopy : Int)
    (hn : 0 ≤ numBytesToCopy) (hto : numBytesToCopy ≤ toBuffer.length)
    (hfrom : numBytesToCopy ≤ fromBuffer.length)
    (hfuel : 1 ≤ fuel ∧ numBytesToCopy ≤ fuel * V_MAX_S32) :
    VStream.copyMemory pf fuel toBuffer fromBuffer numBytesToCopy
      = some (singleCopy toBuffer fromBuffer numBytesToCopy.toNat) ∧
    VStream.copyMemoryLoop fromBuffer fuel toBuffer 0 numBytesToCopy
      = some (singleCopy toBuffer fromBuffer numBytesToCopy.toNat) ∧
    (singleCopy toBuffer fromBuffer numBytesToCopy.toNat).take numBytesToCopy.toNat
      = fromBuffer.take numBytesToCopy.toNat ∧
    (singleCopy toBuffer fromBuffer numBytesToCopy.toNat).drop numBytesToCopy.toNat
      = toBuffer.drop numBytesToCopy.toNat := by
  have hloop := copyMemoryLoop_copies fromBuffer fuel toBuffer 0 numBytesToCopy hn
    hfuel.1 hfuel.2 (by omega) (by omega)
  rw [memcpyAt_zero] at hloop
  have hlen : (fromBuffer.take numBytesToCopy.toNat).length = numBytesToCopy.toNat := by
    rw [List.length_take]
    omega
  refine ⟨?_, hloop, ?_, ?_⟩
  · unfold VStream.copyMemory
    split
    · rw [memcpyAt_zero]
    · exact hloop
  · have h := List.take_left (fromBuffer.take numBytesToCopy.toNat)
      (toBuffer.drop numBytesToCopy.toNat)
    rw [hlen] at h
    exact h
  · have h := List.drop_left (fromBuffer.take numBytesToCopy.toNat)
      (toBuffer.drop numBytesToCopy.toNat)
    rw [hlen] at h
    exact h

/-- C27 on samples: where `size_t` is narrower than `Vs64`, copying 2147483650 bytes
takes the chunked loop, which ends after two chunks with the result of the single
copy; a copy of two bytes takes the single `memcpy`. -/
theorem copyMemory_chunked_is_single_copy_witness :
    VStream.needSizeConversion narrowSizeT 2147483650 = true ∧
    (VStream.copyMemory narrowSizeT 2 (List.replicate 2147483652 9)
        (List.replicate 2147483650 7) 2147483650
      = some (singleCopy (List.replicate 2147483652 9) (List.replicate 2147483650 7)
          (2147483650 : Int).toNat) ∧
    VStream.copyMemoryLoop (List.replicate 2147483650 7) 2
        (List.replicate 2147483652 9) 0 2147483650
      = some (singleCopy (List.replicate 2147483652 9) (List.replicate 2147483650 7)
          (2147483650 : Int).toNat) ∧
    (singleCopy (List.replicate 2147483652 9) (List.replicate 2147483650 7)
        (2147483650 : Int).toNat).take (2147483650 : Int).toNat
      = (List.replicate 2147483650 7).take (2147483650 : Int).toNat ∧
    (singleCopy (List.replicate 2147483652 9) (List.replicate 2147483650 7)
        (2147483650 : Int).toNat).drop (2147483650 : Int).toNat
      = (List.replicate 2147483652 9).drop (2147483650 : Int).toNat) ∧
    VStream.copyMemory wideSizeT 1 [9, 9, 9, 9] [1, 2, 3] 2 = some [1, 2, 9, 9] :=
  ⟨by decide,
   copyMemory_chunked_is_single_copy narrowSizeT 2 (List.replicate 2147483652 9)
     (List.replicate 2147483650 7) 2147483650 (by decide)
     (by rw [List.length_replicate]; decide) (by rw [List.length_replicate]; decide)
     ⟨by decide, by decide⟩,
   by decide⟩

/-! ## Boolean values and path splitting in the settings -/

/-- C28: `stringToBoolean(v)` is true exactly when `v` is one of "1", "T", "t", "Y",
"y", "TRUE", "true", "YES", "yes", compared case-sensitively; "True", "Yes", "0" and
the empty string give false. -/
theorem stringToBoolean_true_iff_listed (v : String) :
    (VSettings.stringToBoolean v = true ↔
      v ∈ ["1", "T", "t", "Y", "y", "TRUE", "true", "YES", "yes"]) ∧
    VSettings.stringToBoolean "True" = false ∧
    VSettings.stringToBoolean "Yes" = false ∧
    VSettings.stringToBoolean "0" = false ∧
    VSettings.stringToBoolean "" = false := by
  refine ⟨?_, by decide, by decide, by decide, by decide⟩
  simp [VSettings.stringToBoolean, or_assoc]

/-- C28 on samples: "YES" is true, "yEs" is not. -/
theorem stringToBoolean_true_iff_listed_witness :
    VSettings.stringToBoolean "YES" = true ∧ VSettings.stringToBoolean "yEs" = false ∧
    "YES" ∈ ["1", "T", "t", "Y", "y", "TRUE", "true", "YES", "yes"] :=
  ⟨by decide, by decide, (stringToBoolean_true_iff_listed "YES").1.1 (by decide)⟩

/-- No first position means the character does not occur. -/
theorem firstIndexOf_none (c : Char) (l : List Char) :
    firstIndexOf c l = none ↔ c ∉ l := by
  induction l with
  | nil => simp [firstIndexOf]
  | cons x xs ih =>
    by_cases h : x = c
    · simp [firstIndexOf, h]
    · have h2 : ¬ c = x := fun e => h e.symm
      simp [firstIndexOf, h, h2, ih]

/-- The first position splits the list: the character is not before it, and it is at
it. -/
theorem firstIndexOf_some (c : Char) (l : List Char) :
    ∀ i, firstIndexOf c l = some i →
      i < l.length ∧ c ∉ l.take i ∧ l = l.take i ++ c :: l.drop (i + 1) := by
  induction l with
  | nil => intro i h; simp [firstIndexOf] at h
  | cons x xs ih =>
    intro i h
    by_cases hx : x = c
    · simp only [firstIndexOf, hx, if_true, Option.some.injEq] at h
      subst h
      simp [hx]
    · simp only [firstIndexOf, hx, if_false] at h
      cases hr : firstIndexOf c xs with
      | none => simp [hr] at h
      | some j =>
        simp only [hr, Option.map, Option.some.injEq] at h
        subst h
        obtain ⟨h1, h2, h3⟩ := ih j hr
        have h4 : ¬ c = x := fun e => hx e.symm
        refine ⟨by simpa using h1, by simpa [h4] using h2, ?_⟩
        simp only [List.take_succ_cons, List.drop_succ_cons, List.cons_append]
        rw [← h3]

/-- No last position means the character does not occur. -/
theorem lastIndexOfChar_none (c : Char) (l : List Char) :
    lastIndexOfChar c l = none ↔ c ∉ l := by
  induction l with
  | nil => simp [lastIndexOfChar]
  | cons x xs ih =>
    cases hr : lastIndexOfChar c xs with
    | none =>
      have hxs := ih.mp hr
      by_cases h : x = c
      · simp [lastIndexOfChar, hr, h]
      · have h2 : ¬ c = x := fun e => h e.symm
        simp [lastIndexOfChar, hr, h, h2, hxs]
    | some j =>
      have hxs : c ∈ xs := by
        by_contra hc
        rw [ih.mpr hc] at hr
        simp at hr
      simp [lastIndexOfChar, hr, hxs]

/-- The last position splits the list: the character is at it and not after it. -/
theorem lastIndexOfChar_some (c : Char) (l : List Char) :
    ∀ j, lastIndexOfChar c l = some j →
      j < l.length ∧ c ∉ l.drop (j + 1) ∧ l = l.take j ++ c :: l.drop (j + 1) := by
  induction l with
  | nil => intro j h; simp [lastIndexOfChar] at h
  | cons x xs ih =>
    intro j h
    cases hr : lastIndexOfChar c xs with
    | none =>
      have hxs := (lastIndexOfChar_none c xs).mp hr
      by_cases hx : x = c
      · simp only [lastIndexOfChar, hr, hx, if_true, Option.some.injEq] at h
        subst h
        simp [hx, hxs]
      · simp [lastIndexOfChar, hr, hx] at h
    | some k =>
      simp only [lastIndexOfChar, hr, Option.some.injEq] at h
      subst h
      obtain ⟨h1, h2, h3⟩ := ih k hr
      refine ⟨by simpa using h1, by simpa using h2, ?_⟩
      simp only [List.take_succ_cons, List.drop_succ_cons, List.cons_append]
      rw [← h3]

/-- The characters of `getSubstring(target, 0, i)` for a position `i` inside the
string. -/
theorem getSubstring_prefix (s : String) (i : Nat) (hi : i < s.data.length) :
    (VString.getSubstring s 0 (i : Int)).data = s.data.take i := by
  have h1 : ¬ ((i : Int) = -1) := by omega
  have h2 : min (s.data.length : Int) (i : Int) = (i : Int) := by omega
  unfold VString.getSubstring
  simp only [h1, if_false, h2]
  by_cases h0 : i = 0
  · subst h0
    simp
  · have h3 : ¬ (max (0 : Int) 0 ≥ (i : Int)) := by omega
    simp only [h3, if_false]
    simp

/-- The characters of `getSubstring(target, a)`, whose end index defaults to `-1`. -/
theorem getSubstring_to_end (s : String) (a : Nat) :
    (VString.getSubstring s (a : Int) (-1)).data = s.data.drop a := by
  have h2 : max (0 : Int) (a : Int) = (a : Int) := by omega
  by_cases h : (a : Int) ≥ (s.data.length : Int)
  · simp only [VString.getSubstring, h2, if_true, h]
    rw [List.drop_eq_nil_of_le (by omega)]
  · have h3 : ((s.data.length : Int) - (a : Int)).toNat = s.data.length - a := by omega
    simp only [VString.getSubstring, h2, if_true, h, if_false, Int.toNat_ofNat, h3]
    rw [List.take_of_length_le (by simp)]

/-- The two outputs of `splitPathFirst` for a path without delimiter. -/
theorem splitPathFirst_without_delimiter (p : String)
    (h : firstIndexOf kPathDelimiterChar p.data = none) :
    VSettings.splitPathFirst p = (p, "") := by
  have e := getSubstring_to_end p 0
  simp only [Nat.cast_zero, List.drop_zero] at e
  simp only [VSettings.splitPathFirst, VString.indexOf, h, if_true]
  rw [String.ext e]

/-- The two outputs of `splitPathFirst` for a path whose first delimiter is at `i`. -/
theorem splitPathFirst_at_delimiter (p : String) (i : Nat)
    (h : firstIndexOf kPathDelimiterChar p.data = some i) :
    (VSettings.splitPathFirst p).1.data = p.data.take i ∧
    (VSettings.splitPathFirst p).2.data = p.data.drop (i + 1) := by
  obtain ⟨hi, _, _⟩ := firstIndexOf_some kPathDelimiterChar p.data i h
  have e1 := getSubstring_prefix p i hi
  have e2 := getSubstring_to_end p (i + 1)
  push_cast at e2
  have hne : ¬ ((i : Int) = -1) := by omega
  simp only [VSettings.splitPathFirst, VString.indexOf, h, hne, if_false]
  exact ⟨e1, e2⟩

/-- The two outputs of `splitPathLast` for a path without delimiter. -/
theorem splitPathLast_without_delimiter (p : String)
    (h : lastIndexOfChar kPathDelimiterChar p.data = none) :
    VSettings.splitPathLast p = ("", p) := by
  have e := getSubstring_to_end p 0
  simp only [Nat.cast_zero, List.drop_zero] at e
  simp only [VSettings.splitPathLast, VString.lastIndexOf, h, if_true]
  have h0 : (-1 : Int) + 1 = 0 := by decide
  rw [h0, String.ext e]

/-- The two outputs of `splitPathLast` for a path whose last delimiter is at `j`. -/
theorem splitPathLast_at_delimiter (p : String) (j : Nat)
    (h : lastIndexOfChar kPathDelimiterChar p.data = some j) :
    (VSettings.splitPathLast p).1.data = p.data.take j ∧
    (VSettings.splitPathLast p).2.data = p.data.drop (j + 1) := by
  obtain ⟨hj, _, _⟩ := lastIndexOfChar_some kPathDelimiterChar p.data j h
  have e1 := getSubstring_prefix p j hj
  have e2 := getSubstring_to_end p (j + 1)
  push_cast at e2
  have hne : ¬ ((j : Int) = -1) := by omega
  simp only [VSettings.splitPathLast, VString.lastIndexOf, h, hne, if_false]
  exact ⟨e1, e2⟩

/-- C29: `splitPathFirst(p)` gives a `nextNodeName` without '/'; when `p` contains a
'/', `nextNodeName + "/" + outRemainder` is `p`, so the split is at the first '/';
when `p` contains no '/', `nextNodeName` is `p` and `outRemainder` is empty. -/
theorem splitPathFirst_splits_at_first_delimiter (p : String) :
    VString.contains (VSettings.splitPathFirst p).1 kPathDelimiterChar = false ∧
    (VString.contains p kPathDelimiterChar = true →
      (VSettings.splitPathFirst p).1 ++ "/" ++ (VSettings.splitPathFirst p).2 = p) ∧
    (VString.contains p kPathDelimiterChar = false →
      (VSettings.splitPathFirst p).1 = p ∧ (VSettings.splitPathFirst p).2 = "") := by
  cases hf : firstIndexOf kPathDelimiterChar p.data with
  | none =>
    have hnot := (firstIndexOf_none kPathDelimiterChar p.data).mp hf
    rw [splitPathFirst_without_delimiter p hf]
    simp [VString.contains, hnot]
  | some i =>
    obtain ⟨_, h2, h3⟩ := firstIndexOf_some kPathDelimiterChar p.data i hf
    obtain ⟨e1, e2⟩ := splitPathFirst_at_delimiter p i hf
    have hin : kPathDelimiterChar ∈ p.data := by
      rw [h3]
      simp
    refine ⟨by simp [VString.contains, e1, h2], fun _ => ?_, fun hc => ?_⟩
    · apply String.ext
      rw [String.data_append, String.data_append, e1, e2]
      conv_rhs => rw [h3]
      simp [kPathDelimiterChar]
    · simp [VString.contains, hin] at hc

/-- C29 on samples: "a/b/c" splits into "a" and "b/c", a path starting with '/' gives
an empty first node, and a leaf comes back whole. -/
theorem splitPathFirst_splits_at_first_delimiter_witness :
    VString.contains "a/b/c" kPathDelimiterChar = true ∧
    (VSettings.splitPathFirst "a/b/c").1 ++ "/" ++ (VSettings.splitPathFirst "a/b/c").2
      = "a/b/c" ∧
    VSettings.splitPathFirst "a/b/c" = ("a", "b/c") ∧
    VSettings.splitPathFirst "/a" = ("", "a") ∧
    VSettings.splitPathFirst "leaf" = ("leaf", "") :=
  ⟨by decide,
   (splitPathFirst_splits_at_first_delimiter "a/b/c").2.1 (by decide),
   by decide, by decide, by decide⟩

/-- C30: `splitPathLast(p)` gives a `lastNode` without '/'; when `p` contains a '/',
`leadingPath + "/" + lastNode` is `p`, so the split is at the last '/'; when `p`
contains no '/', `leadingPath` is empty and `lastNode` is `p`.  So `isPathLeaf(p)`
holds exactly when `leadingPath` is empty and `lastNode` is `p`. -/
theorem splitPathLast_splits_at_last_delimiter (p : String) :
    VString.contains (VSettings.splitPathLast p).2 kPathDelimiterChar = false ∧
    (VString.contains p kPathDelimiterChar = true →
      (VSettings.splitPathLast p).1 ++ "/" ++ (VSettings.splitPathLast p).2 = p) ∧
    (VString.contains p kPathDelimiterChar = false →
      (VSettings.splitPathLast p).1 = "" ∧ (VSettings.splitPathLast p).2 = p) ∧
    (VSettings.isPathLeaf p = true ↔
      (VSettings.splitPathLast p).1 = "" ∧ (VSettings.splitPathLast p).2 = p) := by
  cases hf : lastIndexOfChar kPathDelimiterChar p.data with
  | none =>
    have hnot := (lastIndexOfChar_none kPathDelimiterChar p.data).mp hf
    rw [splitPathLast_without_delimiter p hf]
    simp [VString.contains, VSettings.isPathLeaf, hnot]
  | some j =>
    obtain ⟨hj, h2, h3⟩ := lastIndexOfChar_some kPathDelimiterChar p.data j hf
    obtain ⟨e1, e2⟩ := splitPathLast_at_delimiter p j hf
    have hin : kPathDelimiterChar ∈ p.data := by
      rw [h3]
      simp
    have hshort : (VSettings.splitPathLast p).2 ≠ p := by
      intro e
      have hlen := congrArg (fun s : String => s.data.length) e
      simp only [e2, List.length_drop] at hlen
      omega
    refine ⟨by simp [VString.contains, e2, h2], fun _ => ?_, fun hc => ?_, ?_⟩
    · apply String.ext
      rw [String.data_append, String.data_append, e1, e2]
      conv_rhs => rw [h3]
      simp [kPathDelimiterChar]
    · simp [VString.contains, hin] at hc
    · simp [VSettings.isPathLeaf, VString.contains, hin, hshort]

/-- C30 on samples: "a/b/c" splits into "a/b" and "c", a leaf has an empty leading
path, and "/a" has an empty leading path without being a leaf. -/
theorem splitPathLast_splits_at_last_delimiter_witness :
    VString.contains "a/b/c" kPathDelimiterChar = true ∧
    (VSettings.splitPathLast "a/b/c").1 ++ "/" ++ (VSettings.splitPathLast "a/b/c").2
      = "a/b/c" ∧
    VSettings.splitPathLast "a/b/c" = ("a/b", "c") ∧
    VSettings.splitPathLast "leaf" = ("", "leaf") ∧
    VSettings.isPathLeaf "leaf" = true ∧
    VSettings.splitPathLast "/a" = ("", "a") ∧
    VSettings.isPathLeaf "/a" = false :=
  ⟨by decide,
   (splitPathLast_splits_at_last_delimiter "a/b/c").2.1 (by decide),
   by decide, by decide, by decide, by decide, by decide⟩

/-! ## Named children of a settings node -/

/-- Filtering a list whose head satisfies the test keeps the head. -/
theorem filter_cons_pos {α : Type} (p : α → Bool) (x : α) (rest : List α)
    (h : p x = true) : (x :: rest).filter p = x :: rest.filter p := by
  simp [List.filter_cons, h]

/-- Filtering a list whose head fails the test drops the head. -/
theorem filter_cons_neg {α : Type} (p : α → Bool) (x : α) (rest : List α)
    (h : ¬ p x = true) : (x :: rest).filter p = rest.filter p := by
  simp [List.filter_cons, h]

/-- The counting loop adds the number of names equal to `name`. -/
theorem countNamedLoop_eq (name : String) (names : List String) :
    ∀ result : Int, countNamedLoop name names result
      = result + ((names.filter (fun n => n == name)).length : Int) := by
  induction names with
  | nil => intro result; simp [countNamedLoop]
  | cons n rest ih =>
    intro result
    by_cases h : (n == name) = true
    · rw [filter_cons_pos (fun n => n == name) n rest h]
      simp only [countNamedLoop, h, if_true, List.length_cons, ih]
      push_cast
      omega
    · rw [filter_cons_neg (fun n => n == name) n rest h]
      simp only [countNamedLoop, h, Bool.false_eq_true, if_false, ih]

/-- The search loop over the names of `l`, entered with `numFound <= index`: it
returns at the position of the element number `index - numFound` among those named
`name`, when there is one, and otherwise ends with `numFound` raised by their
number. -/
theorem getNamedLoop_spec {α : Type} (g : α → String) (name : String) (index : Int)
    (l : List α) :
    ∀ (i : Nat) (numFound : Int), numFound ≤ index →
      (∃ q, getNamedLoop name index (l.map g) i numFound = Sum.inl (i + q) ∧
        (index - numFound).toNat < (l.filter (fun x => g x == name)).length ∧
        l[q]? = (l.filter (fun x => g x == name))[(index - numFound).toNat]?) ∨
      (getNamedLoop name index (l.map g) i numFound
          = Sum.inr (numFound + ((l.filter (fun x => g x == name)).length : Int)) ∧
        ((l.filter (fun x => g x == name)).length : Int) ≤ index - numFound) := by
  induction l with
  | nil =>
    intro i numFound h
    right
    simp only [List.map_nil, getNamedLoop, List.filter_nil, List.length_nil]
    constructor
    · simp
    · push_cast
      omega
  | cons x rest ih =>
    intro i numFound h
    by_cases hx : (g x == name) = true
    · rw [filter_cons_pos (fun x => g x == name) x rest hx]
      by_cases he : (numFound == index) = true
      · left
        have hni : numFound = index := by simpa using he
        refine ⟨0, ?_, ?_, ?_⟩
        · simp only [List.map_cons, getNamedLoop, hx, he, if_true, Nat.add_zero]
        · simp [hni]
        · simp [hni]
      · have hne : numFound ≠ index := by simpa using he
        have hk : (index - numFound).toNat = (index - (numFound + 1)).toNat + 1 := by
          omega
        rcases ih (i + 1) (numFound + 1) (by omega) with ⟨q, h1, h2, h3⟩ | ⟨h1, h2⟩
        · left
          refine ⟨q + 1, ?_, ?_, ?_⟩
          · have e : i + 1 + q = i + (q + 1) := by omega
            simp only [List.map_cons, getNamedLoop, hx, he, if_true, Bool.false_eq_true, if_false, h1, e]
          · rw [List.length_cons, hk]
            exact Nat.succ_lt_succ h2
          · rw [hk]
            simpa using h3
        · right
          constructor
          · simp only [List.map_cons, getNamedLoop, hx, he, if_true, Bool.false_eq_true,
              if_false, h1, List.length_cons]
            push_cast
            congr 1
            omega
          · rw [List.length_cons]
            push_cast
            linarith
    · rw [filter_cons_neg (fun x => g x == name) x rest hx]
      rcases ih (i + 1) numFound h with ⟨q, h1, h2, h3⟩ | ⟨h1, h2⟩
      · left
        refine ⟨q + 1, ?_, h2, ?_⟩
        · have e : i + 1 + q = i + (q + 1) := by omega
          simp only [List.map_cons, getNamedLoop, hx, Bool.false_eq_true, if_false, h1, e]
        · simpa using h3
      · right
        exact ⟨by simp only [List.map_cons, getNamedLoop, hx, Bool.false_eq_true, if_false, h1], h2⟩

/-- The search loop entered with `numFound` above `index` finds nothing. -/
theorem getNamedLoop_above (name : String) (index : Int) (names : List String) :
    ∀ (i : Nat) (numFound : Int), index < numFound →
      getNamedLoop name index names i numFound
        = Sum.inr (numFound + ((names.filter (fun n => n == name)).length : Int)) := by
  induction names with
  | nil => intro i numFound h; simp [getNamedLoop]
  | cons n rest ih =>
    intro i numFound h
    by_cases hx : (n == name) = true
    · have he : ¬ (numFound == index) = true := by
        simp only [beq_iff_eq]
        omega
      rw [filter_cons_pos (fun n => n == name) n rest hx]
      simp only [getNamedLoop, hx, he, if_true, Bool.false_eq_true, if_false,
        ih (i + 1) (numFound + 1) (by omega), List.length_cons]
      push_cast
      congr 1
      omega
    · rw [filter_cons_neg (fun n => n == name) n rest hx]
      simp only [getNamedLoop, hx, Bool.false_eq_true, if_false, ih (i + 1) numFound h]

/-- The count `countNamedChildren` returns is the number of nodes named `name`. -/
theorem countNamedChildren_eq_length (attributes : List VSettingsAttribute)
    (children : List VSettingsNode) (name : String) :
    VSettingsTag.countNamedChildren attributes children name
      = ((namedChildren attributes children name).length : Int) := by
  simp only [VSettingsTag.countNamedChildren, countNamedLoop_eq, namedChildren,
    nodeNames, attributeNames, List.filter_map, List.length_map, List.length_append]
  push_cast
  simp only [Function.comp_def]
  omega

/-- With a negative index `getNamedChild` returns `NULL`. -/
theorem getNamedChild_negative (attributes : List VSettingsAttribute)
    (children : List VSettingsNode) (name : String) (index : Int) (h : index < 0) :
    VSettingsTag.getNamedChild attributes children name index = none := by
  simp only [VSettingsTag.getNamedChild, VSettingsTag.getNamedChildRef]
  rw [getNamedLoop_above name index _ 0 0 h]
  simp only
  rw [getNamedLoop_above name index _ 0 _ (by omega)]
  rfl

/-- With an index that is not negative `getNamedChild` returns the node at that
position of the nodes named `name`, attributes first, or `NULL` when there is no
such position. -/
theorem getNamedChild_eq_get (attributes : List VSettingsAttribute)
    (children : List VSettingsNode) (name : String) (index : Int) (h : 0 ≤ index) :
    VSettingsTag.getNamedChild attributes children name index
      = (namedChildren attributes children name)[index.toNat]? := by
  simp only [VSettingsTag.getNamedChild, VSettingsTag.getNamedChildRef, namedChildren,
    attributeNames, nodeNames]
  rcases getNamedLoop_spec VSettingsAttribute.mName name index attributes 0 0 h with
    ⟨q, h1, h2, h3⟩ | ⟨h1, h2⟩
  · rw [h1]
    simp only [Int.sub_zero] at h2 h3
    simp only [Option.bind, derefChild, Nat.zero_add, h3]
    rw [List.getElem?_append_left (by simpa using h2), List.getElem?_map]
  · rw [h1]
    simp only [Int.sub_zero, Int.zero_add] at h2 ⊢
    have hlen : ((attributes.filter (fun a => a.mName == name)).map
        VSettingsNode.attr).length ≤ index.toNat := by
      rw [List.length_map]
      omega
    rw [List.getElem?_append_right hlen, List.length_map]
    have hk : index.toNat - (attributes.filter (fun a => a.mName == name)).length
        = (index - ((attributes.filter (fun a => a.mName == name)).length : Int)).toNat := by
      omega
    rcases getNamedLoop_spec VSettingsNode.getName name index children 0
        ((attributes.filter (fun a => a.mName == name)).length : Int) h2 with
      ⟨q, h4, h5, h6⟩ | ⟨h4, h5⟩
    · rw [h4]
      simp only [Option.bind, derefChild, Nat.zero_add, h6, hk]
    · rw [h4]
      simp only [Option.bind]
      symm
      rw [hk]
      apply List.getElem?_eq_none
      omega

/-- With a negative index the top-level `getNamedChild` returns `NULL`; otherwise it
returns the node at that position of the top-level nodes named `name`. -/
theorem top_getNamedChild_eq_get (s : VSettings) (name : String) (index : Int) :
    (index < 0 → s.getNamedChild name index = none) ∧
    (0 ≤ index → s.getNamedChild name index
      = (s.mNodes.filter (fun c => c.getName == name))[index.toNat]?) := by
  constructor
  · intro h
    simp only [VSettings.getNamedChild]
    rw [getNamedLoop_above name index _ 0 0 h]
  · intro h
    simp only [VSettings.getNamedChild, nodeNames]
    rcases getNamedLoop_spec VSettingsNode.getName name index s.mNodes 0 0 h with
      ⟨q, h1, h2, h3⟩ | ⟨h1, h2⟩
    · rw [h1]
      simp only [Int.sub_zero] at h3
      simp only [Nat.zero_add, h3]
    · rw [h1]
      simp only [Int.sub_zero] at h2
      symm
      apply List.getElem?_eq_none
      omega

/-- C31: for a `VSettingsTag` and for a top-level `VSettings`, `getNamedChild(name,
i)` returns a node exactly when `0 <= i < countNamedChildren(name)`; the node is the
one at position `i` of the nodes named `name`, attributes first, then child nodes,
each in the order of its vector, and its name is `name`. -/
theorem getNamedChild_returns_ith_named_node (attributes : List VSettingsAttribute)
    (children : List VSettingsNode) (s : VSettings) (name : String) (index : Int) :
    ((VSettingsTag.getNamedChild attributes children name index).isSome = true ↔
      0 ≤ index ∧ index < VSettingsTag.countNamedChildren attributes children name) ∧
    (∀ node, VSettingsTag.getNamedChild attributes children name index = some node →
      (namedChildren attributes children name)[index.toNat]? = some node ∧
      node.getName = name) ∧
    ((s.getNamedChild name index).isSome = true ↔
      0 ≤ index ∧ index < s.countNamedChildren name) ∧
    (∀ node, s.getNamedChild name index = some node →
      (s.mNodes.filter (fun c => c.getName == name))[index.toNat]? = some node ∧
      node.getName = name) := by
  have hcount := countNamedChildren_eq_length attributes children name
  have hnamed : ∀ node ∈ namedChildren attributes children name,
      node.getName = name := by
    intro node hm
    simp only [namedChildren, List.mem_append, List.mem_map, List.mem_filter] at hm
    rcases hm with ⟨a, ⟨_, ha⟩, rfl⟩ | ⟨_, hc⟩
    · simpa [VSettingsNode.getName] using ha
    · simpa using hc
  have htop : s.countNamedChildren name
      = ((s.mNodes.filter (fun c => c.getName == name)).length : Int) := by
    simp only [VSettings.countNamedChildren, countNamedLoop_eq, nodeNames,
      List.filter_map, List.length_map, Int.zero_add, Function.comp_def]
  by_cases h : index < 0
  · have h1 := getNamedChild_negative attributes children name index h
    have h2 := (top_getNamedChild_eq_get s name index).1 h
    refine ⟨?_, ?_, ?_, ?_⟩
    · rw [h1]
      simp only [Option.isSome_none, Bool.false_eq_true, false_iff, not_and]
      omega
    · intro node hn
      rw [h1] at hn
      cases hn
    · rw [h2]
      simp only [Option.isSome_none, Bool.false_eq_true, false_iff, not_and]
      omega
    · intro node hn
      rw [h2] at hn
      cases hn
  · have h0 : 0 ≤ index := by omega
    have h1 := getNamedChild_eq_get attributes children name index h0
    have h2 := (top_getNamedChild_eq_get s name index).2 h0
    refine ⟨?_, ?_, ?_, ?_⟩
    · rw [h1, hcount]
      constructor
      · intro hs
        obtain ⟨node, hn⟩ := Option.isSome_iff_exists.mp hs
        have := (List.getElem?_eq_some.mp hn).1
        omega
      · intro hr
        have hlt : index.toNat < (namedChildren attributes children name).length := by
          omega
        rw [List.getElem?_eq_getElem hlt]
        rfl
    · intro node hn
      rw [h1] at hn
      exact ⟨hn, hnamed node (List.getElem?_mem hn)⟩
    · rw [h2, htop]
      constructor
      · intro hs
        obtain ⟨node, hn⟩ := Option.isSome_iff_exists.mp hs
        have := (List.getElem?_eq_some.mp hn).1
        omega
      · intro hr
        have hlt : index.toNat < (s.mNodes.filter (fun c => c.getName == name)).length := by
          omega
        rw [List.getElem?_eq_getElem hlt]
        rfl
    · intro node hn
      rw [h2] at hn
      refine ⟨hn, ?_⟩
      have hm := List.getElem?_mem hn
      simpa using (List.mem_filter.mp hm).2

/-- C31 on the sample tag, which holds four nodes named "a": index 2 gives the first
child node named "a", after the two attributes; indexes -1 and 4 give `NULL`. -/
theorem getNamedChild_returns_ith_named_node_witness :
    (VSettingsTag.getNamedChild sampleAttributes sampleChildren "a" 2).isSome = true ∧
    (0 : Int) ≤ 2 ∧ (2 : Int) < VSettingsTag.countNamedChildren sampleAttributes
      sampleChildren "a" ∧
    VSettingsTag.getNamedChildRef sampleAttributes sampleChildren "a" 2
      = some (ChildRef.childAt 1) ∧
    VSettingsTag.getNamedChildRef sampleAttributes sampleChildren "a" (-1) = none ∧
    VSettingsTag.getNamedChildRef sampleAttributes sampleChildren "a" 4 = none ∧
    VSettingsTag.countNamedChildren sampleAttributes sampleChildren "a" = 4 :=
  ⟨by decide,
   ((getNamedChild_returns_ith_named_node sampleAttributes sampleChildren
     { mNodes := sampleChildren } "a" 2).1.mp (by decide)).1,
   ((getNamedChild_returns_ith_named_node sampleAttributes sampleChildren
     { mNodes := sampleChildren } "a" 2).1.mp (by decide)).2,
   by decide, by decide, by decide, by decide⟩

/-! ## Deleting the named children -/

/-- The backwards loop entered at the end of `front`, with `back` behind it: it reads
the elements of `front` from the last to the first, removes those named `name`, and
leaves `back` as it is. -/
theorem deleteNamedLoop_spec {α : Type} (g : α → String) (name : String)
    (front : List α) :
    ∀ back : List α, deleteNamedLoop g name front.length (front ++ back)
      = some { remaining := front.filter (fun x => ! (g x == name)) ++ back,
               examined := front.reverse } := by
  induction front using List.reverseRecOn with
  | nil => intro back; simp [deleteNamedLoop]
  | append_singleton front x ih =>
    intro back
    have hget : (front ++ [x] ++ back)[front.length]? = some x := by
      rw [List.append_assoc, List.getElem?_append_right (Nat.le_refl _)]
      simp
    have herase : (front ++ [x] ++ back).eraseIdx front.length = front ++ back := by
      rw [List.append_assoc, List.eraseIdx_append_of_length_le (Nat.le_refl _)]
      simp
    have hkeep : front ++ [x] ++ back = front ++ (x :: back) := by simp
    rw [List.length_append, List.length_singleton]
    by_cases hx : (g x == name) = true
    · simp only [deleteNamedLoop, hget, hx, if_true, herase, ih back, Option.map]
      simp [List.filter_append, hx]
    · simp only [deleteNamedLoop, hget, hx, Bool.false_eq_true, if_false]
      rw [hkeep, ih (x :: back)]
      simp [List.filter_append, hx]

/-- After the removal no name equal to `name` is left for the counting loop. -/
theorem countNamedLoop_after_delete {α : Type} (g : α → String) (name : String)
    (l : List α) :
    countNamedLoop name ((l.filter (fun x => ! (g x == name))).map g) 0 = 0 := by
  rw [countNamedLoop_eq]
  simp only [Int.zero_add, Nat.cast_eq_zero, List.length_eq_zero, List.filter_eq_nil_iff]
  intro n hn
  obtain ⟨x, hx, rfl⟩ := List.mem_map.mp hn
  simpa using (List.mem_filter.mp hx).2

/-- C32: for a `VSettingsTag` and for a top-level `VSettings`, `deleteNamedChildren(
name)` indexes no element out of range, reads every attribute and every child node
once, from the last to the first, and leaves exactly the attributes and child nodes
whose name differs from `name`, in their original order; `countNamedChildren(name)`
is then 0. -/
theorem deleteNamedChildren_leaves_other_names (attributes : List VSettingsAttribute)
    (children : List VSettingsNode) (s : VSettings) (name : String) :
    VSettingsTag.deleteNamedChildren attributes children name
      = some ({ remaining := attributes.filter (fun a => ! (a.mName == name)),
                examined := attributes.reverse },
              { remaining := children.filter (fun c => ! (c.getName == name)),
                examined := children.reverse }) ∧
    VSettingsTag.countNamedChildren
      (attributes.filter (fun a => ! (a.mName == name)))
      (children.filter (fun c => ! (c.getName == name))) name = 0 ∧
    s.deleteNamedChildren name
      = some { remaining := s.mNodes.filter (fun c => ! (c.getName == name)),
               examined := s.mNodes.reverse } ∧
    VSettings.countNamedChildren
      { mNodes := s.mNodes.filter (fun c => ! (c.getName == name)) } name = 0 := by
  have ha := deleteNamedLoop_spec VSettingsAttribute.mName name attributes []
  have hc := deleteNamedLoop_spec VSettingsNode.getName name children []
  have hs := deleteNamedLoop_spec VSettingsNode.getName name s.mNodes []
  simp only [List.append_nil] at ha hc hs
  refine ⟨?_, ?_, ?_, ?_⟩
  · simp only [VSettingsTag.deleteNamedChildren, ha, hc]
  · simp only [VSettingsTag.countNamedChildren, attributeNames, nodeNames,
      countNamedLoop_after_delete]
  · simp only [VSettings.deleteNamedChildren, hs]
  · simp only [VSettings.countNamedChildren, nodeNames, countNamedLoop_after_delete]

/-- C32 on the sample tag: deleting the nodes named "a" leaves attribute `b` and the
child nodes `b` and "<cdata>". -/
theorem deleteNamedChildren_leaves_other_names_witness :
    (VSettingsTag.deleteNamedChildren sampleAttributes sampleChildren "a").map
      (fun r => (attributeNames r.1.remaining, nodeNames r.2.remaining,
        nodeNames r.2.examined))
      = some (["b"], ["b", "<cdata>"], ["a", "<cdata>", "a", "b"]) ∧
    VSettingsTag.countNamedChildren
      (sampleAttributes.filter (fun a => ! (a.mName == "a")))
      (sampleChildren.filter (fun c => ! (c.getName == "a"))) "a" = 0 :=
  ⟨by decide,
   (deleteNamedChildren_leaves_other_names sampleAttributes sampleChildren
     { mNodes := sampleChildren } "a").2.1⟩

/-! ## Paths through the settings tree -/

/-- The first position of a name that does not occur. -/
theorem firstNamed_none (name : String) (names : List String) :
    firstNamed name names = none ↔ name ∉ names := by
  induction names with
  | nil => simp [firstNamed]
  | cons n rest ih =>
    by_cases h : n = name
    · simp [firstNamed, h]
    · have h2 : ¬ name = n := fun e => h e.symm
      simp [firstNamed, h, h2, ih]

/-- The first position of a name lies behind a front in which it does not occur. -/
theorem firstNamed_append (name : String) (front back : List String)
    (h : name ∉ front) :
    firstNamed name (front ++ back)
      = (firstNamed name back).map (fun i => front.length + i) := by
  induction front with
  | nil => simp [firstNamed]
  | cons n rest ih =>
    have h1 : ¬ n = name := fun e => h (by simp [e])
    have h2 : name ∉ rest := fun e => h (by simp [e])
    have e : firstNamed name (n :: (rest ++ back))
        = (firstNamed name (rest ++ back)).map (fun i => i + 1) := by
      simp [firstNamed, h1]
    rw [List.cons_append, e, ih h2]
    cases firstNamed name back with
    | none => rfl
    | some i =>
      simp only [Option.map, Option.some.injEq, List.length_cons]
      omega

/-- The first position of a name that stands right behind a front in which it does
not occur. -/
theorem firstNamed_at (name : String) (front back : List String) (h : name ∉ front) :
    firstNamed name (front ++ name :: back) = some front.length := by
  rw [firstNamed_append name front _ h]
  simp [firstNamed]

/-- A position `firstNamed` gives is inside the list and holds the name. -/
theorem firstNamed_some (name : String) (names : List String) :
    ∀ i, firstNamed name names = some i → names[i]? = some name := by
  induction names with
  | nil => intro i h; simp [firstNamed] at h
  | cons n rest ih =>
    intro i h
    by_cases hn : n = name
    · simp only [firstNamed, hn, beq_self_eq_true, if_true, Option.some.injEq] at h
      subst h
      simp [hn]
    · simp only [firstNamed, beq_iff_eq, hn, if_false] at h
      cases hr : firstNamed name rest with
      | none => simp [hr] at h
      | some j =>
        simp only [hr, Option.map, Option.some.injEq] at h
        subst h
        simpa using ih j hr

/-- The first '/' of a path that starts with a component without '/'. -/
theorem firstIndexOf_after_component (a b : List Char) (h : kPathDelimiterChar ∉ a) :
    firstIndexOf kPathDelimiterChar (a ++ kPathDelimiterChar :: b) = some a.length := by
  induction a with
  | nil => simp [firstIndexOf]
  | cons x rest ih =>
    have h1 : ¬ x = kPathDelimiterChar := fun e => h (by simp [e])
    have h2 : kPathDelimiterChar ∉ rest := fun e => h (by simp [e])
    simp [firstIndexOf, h1, ih h2]

/-- Splitting `a/b` at the first '/' when `a` holds none gives `a` and `b`. -/
theorem splitPathFirst_two_components (a b : String)
    (h : kPathDelimiterChar ∉ a.data) :
    VSettings.splitPathFirst (a ++ "/" ++ b) = (a, b) := by
  have hd : (a ++ "/" ++ b).data = a.data ++ kPathDelimiterChar :: b.data := by
    simp [String.data_append, kPathDelimiterChar]
  have hf : firstIndexOf kPathDelimiterChar (a ++ "/" ++ b).data = some a.data.length := by
    rw [hd]
    exact firstIndexOf_after_component a.data b.data h
  obtain ⟨e1, e2⟩ := splitPathFirst_at_delimiter (a ++ "/" ++ b) a.data.length hf
  rw [hd] at e1 e2
  rw [List.take_left] at e1
  have e3 : (VSettings.splitPathFirst (a ++ "/" ++ b)).2.data = b.data := by
    rw [e2]
    have hl := List.drop_left (a.data ++ [kPathDelimiterChar]) b.data
    simpa using hl
  exact Prod.ext (String.ext e1) (String.ext e3)

/-- Splitting a path without '/' gives the path and an empty remainder. -/
theorem splitPathFirst_one_component (b : String) (h : kPathDelimiterChar ∉ b.data) :
    VSettings.splitPathFirst b = (b, "") :=
  splitPathFirst_without_delimiter b ((firstIndexOf_none kPathDelimiterChar b.data).mpr h)

/-- A string is not empty exactly when `isEmpty` says so. -/
theorem isEmpty_false_iff (s : String) : VString.isEmpty s = false ↔ s ≠ "" := by
  constructor
  · intro h e
    subst e
    simp [VString.isEmpty] at h
  · intro h
    cases hd : s.data with
    | nil => exact absurd (String.ext hd) h
    | cons c cs => simp [VString.isEmpty, hd]

/-- The attribute found for a name that occurs once, at the end of `front`. -/
theorem findAttribute_at (front back : List VSettingsAttribute)
    (found : VSettingsAttribute) (h : found.mName ∉ attributeNames front) :
    VSettingsTag.findAttribute (front ++ found :: back) found.mName
      = some front.length ∧
    (front ++ found :: back)[front.length]? = some found ∧
    (front ++ found :: back).eraseIdx front.length = front ++ back := by
  refine ⟨?_, ?_, ?_⟩
  · have hl := firstNamed_at found.mName (attributeNames front) (attributeNames back) h
    simpa [VSettingsTag.findAttribute, attributeNames] using hl
  · rw [List.getElem?_append_right (Nat.le_refl _)]
    simp
  · rw [List.eraseIdx_append_of_length_le (Nat.le_refl _)]
    simp

/-- A name that does not end in ']' is looked up among the child nodes by name. -/
theorem findChildTag_plain (attributes : List VSettingsAttribute)
    (children : List VSettingsNode) (name : String)
    (h : VString.endsWith name ']' = false) :
    VSettingsTag.findChildTag attributes children name
      = Outcome.returned ((firstNamed name (nodeNames children)).map ChildRef.childAt) := by
  simp [VSettingsTag.findChildTag, h]

/-- With an empty path `findNode` returns the receiver. -/
theorem findNode_empty_path (fuel : Nat) (self : VSettingsNode) :
    VSettingsNode.findNode (fuel + 1) self "" = Outcome.returned (some self) := by
  simp [VSettingsNode.findNode, VString.isEmpty]

/-- One step of `findNode` on a tag, for a path that is not empty and whose first
component does not end in ']': the attribute with that name when the component is the
last one, otherwise the search goes on in the first child node with that name. -/
theorem findNode_tag_step (fuel : Nat) (mName : String) (mPreferCDATA : Bool)
    (attributes : List VSettingsAttribute) (children : List VSettingsNode)
    (path : String) (hE : VString.isEmpty path = false)
    (hplain : VString.endsWith (VSettings.splitPathFirst path).1 ']' = false) :
    VSettingsNode.findNode (fuel + 1)
        (VSettingsNode.tag mName mPreferCDATA attributes children) path
      = match (if VString.isEmpty (VSettings.splitPathFirst path).2 then
            VSettingsTag.findAttribute attributes (VSettings.splitPathFirst path).1
          else none) with
        | some i => Outcome.returned ((attributes[i]?).map VSettingsNode.attr)
        | none =>
          match (firstNamed (VSettings.splitPathFirst path).1 (nodeNames children)).bind
              (fun j => children[j]?) with
          | some child =>
            VSettingsNode.findNode fuel child (VSettings.splitPathFirst path).2
          | none => Outcome.returned none := by
  simp only [VSettingsNode.findNode, hE, Bool.false_eq_true, if_false,
    findChildTag_plain _ _ _ hplain]
  cases hattr : (if VString.isEmpty (VSettings.splitPathFirst path).2 then
      VSettingsTag.findAttribute attributes (VSettings.splitPathFirst path).1
    else none) with
  | some i => rfl
  | none =>
    cases hf : firstNamed (VSettings.splitPathFirst path).1 (nodeNames children) with
    | none => rfl
    | some j =>
      simp only [Option.map, Option.bind, derefChild]

/-- On a CDATA node or an attribute `findNode` finds nothing for a path that is not
empty. -/
theorem findNode_not_tag (fuel : Nat) (self : VSettingsNode) (path : String)
    (hE : VString.isEmpty path = false)
    (hself : ∀ n p a c, self ≠ VSettingsNode.tag n p a c) :
    VSettingsNode.findNode (fuel + 1) self path = Outcome.returned none := by
  cases self with
  | tag n p a c => exact absurd rfl (hself n p a c)
  | cdata s => simp [VSettingsNode.findNode, hE]
  | attr a => simp [VSettingsNode.findNode, hE]

/-- A new child node at the end of the vector is the first one with its name when no
other child node has that name. -/
theorem firstNamed_new_child (name : String) (children : List VSettingsNode)
    (child : VSettingsNode) (hname : child.getName = name)
    (h : name ∉ nodeNames children) :
    (firstNamed name (nodeNames (children ++ [child]))).bind
      (fun j => (children ++ [child])[j]?) = some child ∧
    (firstNamed name (nodeNames (children ++ [child]))).bind
      (fun j => ((children ++ [child])[j]?).map (fun c => (j, c)))
      = some (children.length, child) := by
  have hl := firstNamed_at name (nodeNames children) [] h
  have hn : nodeNames (children ++ [child]) = nodeNames children ++ [name] := by
    simp [nodeNames, hname]
  rw [hn, hl]
  simp only [Option.bind, nodeNames, List.length_map]
  rw [List.getElem?_append_right (Nat.le_refl _)]
  simp

/-- The position `firstNamed` gives among the names of a vector holds a node with
that name. -/
theorem firstNamed_child (name : String) (children : List VSettingsNode) (j : Nat)
    (h : firstNamed name (nodeNames children) = some j) :
    ∃ child, children[j]? = some child ∧ child.getName = name := by
  have hn := firstNamed_some name (nodeNames children) j h
  simp only [nodeNames, List.getElem?_map] at hn
  cases hc : (children[j]?) with
  | none => simp [hc] at hn
  | some child =>
    refine ⟨child, by simp [hc], ?_⟩
    simpa [hc] using hn

/-- One step of `add` on a tag, for a path whose first component does not end in
']': a leaf value when the component is the last one; otherwise `add` goes on in the
first child node with that name, or in a new tag that takes the place of the
attribute with that name, or in a new empty tag. -/
theorem add_tag_step (defaultPreferCDATA : Bool) (fuel : Nat) (mName : String)
    (mPreferCDATA : Bool) (attributes : List VSettingsAttribute)
    (children : List VSettingsNode) (path : String) (hasValue : Bool) (value : String)
    (hplain : VString.endsWith (VSettings.splitPathFirst path).1 ']' = false) :
    VSettingsNode.add defaultPreferCDATA (fuel + 1)
        (VSettingsNode.tag mName mPreferCDATA attributes children) path hasValue value
      = if VString.isEmpty (VSettings.splitPathFirst path).2 then
          Outcome.returned (VSettingsNode.tag mName mPreferCDATA
            (VSettingsTag.addLeafValue defaultPreferCDATA mPreferCDATA attributes
              children (VSettings.splitPathFirst path).1 hasValue value).1
            (VSettingsTag.addLeafValue defaultPreferCDATA mPreferCDATA attributes
              children (VSettings.splitPathFirst path).1 hasValue value).2)
        else
          match (firstNamed (VSettings.splitPathFirst path).1 (nodeNames children)).bind
              (fun j => (children[j]?).map (fun c => (j, c))) with
          | some (j, child) =>
            match VSettingsNode.add defaultPreferCDATA fuel child
                (VSettings.splitPathFirst path).2 hasValue value with
            | Outcome.returned child1 =>
              Outcome.returned (VSettingsNode.tag mName mPreferCDATA attributes
                (children.set j child1))
            | Outcome.raised => Outcome.raised
            | Outcome.outOfFuel => Outcome.outOfFuel
          | none =>
            match (VSettingsTag.findAttribute attributes
                (VSettings.splitPathFirst path).1).bind
                (fun i => (attributes[i]?).map (fun a => (i, a))) with
            | some (i, found) =>
              match VSettingsNode.add defaultPreferCDATA fuel
                  (newTagWithCDATA defaultPreferCDATA (VSettings.splitPathFirst path).1
                    found.mValue)
                  (VSettings.splitPathFirst path).2 hasValue value with
              | Outcome.returned child1 =>
                Outcome.returned (VSettingsNode.tag mName mPreferCDATA
                  (attributes.eraseIdx i) (children ++ [child1]))
              | Outcome.raised => Outcome.raised
              | Outcome.outOfFuel => Outcome.outOfFuel
            | none =>
              match VSettingsNode.add defaultPreferCDATA fuel
                  (VSettingsNode.tag (tagNameOf (VSettings.splitPathFirst path).1)
                    defaultPreferCDATA [] [])
                  (VSettings.splitPathFirst path).2 hasValue value with
              | Outcome.returned child1 =>
                Outcome.returned (VSettingsNode.tag mName mPreferCDATA attributes
                  (children ++ [child1]))
              | Outcome.raised => Outcome.raised
              | Outcome.outOfFuel => Outcome.outOfFuel := by
  simp only [VSettingsNode.add, findChildTag_plain _ _ _ hplain]
  by_cases hE : VString.isEmpty (VSettings.splitPathFirst path).2 = true
  · simp only [hE, if_true]
  · simp only [hE, Bool.false_eq_true, if_false]
    cases hf : firstNamed (VSettings.splitPathFirst path).1 (nodeNames children) with
    | none => simp only [Option.map, Option.bind]
    | some j =>
      obtain ⟨child, hc, _⟩ := firstNamed_child _ _ _ hf
      simp only [Option.map, Option.bind, derefChild, hc, storeChild]

/-- On a CDATA node or an attribute `add` ends in an exception. -/
theorem add_not_tag (defaultPreferCDATA : Bool) (fuel : Nat) (self : VSettingsNode)
    (path : String) (hasValue : Bool) (value : String)
    (hself : ∀ n p a c, self ≠ VSettingsNode.tag n p a c) :
    VSettingsNode.add defaultPreferCDATA (fuel + 1) self path hasValue value
      = Outcome.raised := by
  cases self with
  | tag n p a c => exact absurd rfl (hself n p a c)
  | cdata s => simp [VSettingsNode.add]
  | attr a => simp [VSettingsNode.add]

/-! ## Adding below an attribute -/

/-- The tag that takes the place of an attribute `a` with value `x` once the leaf `b`
with value `v` was added to it: its string value is `x`, and `getString("b")` on it
returns `v`. -/
theorem converted_tag_values (defaultPreferCDATA : Bool) (fuel : Nat) (a b x v : String)
    (hb : b ≠ "" ∧ kPathDelimiterChar ∉ b.data ∧ VString.endsWith b ']' = false ∧
      (defaultPreferCDATA = true → b ≠ "<cdata>")) :
    VSettingsNode.add defaultPreferCDATA (fuel + 1)
        (newTagWithCDATA defaultPreferCDATA a x) b true v
      = Outcome.returned (VSettingsNode.tag a defaultPreferCDATA
          (if defaultPreferCDATA then [] else
            [{ mName := b, mHasValue := true, mValue := v }])
          (VSettingsNode.cdata x ::
            (if defaultPreferCDATA then [newTagWithCDATA defaultPreferCDATA b v]
             else []))) ∧
    (VSettingsNode.tag a defaultPreferCDATA
          (if defaultPreferCDATA then [] else
            [{ mName := b, mHasValue := true, mValue := v }])
          (VSettingsNode.cdata x ::
            (if defaultPreferCDATA then [newTagWithCDATA defaultPreferCDATA b v]
             else []))).getStringValue = x ∧
    VSettingsNode.getString (fuel + 1 + 1)
        (VSettingsNode.tag a defaultPreferCDATA
          (if defaultPreferCDATA then [] else
            [{ mName := b, mHasValue := true, mValue := v }])
          (VSettingsNode.cdata x ::
            (if defaultPreferCDATA then [newTagWithCDATA defaultPreferCDATA b v]
             else []))) b
      = Outcome.returned v := by
  obtain ⟨hb1, hb2, hb3, hb4⟩ := hb
  have hs2 := splitPathFirst_one_component b hb2
  have hEb := (isEmpty_false_iff b).mpr hb1
  have hE0 : VString.isEmpty "" = true := rfl
  refine ⟨?_, ?_, ?_⟩
  · unfold newTagWithCDATA
    rw [add_tag_step defaultPreferCDATA fuel a defaultPreferCDATA [] _ b true v
      (by rw [hs2]; exact hb3)]
    simp only [hs2, hE0, if_true]
    cases defaultPreferCDATA <;> simp [VSettingsTag.addLeafValue, newTagWithCDATA]
  · simp [VSettingsNode.getStringValue, firstCDATAValue, VSettingsNode.getName]
  · unfold VSettingsNode.getString
    rw [findNode_tag_step (fuel + 1) a defaultPreferCDATA _ _ b hEb
      (by rw [hs2]; exact hb3)]
    simp only [hs2, hE0, if_true]
    cases defaultPreferCDATA
    · simp [VSettingsTag.findAttribute, attributeNames, firstNamed,
        VSettingsNode.getStringValue]
    · have hb5 : ¬ ("<cdata>" = b) := fun e => hb4 rfl e.symm
      simp [VSettingsTag.findAttribute, attributeNames, firstNamed, nodeNames,
        VSettingsNode.getName, newTagWithCDATA, hb5, findNode_empty_path,
        VSettingsNode.getStringValue, firstCDATAValue]

/-- C34 (as amended): a tag has exactly one attribute named `a`, with value `x`, and
no child node named `a`; `a` and `b` are non-empty names without '/' that do not end
in ']', and `b` is not "<cdata>" when new tags are constructed preferring CDATA.
Then `add("a/b", true, v)` returns; afterwards the tag has no attribute named `a`,
its last child node is a new tag named `a` whose first child node is the CDATA `x`,
`getString("a")` returns `x` and `getString("a/b")` returns `v`.  The new tag keeps
`v` in a child tag `b` or in an attribute `b`, as the constructor default of
`preferCDATA` says. -/
theorem add_moves_attribute_into_child_tag (defaultPreferCDATA : Bool) (fuel : Nat)
    (mName : String) (mPreferCDATA : Bool) (front back : List VSettingsAttribute)
    (found : VSettingsAttribute) (children : List VSettingsNode) (a b x v : String)
    (hfuel : 3 ≤ fuel) (hname : found.mName = a) (hvalue : found.mValue = x)
    (hfront : a ∉ attributeNames front) (hback : a ∉ attributeNames back)
    (hchildren : a ∉ nodeNames children)
    (ha : a ≠ "" ∧ kPathDelimiterChar ∉ a.data ∧ VString.endsWith a ']' = false)
    (hb : b ≠ "" ∧ kPathDelimiterChar ∉ b.data ∧ VString.endsWith b ']' = false ∧
      (defaultPreferCDATA = true → b ≠ "<cdata>")) :
    VSettingsNode.add defaultPreferCDATA fuel
        (VSettingsNode.tag mName mPreferCDATA (front ++ found :: back) children)
        (a ++ "/" ++ b) true v
      = Outcome.returned (VSettingsNode.tag mName mPreferCDATA (front ++ back)
          (children ++ [VSettingsNode.tag a defaultPreferCDATA
            (if defaultPreferCDATA then [] else
              [{ mName := b, mHasValue := true, mValue := v }])
            (VSettingsNode.cdata x ::
              (if defaultPreferCDATA then [newTagWithCDATA defaultPreferCDATA b v]
               else []))])) ∧
    a ∉ attributeNames (front ++ back) ∧
    VSettingsNode.getString fuel
        (VSettingsNode.tag mName mPreferCDATA (front ++ back)
          (children ++ [VSettingsNode.tag a defaultPreferCDATA
            (if defaultPreferCDATA then [] else
              [{ mName := b, mHasValue := true, mValue := v }])
            (VSettingsNode.cdata x ::
              (if defaultPreferCDATA then [newTagWithCDATA defaultPreferCDATA b v]
               else []))])) a
      = Outcome.returned x ∧
    VSettingsNode.getString fuel
        (VSettingsNode.tag mName mPreferCDATA (front ++ back)
          (children ++ [VSettingsNode.tag a defaultPreferCDATA
            (if defaultPreferCDATA then [] else
              [{ mName := b, mHasValue := true, mValue := v }])
            (VSettingsNode.cdata x ::
              (if defaultPreferCDATA then [newTagWithCDATA defaultPreferCDATA b v]
               else []))])) (a ++ "/" ++ b)
      = Outcome.returned v := by
  obtain ⟨k, rfl⟩ : ∃ k, fuel = k + 1 + 1 + 1 := ⟨fuel - 3, by omega⟩
  obtain ⟨ha1, ha2, ha3⟩ := ha
  subst hname
  subst hvalue
  obtain ⟨hinner, hvalue, _⟩ :=
    converted_tag_values defaultPreferCDATA (k + 1) found.mName b found.mValue v hb
  obtain ⟨_, _, hleaf⟩ :=
    converted_tag_values defaultPreferCDATA k found.mName b found.mValue v hb
  obtain ⟨hb1, hb2, hb3, hb4⟩ := hb
  have hs1 := splitPathFirst_two_components found.mName b ha2
  have hs3 := splitPathFirst_one_component found.mName ha2
  have hEa := (isEmpty_false_iff found.mName).mpr ha1
  have hEb := (isEmpty_false_iff b).mpr hb1
  have hE0 : VString.isEmpty "" = true := rfl
  have hEab : VString.isEmpty (found.mName ++ "/" ++ b) = false := by
    apply (isEmpty_false_iff _).mpr
    intro e
    have := congrArg String.data e
    simp [String.data_append] at this
  obtain ⟨hfa, hget, herase⟩ := findAttribute_at front back found hfront
  have hnone : firstNamed found.mName (nodeNames children) = none :=
    (firstNamed_none _ _).mpr hchildren
  have hnoattr : found.mName ∉ attributeNames (front ++ back) := by
    simp only [attributeNames, List.map_append, List.mem_append, not_or]
    exact ⟨hfront, hback⟩
  have hfa2 : VSettingsTag.findAttribute (front ++ back) found.mName = none :=
    (firstNamed_none _ _).mpr hnoattr
  have hnew : (firstNamed found.mName (nodeNames (children ++
      [VSettingsNode.tag found.mName defaultPreferCDATA
        (if defaultPreferCDATA then [] else
          [{ mName := b, mHasValue := true, mValue := v }])
        (VSettingsNode.cdata found.mValue ::
          (if defaultPreferCDATA then [newTagWithCDATA defaultPreferCDATA b v]
           else []))]))).bind
      (fun j => (children ++ [VSettingsNode.tag found.mName defaultPreferCDATA
        (if defaultPreferCDATA then [] else
          [{ mName := b, mHasValue := true, mValue := v }])
        (VSettingsNode.cdata found.mValue ::
          (if defaultPreferCDATA then [newTagWithCDATA defaultPreferCDATA b v]
           else []))])[j]?)
      = some (VSettingsNode.tag found.mName defaultPreferCDATA
        (if defaultPreferCDATA then [] else
          [{ mName := b, mHasValue := true, mValue := v }])
        (VSettingsNode.cdata found.mValue ::
          (if defaultPreferCDATA then [newTagWithCDATA defaultPreferCDATA b v]
           else []))) :=
    (firstNamed_new_child found.mName children _ (by rfl) hchildren).1
  refine ⟨?_, hnoattr, ?_, ?_⟩
  · rw [add_tag_step defaultPreferCDATA (k + 1 + 1) mName mPreferCDATA _ children _
      true v (by rw [hs1]; exact ha3)]
    simp only [hs1, hEb, Bool.false_eq_true, if_false, hnone, Option.bind, hfa, hget,
      Option.map, hinner, herase]
  · unfold VSettingsNode.getString
    rw [findNode_tag_step (k + 1 + 1) mName mPreferCDATA _ _ _ hEa
      (by rw [hs3]; exact ha3)]
    simp only [hs3, hE0, if_true, hfa2, hnew, findNode_empty_path, hvalue]
  · have hleaf2 := hleaf
    unfold VSettingsNode.getString at hleaf2 ⊢
    rw [findNode_tag_step (k + 1 + 1) mName mPreferCDATA _ _ _ hEab
      (by rw [hs1]; exact ha3)]
    simp only [hs1, hEb, Bool.false_eq_true, if_false, hnew]
    exact hleaf2

/-- C34 on a tag `t` with the attributes `c="1"`, `a="x"`, `d="2"` and a child tag
`e`, where new tags prefer CDATA: `add("a/b", true, "v")` leaves the attributes `c`
and `d` and appends the tag `a` holding the CDATA "x" and the child tag `b`;
`getString("a")` returns "x" and `getString("a/b")` returns "v". -/
theorem add_moves_attribute_into_child_tag_witness :
    VSettingsNode.add true 3
        (VSettingsNode.tag "t" true
          [{ mName := "c", mHasValue := true, mValue := "1" },
           { mName := "a", mHasValue := true, mValue := "x" },
           { mName := "d", mHasValue := true, mValue := "2" }]
          [VSettingsNode.tag "e" true [] []])
        "a/b" true "v"
      = Outcome.returned (VSettingsNode.tag "t" true
          [{ mName := "c", mHasValue := true, mValue := "1" },
           { mName := "d", mHasValue := true, mValue := "2" }]
          [VSettingsNode.tag "e" true [] [],
           VSettingsNode.tag "a" true []
             [VSettingsNode.cdata "x",
              VSettingsNode.tag "b" true [] [VSettingsNode.cdata "v"]]]) ∧
    VSettingsNode.getString 3
        (VSettingsNode.tag "t" true
          [{ mName := "c", mHasValue := true, mValue := "1" },
           { mName := "d", mHasValue := true, mValue := "2" }]
          [VSettingsNode.tag "e" true [] [],
           VSettingsNode.tag "a" true []
             [VSettingsNode.cdata "x",
              VSettingsNode.tag "b" true [] [VSettingsNode.cdata "v"]]]) "a"
      = Outcome.returned "x" ∧
    VSettingsNode.getString 3
        (VSettingsNode.tag "t" true
          [{ mName := "c", mHasValue := true, mValue := "1" },
           { mName := "d", mHasValue := true, mValue := "2" }]
          [VSettingsNode.tag "e" true [] [],
           VSettingsNode.tag "a" true []
             [VSettingsNode.cdata "x",
              VSettingsNode.tag "b" true [] [VSettingsNode.cdata "v"]]]) "a/b"
      = Outcome.returned "v" :=
  ⟨(add_moves_attribute_into_child_tag true 3 "t" true
      [{ mName := "c", mHasValue := true, mValue := "1" }]
      [{ mName := "d", mHasValue := true, mValue := "2" }]
      { mName := "a", mHasValue := true, mValue := "x" }
      [VSettingsNode.tag "e" true [] []] "a" "b" "x" "v"
      (by decide) rfl rfl (by decide) (by decide) (by decide)
      ⟨by decide, by decide, by decide⟩
      ⟨by decide, by decide, by decide, fun _ => by decide⟩).1,
   by decide, by decide⟩

/-- C34 fails without further conditions on the tag, on `a` and on `b`.  Whatever the
constructor default of `preferCDATA`: with two attributes named `a`, the second one
stays and `getString("a")` returns its value "y"; with an attribute named "k[0]",
`getString("k[0]")` throws afterwards; with an attribute named "", `getString("")`
returns the string value of the tag itself; with `b` empty, the attribute `a` stays
and a leaf `a` is added; with an attribute named "p/q", the attribute stays and
`getString("p/q")` returns the string value of a new tag; with an attribute named
"<cdata>" and a CDATA child node, which is no child tag, `add` throws.  Where new
tags prefer CDATA: with `b` equal to "<cdata>", `getString("a/<cdata>")` returns
"x". -/
theorem add_below_attribute_fails :
    (∀ D : Bool, ∃ t1,
      VSettingsNode.add D 4
          (VSettingsNode.tag "t" D
            [{ mName := "a", mHasValue := true, mValue := "x" },
             { mName := "a", mHasValue := true, mValue := "y" }] [])
          "a/b" true "v" = Outcome.returned t1 ∧
      VSettingsNode.findNode 4 t1 "a" = Outcome.returned (some (VSettingsNode.attr
        { mName := "a", mHasValue := true, mValue := "y" })) ∧
      VSettingsNode.getString 4 t1 "a" = Outcome.returned "y") ∧
    (∀ D : Bool, ∃ t1,
      VSettingsNode.add D 4
          (VSettingsNode.tag "t" D
            [{ mName := "k[0]", mHasValue := true, mValue := "x" }] [])
          "k[0]/b" true "v" = Outcome.returned t1 ∧
      VSettingsNode.getString 4 t1 "k[0]" = Outcome.raised) ∧
    (∀ D : Bool, ∃ t1,
      VSettingsNode.add D 4
          (VSettingsNode.tag "t" D
            [{ mName := "", mHasValue := true, mValue := "x" }] [])
          "/b" true "v" = Outcome.returned t1 ∧
      VSettingsNode.getString 4 t1 "" = Outcome.returned "") ∧
    (∀ D : Bool, ∃ t1,
      VSettingsNode.add D 4
          (VSettingsNode.tag "t" D
            [{ mName := "a", mHasValue := true, mValue := "x" }] [])
          "a/" true "v" = Outcome.returned t1 ∧
      VSettingsNode.findNode 4 t1 "a" = Outcome.returned (some (VSettingsNode.attr
        { mName := "a", mHasValue := true, mValue := "x" })) ∧
      VSettingsNode.getString 4 t1 "a/" = Outcome.returned "x") ∧
    (∀ D : Bool, ∃ t1,
      VSettingsNode.add D 4
          (VSettingsNode.tag "t" D
            [{ mName := "p/q", mHasValue := true, mValue := "x" }] [])
          "p/q/b" true "v" = Outcome.returned t1 ∧
      VSettingsTag.findAttribute
        (match t1 with
         | VSettingsNode.tag _ _ attributes _ => attributes
         | _ => []) "p/q" = some 0 ∧
      VSettingsNode.getString 4 t1 "p/q" = Outcome.returned "") ∧
    (∀ D : Bool,
      VSettingsNode.add D 4
          (VSettingsNode.tag "t" D
            [{ mName := "<cdata>", mHasValue := true, mValue := "x" }]
            [VSettingsNode.cdata "c"])
          "<cdata>/b" true "v" = Outcome.raised) ∧
    (∃ t1,
      VSettingsNode.add true 4
          (VSettingsNode.tag "t" true
            [{ mName := "a", mHasValue := true, mValue := "x" }] [])
          "a/<cdata>" true "v" = Outcome.returned t1 ∧
      VSettingsNode.getString 4 t1 "a/<cdata>" = Outcome.returned "x") :=
  ⟨fun D => by cases D <;> exact ⟨_, rfl, rfl, rfl⟩,
   fun D => by cases D <;> exact ⟨_, rfl, rfl⟩,
   fun D => by cases D <;> exact ⟨_, rfl, rfl⟩,
   fun D => by cases D <;> exact ⟨_, rfl, rfl, rfl⟩,
   fun D => by cases D <;> exact ⟨_, rfl, rfl, rfl⟩,
   fun D => by cases D <;> rfl,
   ⟨_, rfl, rfl⟩⟩

/-! ## Paths without brackets and without a component "<cdata>" -/

/-- The components of a path without '/': the path itself. -/
theorem pathComponents_one (l : List Char) (h : kPathDelimiterChar ∉ l) :
    pathComponents l = [l] := by
  induction l with
  | nil => rfl
  | cons c rest ih =>
    have h1 : ¬ c = kPathDelimiterChar := fun e => h (by simp [e])
    have h2 : kPathDelimiterChar ∉ rest := fun e => h (by simp [e])
    simp [pathComponents, h1, ih h2]

/-- The components of a path that starts with a component without '/'. -/
theorem pathComponents_first (a b : List Char) (h : kPathDelimiterChar ∉ a) :
    pathComponents (a ++ kPathDelimiterChar :: b) = a :: pathComponents b := by
  induction a with
  | nil => simp [pathComponents]
  | cons c rest ih =>
    have h1 : ¬ c = kPathDelimiterChar := fun e => h (by simp [e])
    have h2 : kPathDelimiterChar ∉ rest := fun e => h (by simp [e])
    simp [pathComponents, h1, ih h2]

/-- A string whose last character is `c` holds `c`. -/
theorem endsWith_mem (s : String) (c : Char) (h : VString.endsWith s c = true) :
    c ∈ s.data := by
  simp only [VString.endsWith, beq_iff_eq] at h
  exact List.mem_of_getLast?_eq_some h

/-- What `splitPathFirst` gives for a path without brackets: the first component does
not end in ']', the remainder has no brackets, and the remainder is shorter than a
path that is not empty. -/
theorem splitPathFirst_noBrackets (path : String) (h : noBrackets path = true) :
    VString.endsWith (VSettings.splitPathFirst path).1 ']' = false ∧
    noBrackets (VSettings.splitPathFirst path).2 = true ∧
    (VString.isEmpty path = false →
      (VSettings.splitPathFirst path).2.data.length < path.data.length) := by
  simp only [noBrackets, List.all_eq_true, Bool.and_eq_true, bne_iff_ne, ne_eq] at h
  cases hf : firstIndexOf kPathDelimiterChar path.data with
  | none =>
    rw [splitPathFirst_without_delimiter path hf]
    refine ⟨?_, ?_, ?_⟩
    · cases he : VString.endsWith path ']' with
      | false => rfl
      | true => exact absurd rfl (h _ (endsWith_mem path ']' he)).2
    · show noBrackets "" = true
      decide
    · intro hE
      have hne := (isEmpty_false_iff path).mp hE
      cases hd : path.data with
      | nil => exact absurd (String.ext hd) hne
      | cons c cs => simp
  | some i =>
    obtain ⟨hi, hbefore, hsplit⟩ := firstIndexOf_some kPathDelimiterChar path.data i hf
    obtain ⟨e1, e2⟩ := splitPathFirst_at_delimiter path i hf
    refine ⟨?_, ?_, ?_⟩
    · cases he : VString.endsWith (VSettings.splitPathFirst path).1 ']' with
      | false => rfl
      | true =>
        have hm := endsWith_mem _ ']' he
        rw [e1] at hm
        exact absurd rfl (h _ (List.mem_of_mem_take hm)).2
    · simp only [noBrackets, List.all_eq_true, Bool.and_eq_true, bne_iff_ne, ne_eq, e2]
      exact fun c hc => h c (List.mem_of_mem_drop hc)
    · intro _
      rw [e2, List.length_drop]
      omega

/-- What `splitPathFirst` gives for a path none of whose components is "<cdata>":
the first component is not "<cdata>", nor is any component of the remainder. -/
theorem splitPathFirst_noCDATA (path : String) (h : noCDATAComponent path = true) :
    (VSettings.splitPathFirst path).1 ≠ "<cdata>" ∧
    noCDATAComponent (VSettings.splitPathFirst path).2 = true := by
  simp only [noCDATAComponent, Bool.not_eq_true', decide_eq_false_iff_not] at h
  cases hf : firstIndexOf kPathDelimiterChar path.data with
  | none =>
    have hno := (firstIndexOf_none kPathDelimiterChar path.data).mp hf
    rw [splitPathFirst_without_delimiter path hf]
    rw [pathComponents_one _ hno] at h
    refine ⟨?_, ?_⟩
    · intro e
      apply h
      have e2 : path = "<cdata>" := e
      simp [e2]
    · show noCDATAComponent "" = true
      decide
  | some i =>
    obtain ⟨hi, hbefore, hsplit⟩ := firstIndexOf_some kPathDelimiterChar path.data i hf
    obtain ⟨e1, e2⟩ := splitPathFirst_at_delimiter path i hf
    have hcomps : pathComponents path.data
        = path.data.take i :: pathComponents (path.data.drop (i + 1)) := by
      conv_lhs => rw [hsplit]
      exact pathComponents_first _ _ hbefore
    rw [hcomps] at h
    refine ⟨?_, ?_⟩
    · intro e
      apply h
      rw [← e1, e]
      simp
    · simp only [noCDATAComponent, Bool.not_eq_true', e2, decide_eq_false_iff_not]
      exact fun hm => h (List.mem_cons_of_mem _ hm)

/-! ## Setting a value and reading it back -/

mutual
/-- After a `setLiteral(value)` that returns, the node has the same name and its
string value is `value`. -/
theorem setLiteral_then_getStringValue :
    ∀ (node : VSettingsNode) (value : String) (node1 : VSettingsNode),
      node.setLiteral value = some node1 →
      node1.getStringValue = value ∧ node1.getName = node.getName
  | VSettingsNode.tag mName mPreferCDATA attributes children, value, node1, h => by
    simp only [VSettingsNode.setLiteral] at h
    cases hc : setFirstCDATA children value with
    | none => simp [hc] at h
    | some cs =>
      simp only [hc, Option.map, Option.some.injEq] at h
      subst h
      have := setFirstCDATA_then_firstCDATAValue children value cs hc
      simp [VSettingsNode.getStringValue, VSettingsNode.getName, this]
  | VSettingsNode.cdata s, value, node1, h => by
    simp only [VSettingsNode.setLiteral, Option.some.injEq] at h
    subst h
    simp [VSettingsNode.getStringValue, VSettingsNode.getName]
  | VSettingsNode.attr a, value, node1, h => by
    simp only [VSettingsNode.setLiteral, Option.some.injEq] at h
    subst h
    simp [VSettingsNode.getStringValue, VSettingsNode.getName]
/-- After `setLiteral(value)` on the first node named "<cdata>" of a vector, the string
value of the first node named "<cdata>" is `value`. -/
theorem setFirstCDATA_then_firstCDATAValue :
    ∀ (children : List VSettingsNode) (value : String) (children1 : List VSettingsNode),
      setFirstCDATA children value = some children1 →
      firstCDATAValue children1 = value
  | [], value, children1, h => by simp [setFirstCDATA] at h
  | child :: rest, value, children1, h => by
    by_cases hn : (child.getName == "<cdata>") = true
    · simp only [setFirstCDATA, hn, if_true] at h
      cases hc : child.setLiteral value with
      | none => simp [hc] at h
      | some c1 =>
        simp only [hc, Option.map, Option.some.injEq] at h
        subst h
        obtain ⟨h1, h2⟩ := setLiteral_then_getStringValue child value c1 hc
        have hn1 : (c1.getName == "<cdata>") = true := by rw [h2]; exact hn
        simp [firstCDATAValue, hn1, h1]
    · simp only [setFirstCDATA, hn, Bool.false_eq_true, if_false] at h
      cases hc : setFirstCDATA rest value with
      | none => simp [hc] at h
      | some cs =>
        simp only [hc, Option.map, Option.some.injEq] at h
        subst h
        have := setFirstCDATA_then_firstCDATAValue rest value cs hc
        simp [firstCDATAValue, hn, this]
end

/-- With an empty path `findMutableNode` gives the receiver, on which `setLiteral` is
called. -/
theorem setLiteralAt_empty_path (fuel : Nat) (self : VSettingsNode) (value : String) :
    VSettingsNode.setLiteralAt (fuel + 1) self "" value
      = match self.setLiteral value with
        | some self1 => Outcome.returned (some self1)
        | none => Outcome.raised := by
  simp [VSettingsNode.setLiteralAt, VString.isEmpty]

/-- One step of `findMutableNode` and `setLiteral` on a tag, for a path that is not
empty and whose first component does not end in ']'. -/
theorem setLiteralAt_tag_step (fuel : Nat) (mName : String) (mPreferCDATA : Bool)
    (attributes : List VSettingsAttribute) (children : List VSettingsNode)
    (path value : String) (hE : VString.isEmpty path = false)
    (hplain : VString.endsWith (VSettings.splitPathFirst path).1 ']' = false) :
    VSettingsNode.setLiteralAt (fuel + 1)
        (VSettingsNode.tag mName mPreferCDATA attributes children) path value
      = match (if VString.isEmpty (VSettings.splitPathFirst path).2 then
            VSettingsTag.findAttribute attributes (VSettings.splitPathFirst path).1
          else none) with
        | some i =>
          match (attributes[i]?) with
          | some a =>
            Outcome.returned (some (VSettingsNode.tag mName mPreferCDATA
              (attributes.set i { a with mHasValue := true, mValue := value })
              children))
          | none => Outcome.returned none
        | none =>
          match (firstNamed (VSettings.splitPathFirst path).1 (nodeNames children)).bind
              (fun j => (children[j]?).map (fun c => (j, c))) with
          | some (j, child) =>
            match VSettingsNode.setLiteralAt fuel child
                (VSettings.splitPathFirst path).2 value with
            | Outcome.returned (some child1) =>
              Outcome.returned (some (VSettingsNode.tag mName mPreferCDATA attributes
                (children.set j child1)))
            | Outcome.returned none => Outcome.returned none
            | Outcome.raised => Outcome.raised
            | Outcome.outOfFuel => Outcome.outOfFuel
          | none => Outcome.returned none := by
  simp only [VSettingsNode.setLiteralAt, hE, Bool.false_eq_true, if_false,
    findChildTag_plain _ _ _ hplain]
  cases hattr : (if VString.isEmpty (VSettings.splitPathFirst path).2 then
      VSettingsTag.findAttribute attributes (VSettings.splitPathFirst path).1
    else none) with
  | some i => rfl
  | none =>
    cases hf : firstNamed (VSettings.splitPathFirst path).1 (nodeNames children) with
    | none => rfl
    | some j =>
      obtain ⟨child, hc, _⟩ := firstNamed_child _ _ _ hf
      simp only [Option.map, Option.bind, derefChild, hc, storeChild]

/-- On a CDATA node or an attribute `findMutableNode` gives `NULL` for a path that is
not empty. -/
theorem setLiteralAt_not_tag (fuel : Nat) (self : VSettingsNode) (path value : String)
    (hE : VString.isEmpty path = false)
    (hself : ∀ n p a c, self ≠ VSettingsNode.tag n p a c) :
    VSettingsNode.setLiteralAt (fuel + 1) self path value = Outcome.returned none := by
  cases self with
  | tag n p a c => exact absurd rfl (hself n p a c)
  | cdata s => simp [VSettingsNode.setLiteralAt, hE]
  | attr a => simp [VSettingsNode.setLiteralAt, hE]

/-- A path for which `isEmpty` holds is the empty string. -/
theorem isEmpty_true_eq (s : String) (h : VString.isEmpty s = true) : s = "" := by
  cases hE : VString.isEmpty s with
  | true =>
    by_contra hne
    have := (isEmpty_false_iff s).mpr hne
    rw [hE] at this
    cases this
  | false => rw [h] at hE; cases hE

/-- Replacing a child node by a node with the same name keeps the names of the
vector, and the new node stands at the position. -/
theorem nodeNames_set (children : List VSettingsNode) (j : Nat)
    (child child1 : VSettingsNode) (hc : children[j]? = some child)
    (hn : child1.getName = child.getName) :
    nodeNames (children.set j child1) = nodeNames children ∧
    (children.set j child1)[j]? = some child1 := by
  have hj : j < children.length := (List.getElem?_eq_some.mp hc).1
  have hcj : children[j] = child := by
    have := (List.getElem?_eq_some.mp hc).2
    simpa using this
  constructor
  · simp only [nodeNames, List.map_set]
    apply List.ext_getElem
    · simp
    · intro n h1 h2
      by_cases hnj : j = n
      · subst hnj
        simp [hn, hcj]
      · simp [List.getElem_set_ne hnj]
  · simp [hj]

/-- Replacing the value of an attribute keeps the names of the vector, and the new
attribute stands at the position. -/
theorem attributeNames_set (attributes : List VSettingsAttribute) (i : Nat)
    (a : VSettingsAttribute) (value : String) (ha : attributes[i]? = some a) :
    attributeNames (attributes.set i { a with mHasValue := true, mValue := value })
      = attributeNames attributes ∧
    (attributes.set i { a with mHasValue := true, mValue := value })[i]?
      = some { a with mHasValue := true, mValue := value } := by
  have hi : i < attributes.length := (List.getElem?_eq_some.mp ha).1
  have hai : attributes[i] = a := by
    have := (List.getElem?_eq_some.mp ha).2
    simpa using this
  constructor
  · simp only [attributeNames, List.map_set]
    apply List.ext_getElem
    · simp
    · intro n h1 h2
      by_cases hni : i = n
      · subst hni
        simp [hai]
      · simp [List.getElem_set_ne hni]
  · simp [hi]

/-- The attribute `_findAttribute` gives is in the vector and has the name. -/
theorem findAttribute_some (attributes : List VSettingsAttribute) (name : String)
    (i : Nat) (h : VSettingsTag.findAttribute attributes name = some i) :
    ∃ a, attributes[i]? = some a ∧ a.mName = name := by
  have hn := firstNamed_some name (attributeNames attributes) i h
  simp only [attributeNames, List.getElem?_map] at hn
  cases ha : (attributes[i]?) with
  | none => simp [ha] at hn
  | some a =>
    refine ⟨a, by simp [ha], ?_⟩
    simpa [ha] using hn

/-- A position paired with the element it holds comes from that position and that
element. -/
theorem bind_pair_some {α : Type} (o : Option Nat) (l : List α) (j : Nat) (x : α)
    (h : o.bind (fun j => (l[j]?).map (fun c => (j, c))) = some (j, x)) :
    o = some j ∧ l[j]? = some x := by
  cases o with
  | none => simp at h
  | some k =>
    simp only [Option.bind] at h
    cases hk : (l[k]?) with
    | none => simp [hk] at h
    | some y =>
      simp only [hk, Option.map, Option.some.injEq, Prod.mk.injEq] at h
      obtain ⟨h1, h2⟩ := h
      subst h1
      subst h2
      exact ⟨rfl, hk⟩

/-- The first component of a path is looked up as an attribute only when it is the
last one. -/
theorem attribute_lookup_some (attributes : List VSettingsAttribute)
    (next remainder : String) (i : Nat)
    (h : (if VString.isEmpty remainder then VSettingsTag.findAttribute attributes next
      else none) = some i) :
    VString.isEmpty remainder = true ∧
    VSettingsTag.findAttribute attributes next = some i := by
  by_cases hr : VString.isEmpty remainder = true
  · simp only [hr, if_true] at h
    exact ⟨hr, h⟩
  · simp [hr] at h

/-- On a path without brackets, after `findMutableNode(path)` gave a node and `setLiteral(value)`
on it returned, `findNode(path)` gives a node whose string value is `value`; the
receiver keeps its name. -/
theorem setLiteralAt_then_findNode :
    ∀ (fuel : Nat) (self : VSettingsNode) (path value : String) (self1 : VSettingsNode),
      noBrackets path = true →
      VSettingsNode.setLiteralAt fuel self path value = Outcome.returned (some self1) →
      self1.getName = self.getName ∧
      ∃ node, VSettingsNode.findNode fuel self1 path = Outcome.returned (some node) ∧
        node.getStringValue = value := by
  intro fuel
  induction fuel with
  | zero =>
    intro self path value self1 _ h
    simp [VSettingsNode.setLiteralAt] at h
  | succ fuel ih =>
    intro self path value self1 hp h
    by_cases hE : VString.isEmpty path = true
    · have hpath := isEmpty_true_eq path hE
      subst hpath
      rw [setLiteralAt_empty_path] at h
      cases hs : self.setLiteral value with
      | none => simp [hs] at h
      | some s1 =>
        simp only [hs, Outcome.returned.injEq, Option.some.injEq] at h
        subst h
        obtain ⟨h1, h2⟩ := setLiteral_then_getStringValue self value s1 hs
        exact ⟨h2, s1, findNode_empty_path fuel s1, h1⟩
    · have hE2 : VString.isEmpty path = false := by simpa using hE
      obtain ⟨hpl, hprem, _⟩ := splitPathFirst_noBrackets path hp
      cases self with
      | cdata s =>
        rw [setLiteralAt_not_tag fuel _ path value hE2 (by intro n p a c e; cases e)] at h
        simp at h
      | attr a =>
        rw [setLiteralAt_not_tag fuel _ path value hE2 (by intro n p a c e; cases e)] at h
        simp at h
      | tag n pc attrs children =>
        rw [setLiteralAt_tag_step fuel n pc attrs children path value hE2 hpl] at h
        cases hattr : (if VString.isEmpty (VSettings.splitPathFirst path).2 then
            VSettingsTag.findAttribute attrs (VSettings.splitPathFirst path).1
          else none) with
        | some i =>
          simp only [hattr] at h
          obtain ⟨hrem, hfa⟩ := attribute_lookup_some _ _ _ _ hattr
          obtain ⟨a, ha, _⟩ := findAttribute_some attrs _ i hfa
          simp only [ha, Outcome.returned.injEq, Option.some.injEq] at h
          subst h
          obtain ⟨hnames, hgetset⟩ := attributeNames_set attrs i a value ha
          have hfa2 : VSettingsTag.findAttribute
              (attrs.set i { a with mHasValue := true, mValue := value })
              (VSettings.splitPathFirst path).1 = some i := by
            unfold VSettingsTag.findAttribute
            rw [hnames]
            exact hfa
          refine ⟨rfl, VSettingsNode.attr { a with mHasValue := true, mValue := value },
            ?_, rfl⟩
          rw [findNode_tag_step fuel n pc _ children path hE2 hpl]
          simp only [hrem, if_true, hfa2, hgetset, Option.map]
        | none =>
          simp only [hattr] at h
          cases hf : (firstNamed (VSettings.splitPathFirst path).1
              (nodeNames children)).bind
              (fun j => (children[j]?).map (fun c => (j, c))) with
          | none => simp [hf] at h
          | some jc =>
            obtain ⟨j, child⟩ := jc
            simp only [hf] at h
            obtain ⟨hfj, hcj⟩ := bind_pair_some _ _ _ _ hf
            cases hsub : VSettingsNode.setLiteralAt fuel child
                (VSettings.splitPathFirst path).2 value with
            | returned r =>
              cases r with
              | none => simp [hsub] at h
              | some child1 =>
                simp only [hsub, Outcome.returned.injEq, Option.some.injEq] at h
                subst h
                obtain ⟨hn1, node, hfind, hval⟩ := ih child _ value child1 hprem hsub
                obtain ⟨hnames, hgetset⟩ := nodeNames_set children j child child1 hcj hn1
                refine ⟨rfl, node, ?_, hval⟩
                rw [findNode_tag_step fuel n pc attrs _ path hE2 hpl]
                simp only [hattr, hnames, hfj, Option.bind, hgetset, hfind]
            | raised => simp [hsub] at h
            | outOfFuel => simp [hsub] at h

/-- On a path without brackets, when `findMutableNode(path)` gives `NULL`, so does
`findNode(path)`. -/
theorem setLiteralAt_none_findNode :
    ∀ (fuel : Nat) (self : VSettingsNode) (path value : String),
      noBrackets path = true →
      VSettingsNode.setLiteralAt fuel self path value = Outcome.returned none →
      VSettingsNode.findNode fuel self path = Outcome.returned none := by
  intro fuel
  induction fuel with
  | zero =>
    intro self path value _ h
    simp [VSettingsNode.setLiteralAt] at h
  | succ fuel ih =>
    intro self path value hp h
    by_cases hE : VString.isEmpty path = true
    · have hpath := isEmpty_true_eq path hE
      subst hpath
      rw [setLiteralAt_empty_path] at h
      cases hs : self.setLiteral value <;> simp [hs] at h
    · have hE2 : VString.isEmpty path = false := by simpa using hE
      obtain ⟨hpl, hprem, _⟩ := splitPathFirst_noBrackets path hp
      cases self with
      | cdata s => exact findNode_not_tag fuel _ path hE2 (by intro n p a c e; cases e)
      | attr a => exact findNode_not_tag fuel _ path hE2 (by intro n p a c e; cases e)
      | tag n pc attrs children =>
        rw [setLiteralAt_tag_step fuel n pc attrs children path value hE2 hpl] at h
        rw [findNode_tag_step fuel n pc attrs children path hE2 hpl]
        cases hattr : (if VString.isEmpty (VSettings.splitPathFirst path).2 then
            VSettingsTag.findAttribute attrs (VSettings.splitPathFirst path).1
          else none) with
        | some i =>
          simp only [hattr] at h
          obtain ⟨_, hfa⟩ := attribute_lookup_some _ _ _ _ hattr
          obtain ⟨a, ha, _⟩ := findAttribute_some attrs _ i hfa
          simp [ha] at h
        | none =>
          simp only [hattr] at h ⊢
          cases hfn : firstNamed (VSettings.splitPathFirst path).1 (nodeNames children) with
          | none => simp only [Option.bind]
          | some j =>
            obtain ⟨child, hcj, _⟩ := firstNamed_child _ _ _ hfn
            simp only [hfn, Option.bind, hcj, Option.map] at h ⊢
            cases hsub : VSettingsNode.setLiteralAt fuel child
                (VSettings.splitPathFirst path).2 value with
            | returned r =>
              cases r with
              | none => exact ih child _ value hprem hsub
              | some child1 => simp [hsub] at h
            | raised => simp [hsub] at h
            | outOfFuel => simp [hsub] at h

/-- When no position is paired with a child node, no child node has the name. -/
theorem firstNamed_pair_none (name : String) (children : List VSettingsNode)
    (h : (firstNamed name (nodeNames children)).bind
      (fun j => (children[j]?).map (fun c => (j, c))) = none) :
    firstNamed name (nodeNames children) = none := by
  cases hf : firstNamed name (nodeNames children) with
  | none => rfl
  | some j =>
    obtain ⟨child, hc, _⟩ := firstNamed_child _ _ _ hf
    simp [hf, hc] at h

/-- When no position is paired with an attribute, no attribute has the name. -/
theorem findAttribute_pair_none (attributes : List VSettingsAttribute) (name : String)
    (h : (VSettingsTag.findAttribute attributes name).bind
      (fun i => (attributes[i]?).map (fun a => (i, a))) = none) :
    VSettingsTag.findAttribute attributes name = none := by
  cases hf : VSettingsTag.findAttribute attributes name with
  | none => rfl
  | some i =>
    obtain ⟨a, ha, _⟩ := findAttribute_some _ _ _ hf
    simp [hf, ha] at h

/-- The function `tagNameOf` keeps a name that does not end in ']'. -/
theorem tagNameOf_plain (name : String) (h : VString.endsWith name ']' = false) :
    tagNameOf name = name := by
  simp [tagNameOf, h]

/-- In a tag without attributes and child nodes `findNode` finds nothing for a path
that is not empty and has no brackets. -/
theorem findNode_empty_tag (fuel : Nat) (mName : String) (mPreferCDATA : Bool)
    (path : String) (hE : VString.isEmpty path = false) (hb : noBrackets path = true) :
    VSettingsNode.findNode (fuel + 1) (VSettingsNode.tag mName mPreferCDATA [] []) path
      = Outcome.returned none := by
  rw [findNode_tag_step fuel mName mPreferCDATA [] [] path hE
    (splitPathFirst_noBrackets path hb).1]
  simp [VSettingsTag.findAttribute, attributeNames, nodeNames, firstNamed]

/-- In the tag that takes the place of an attribute `findNode` finds nothing for a
path that is not empty, has no brackets, and whose first component is not
"<cdata>". -/
theorem findNode_new_tag (defaultPreferCDATA : Bool) (fuel : Nat) (name x path : String)
    (hE : VString.isEmpty path = false) (hb : noBrackets path = true)
    (hc : (VSettings.splitPathFirst path).1 ≠ "<cdata>") :
    VSettingsNode.findNode (fuel + 1) (newTagWithCDATA defaultPreferCDATA name x) path
      = Outcome.returned none := by
  unfold newTagWithCDATA
  rw [findNode_tag_step fuel name defaultPreferCDATA [] _ path hE
    (splitPathFirst_noBrackets path hb).1]
  have hc2 : ¬ ("<cdata>" = (VSettings.splitPathFirst path).1) := fun e => hc e.symm
  simp [VSettingsTag.findAttribute, attributeNames, nodeNames, firstNamed,
    VSettingsNode.getName, hc2]

/-- The remainder of a path is empty when the path is. -/
theorem splitPathFirst_empty : VSettings.splitPathFirst "" = ("", "") := by
  decide

/-- After `add(path, true, value)` returned on a node where `findNode(path)` gave
`NULL`, `findNode(path)` gives a node whose string value is `value`, and the receiver
keeps its name.  The path has no brackets and, when new tags prefer CDATA, no
component "<cdata>". -/
theorem add_then_findNode (defaultPreferCDATA : Bool) :
    ∀ (fuel : Nat) (self : VSettingsNode) (path value : String) (self1 : VSettingsNode),
      noBrackets path = true →
      (defaultPreferCDATA = true → noCDATAComponent path = true) →
      VSettingsNode.findNode fuel self path = Outcome.returned none →
      VSettingsNode.add defaultPreferCDATA fuel self path true value
        = Outcome.returned self1 →
      self1.getName = self.getName ∧
      ∃ node, VSettingsNode.findNode (fuel + 1) self1 path
          = Outcome.returned (some node) ∧
        node.getStringValue = value := by
  intro fuel
  induction fuel with
  | zero =>
    intro self path value self1 _ _ _ h
    simp [VSettingsNode.add] at h
  | succ fuel ih =>
    intro self path value self1 hb hcd hnone hadd
    by_cases hE : VString.isEmpty path = true
    · have hpath := isEmpty_true_eq path hE
      subst hpath
      rw [findNode_empty_path] at hnone
      simp at hnone
    · have hE2 : VString.isEmpty path = false := by simpa using hE
      obtain ⟨hpl, hbrem, _⟩ := splitPathFirst_noBrackets path hb
      cases self with
      | cdata s =>
        rw [add_not_tag defaultPreferCDATA fuel _ path true value
          (by intro n p a c e; cases e)] at hadd
        simp at hadd
      | attr a =>
        rw [add_not_tag defaultPreferCDATA fuel _ path true value
          (by intro n p a c e; cases e)] at hadd
        simp at hadd
      | tag n pc attrs children =>
        rw [add_tag_step defaultPreferCDATA fuel n pc attrs children path true value
          hpl] at hadd
        rw [findNode_tag_step fuel n pc attrs children path hE2 hpl] at hnone
        by_cases hR : VString.isEmpty (VSettings.splitPathFirst path).2 = true
        · simp only [hR, if_true, Outcome.returned.injEq] at hadd hnone
          subst hadd
          have hrem := isEmpty_true_eq _ hR
          cases hfa : VSettingsTag.findAttribute attrs (VSettings.splitPathFirst path).1 with
          | some i =>
            obtain ⟨a, ha, _⟩ := findAttribute_some attrs _ i hfa
            simp [hfa, ha] at hnone
          | none =>
            simp only [hfa] at hnone
            cases hfn : firstNamed (VSettings.splitPathFirst path).1 (nodeNames children) with
            | some j =>
              obtain ⟨child, hcj, _⟩ := firstNamed_child _ _ _ hfn
              simp only [hfn, Option.bind, hcj, hrem] at hnone
              cases fuel with
              | zero => simp [VSettingsNode.findNode] at hnone
              | succ k =>
                rw [findNode_empty_path] at hnone
                simp at hnone
            | none =>
              have hnot := (firstNamed_none _ _).mp hfn
              refine ⟨rfl, ?_⟩
              rw [findNode_tag_step (fuel + 1) n pc _ _ path hE2 hpl]
              simp only [hR, if_true]
              cases pc with
              | true =>
                simp only [VSettingsTag.addLeafValue, if_true, hfa]
                rw [(firstNamed_new_child (VSettings.splitPathFirst path).1 children
                  (newTagWithCDATA defaultPreferCDATA (VSettings.splitPathFirst path).1
                    value) (by rfl) hnot).1]
                refine ⟨_, by rw [hrem]; exact findNode_empty_path fuel _, ?_⟩
                simp [newTagWithCDATA, VSettingsNode.getStringValue, firstCDATAValue,
                  VSettingsNode.getName]
              | false =>
                simp only [VSettingsTag.addLeafValue, if_true, Bool.false_eq_true,
                  if_false]
                have hnota := (firstNamed_none _ _).mp hfa
                have hat := firstNamed_at (VSettings.splitPathFirst path).1
                  (attributeNames attrs) [] hnota
                have hnames : attributeNames (attrs ++
                    [{ mName := (VSettings.splitPathFirst path).1, mHasValue := true,
                       mValue := value }])
                    = attributeNames attrs ++ [(VSettings.splitPathFirst path).1] := by
                  simp [attributeNames]
                have hlen : (attributeNames attrs).length = attrs.length := by
                  simp [attributeNames]
                simp only [VSettingsTag.findAttribute, hnames, hat, hlen]
                rw [List.getElem?_append_right (Nat.le_refl _)]
                refine ⟨_, by simp; rfl, ?_⟩
                simp [VSettingsNode.getStringValue]
        · have hR2 : VString.isEmpty (VSettings.splitPathFirst path).2 = false := by
            simpa using hR
          have hcdrem : defaultPreferCDATA = true →
              noCDATAComponent (VSettings.splitPathFirst path).2 = true :=
            fun hD => (splitPathFirst_noCDATA path (hcd hD)).2
          simp only [hR2, Bool.false_eq_true, if_false] at hadd hnone
          cases hf : (firstNamed (VSettings.splitPathFirst path).1
              (nodeNames children)).bind
              (fun j => (children[j]?).map (fun c => (j, c))) with
          | some jc =>
            obtain ⟨j, child⟩ := jc
            obtain ⟨hfj, hcj⟩ := bind_pair_some _ _ _ _ hf
            simp only [hf] at hadd
            simp only [hfj, Option.bind, hcj] at hnone
            cases hsub : VSettingsNode.add defaultPreferCDATA fuel child
                (VSettings.splitPathFirst path).2 true value with
            | returned child1 =>
              simp only [hsub, Outcome.returned.injEq] at hadd
              subst hadd
              obtain ⟨hn1, node, hfind, hval⟩ :=
                ih child _ value child1 hbrem hcdrem hnone hsub
              obtain ⟨hnames, hgetset⟩ := nodeNames_set children j child child1 hcj hn1
              refine ⟨rfl, node, ?_, hval⟩
              rw [findNode_tag_step (fuel + 1) n pc attrs _ path hE2 hpl]
              simp only [hR2, Bool.false_eq_true, if_false, hnames, hfj, Option.bind,
                hgetset, hfind]
            | raised => simp [hsub] at hadd
            | outOfFuel => simp [hsub] at hadd
          | none =>
            have hfn := firstNamed_pair_none _ _ hf
            have hnot := (firstNamed_none _ _).mp hfn
            simp only [hf] at hadd
            have hstep : ∀ (attrs1 : List VSettingsAttribute) (child1 : VSettingsNode),
                child1.getName = (VSettings.splitPathFirst path).1 →
                (∃ node, VSettingsNode.findNode (fuel + 1) child1
                    (VSettings.splitPathFirst path).2 = Outcome.returned (some node) ∧
                  node.getStringValue = value) →
                ∃ node, VSettingsNode.findNode (fuel + 1 + 1)
                    (VSettingsNode.tag n pc attrs1 (children ++ [child1])) path
                    = Outcome.returned (some node) ∧
                  node.getStringValue = value := by
              intro attrs1 child1 hn1 hex
              obtain ⟨node, hfind, hval⟩ := hex
              refine ⟨node, ?_, hval⟩
              rw [findNode_tag_step (fuel + 1) n pc attrs1 _ path hE2 hpl]
              simp only [hR2, Bool.false_eq_true, if_false]
              rw [(firstNamed_new_child (VSettings.splitPathFirst path).1 children
                child1 hn1 hnot).1]
              exact hfind
            cases fuel with
            | zero =>
              simp only [VSettingsNode.add] at hadd
              split at hadd <;> cases hadd
            | succ k =>
              cases hfa : (VSettingsTag.findAttribute attrs
                  (VSettings.splitPathFirst path).1).bind
                  (fun i => (attrs[i]?).map (fun a => (i, a))) with
              | some ia =>
                obtain ⟨i, found⟩ := ia
                simp only [hfa] at hadd
                cases hsub : VSettingsNode.add defaultPreferCDATA (k + 1)
                    (newTagWithCDATA defaultPreferCDATA (VSettings.splitPathFirst path).1
                      found.mValue)
                    (VSettings.splitPathFirst path).2 true value with
                | returned child1 =>
                  simp only [hsub, Outcome.returned.injEq] at hadd
                  subst hadd
                  refine ⟨rfl, ?_⟩
                  by_cases hc1 : (VSettings.splitPathFirst
                      (VSettings.splitPathFirst path).2).1 = "<cdata>"
                  · have hD : defaultPreferCDATA = false := by
                      cases hDD : defaultPreferCDATA with
                      | false => rfl
                      | true =>
                        exact absurd hc1 (splitPathFirst_noCDATA _ (hcdrem hDD)).1
                    obtain ⟨hpl2, hbrem2, _⟩ := splitPathFirst_noBrackets _ hbrem
                    unfold newTagWithCDATA at hsub
                    rw [add_tag_step defaultPreferCDATA k _ _ [] _ _ true value hpl2]
                      at hsub
                    by_cases hR3 : VString.isEmpty (VSettings.splitPathFirst
                        (VSettings.splitPathFirst path).2).2 = true
                    · simp only [hR3, if_true, Outcome.returned.injEq, hD,
                        VSettingsTag.addLeafValue, Bool.false_eq_true, if_false,
                        List.nil_append] at hsub
                      subst hsub
                      refine hstep _ _ ?_ ?_
                      · rfl
                      · refine ⟨VSettingsNode.attr (VSettingsAttribute.mk
                          (VSettings.splitPathFirst (VSettings.splitPathFirst path).2).1
                          true value), ?_, rfl⟩
                        rw [findNode_tag_step (k + 1) _ _ _ _ _ hR2 hpl2]
                        simp [hR3, VSettingsTag.findAttribute, attributeNames, firstNamed]
                    · simp only [hR3, Bool.false_eq_true, if_false, hc1, nodeNames,
                        List.map, VSettingsNode.getName, firstNamed, beq_self_eq_true,
                        if_true, Option.bind, List.getElem?_cons_zero, Option.map]
                        at hsub
                      cases k with
                      | zero => simp [VSettingsNode.add] at hsub
                      | succ m =>
                        rw [add_not_tag defaultPreferCDATA m _ _ true value
                          (by intro n p a c e; cases e)] at hsub
                        simp at hsub
                  · have hnone2 := findNode_new_tag defaultPreferCDATA k
                      (VSettings.splitPathFirst path).1 found.mValue _ hR2 hbrem hc1
                    obtain ⟨hn1, hex⟩ := ih _ _ value child1 hbrem hcdrem hnone2 hsub
                    exact hstep _ child1 (by rw [hn1]; rfl) hex
                | raised => simp [hsub] at hadd
                | outOfFuel => simp [hsub] at hadd
              | none =>
                simp only [hfa] at hadd
                rw [tagNameOf_plain _ hpl] at hadd
                cases hsub : VSettingsNode.add defaultPreferCDATA (k + 1)
                    (VSettingsNode.tag (VSettings.splitPathFirst path).1
                      defaultPreferCDATA [] [])
                    (VSettings.splitPathFirst path).2 true value with
                | returned child1 =>
                  simp only [hsub, Outcome.returned.injEq] at hadd
                  subst hadd
                  have hnone2 := findNode_empty_tag k (VSettings.splitPathFirst path).1
                    defaultPreferCDATA _ hR2 hbrem
                  obtain ⟨hn1, hex⟩ := ih _ _ value child1 hbrem hcdrem hnone2 hsub
                  exact ⟨rfl, hstep _ child1 (by rw [hn1]; rfl) hex⟩
                | raised => simp [hsub] at hadd
                | outOfFuel => simp [hsub] at hadd

/-! ## Enough fuel -/

/-- The remainder `splitPathFirst` gives is not longer than the path. -/
theorem splitPathFirst_remainder_le (path : String) (h : noBrackets path = true) :
    (VSettings.splitPathFirst path).2.data.length ≤ path.data.length := by
  by_cases hE : VString.isEmpty path = true
  · rw [isEmpty_true_eq path hE, splitPathFirst_empty]
  · exact Nat.le_of_lt ((splitPathFirst_noBrackets path h).2.2 (by simpa using hE))

/-- With more fuel than the path has characters, one more unit of fuel does not
change what `findNode` gives. -/
theorem findNode_fuel_succ :
    ∀ (fuel : Nat) (self : VSettingsNode) (path : String),
      noBrackets path = true → path.data.length < fuel →
      VSettingsNode.findNode (fuel + 1) self path
        = VSettingsNode.findNode fuel self path := by
  intro fuel
  induction fuel with
  | zero => intro self path _ h; omega
  | succ fuel ih =>
    intro self path hb hlen
    by_cases hE : VString.isEmpty path = true
    · rw [isEmpty_true_eq path hE, findNode_empty_path, findNode_empty_path]
    · have hE2 : VString.isEmpty path = false := by simpa using hE
      obtain ⟨hpl, hbrem, hshort⟩ := splitPathFirst_noBrackets path hb
      have hlen2 := hshort hE2
      cases self with
      | cdata s =>
        rw [findNode_not_tag _ _ path hE2 (by intro n p a c e; cases e),
          findNode_not_tag _ _ path hE2 (by intro n p a c e; cases e)]
      | attr a =>
        rw [findNode_not_tag _ _ path hE2 (by intro n p a c e; cases e),
          findNode_not_tag _ _ path hE2 (by intro n p a c e; cases e)]
      | tag n pc attrs children =>
        rw [findNode_tag_step (fuel + 1) n pc attrs children path hE2 hpl,
          findNode_tag_step fuel n pc attrs children path hE2 hpl]
        cases hattr : (if VString.isEmpty (VSettings.splitPathFirst path).2 then
            VSettingsTag.findAttribute attrs (VSettings.splitPathFirst path).1
          else none) with
        | some i => rfl
        | none =>
          cases hf : (firstNamed (VSettings.splitPathFirst path).1
              (nodeNames children)).bind (fun j => children[j]?) with
          | none => rfl
          | some child =>
            exact ih child _ hbrem (by omega)

/-- With more fuel than the path has characters, `findMutableNode` followed by
`setLiteral` does not run out of fuel. -/
theorem setLiteralAt_enough_fuel :
    ∀ (fuel : Nat) (self : VSettingsNode) (path value : String),
      noBrackets path = true → path.data.length < fuel →
      VSettingsNode.setLiteralAt fuel self path value ≠ Outcome.outOfFuel := by
  intro fuel
  induction fuel with
  | zero => intro self path value _ h; omega
  | succ fuel ih =>
    intro self path value hb hlen
    by_cases hE : VString.isEmpty path = true
    · rw [isEmpty_true_eq path hE, setLiteralAt_empty_path]
      cases self.setLiteral value <;> simp
    · have hE2 : VString.isEmpty path = false := by simpa using hE
      obtain ⟨hpl, hbrem, hshort⟩ := splitPathFirst_noBrackets path hb
      have hlen2 := hshort hE2
      cases self with
      | cdata s =>
        rw [setLiteralAt_not_tag _ _ path value hE2 (by intro n p a c e; cases e)]
        simp
      | attr a =>
        rw [setLiteralAt_not_tag _ _ path value hE2 (by intro n p a c e; cases e)]
        simp
      | tag n pc attrs children =>
        rw [setLiteralAt_tag_step fuel n pc attrs children path value hE2 hpl]
        cases hattr : (if VString.isEmpty (VSettings.splitPathFirst path).2 then
            VSettingsTag.findAttribute attrs (VSettings.splitPathFirst path).1
          else none) with
        | some i =>
          show (match (attrs[i]?) with
            | some a => Outcome.returned (some (VSettingsNode.tag n pc
                (attrs.set i { a with mHasValue := true, mValue := value }) children))
            | none => Outcome.returned none) ≠ Outcome.outOfFuel
          split <;> simp
        | none =>
          cases hf : (firstNamed (VSettings.splitPathFirst path).1
              (nodeNames children)).bind
              (fun j => (children[j]?).map (fun c => (j, c))) with
          | none => simp
          | some jc =>
            obtain ⟨j, child⟩ := jc
            have hsub := ih child (VSettings.splitPathFirst path).2 value hbrem
              (by omega)
            cases hs : VSettingsNode.setLiteralAt fuel child
                (VSettings.splitPathFirst path).2 value with
            | returned r => cases r <;> simp [hs]
            | raised => simp [hs]
            | outOfFuel => exact absurd hs hsub

/-- With more fuel than the path has characters, `add` does not run out of fuel. -/
theorem add_enough_fuel (defaultPreferCDATA : Bool) :
    ∀ (fuel : Nat) (self : VSettingsNode) (path : String) (hasValue : Bool)
      (value : String),
      noBrackets path = true → path.data.length < fuel →
      VSettingsNode.add defaultPreferCDATA fuel self path hasValue value
        ≠ Outcome.outOfFuel := by
  intro fuel
  induction fuel with
  | zero => intro self path hasValue value _ h; omega
  | succ fuel ih =>
    intro self path hasValue value hb hlen
    obtain ⟨hpl, hbrem, hshort⟩ := splitPathFirst_noBrackets path hb
    cases self with
    | cdata s =>
      rw [add_not_tag defaultPreferCDATA fuel _ path hasValue value
        (by intro n p a c e; cases e)]
      simp
    | attr a =>
      rw [add_not_tag defaultPreferCDATA fuel _ path hasValue value
        (by intro n p a c e; cases e)]
      simp
    | tag n pc attrs children =>
      rw [add_tag_step defaultPreferCDATA fuel n pc attrs children path hasValue value
        hpl]
      by_cases hR : VString.isEmpty (VSettings.splitPathFirst path).2 = true
      · simp [hR]
      · have hR2 : VString.isEmpty (VSettings.splitPathFirst path).2 = false := by
          simpa using hR
        have hE2 : VString.isEmpty path = false := by
          cases hE : VString.isEmpty path with
          | false => rfl
          | true =>
            rw [isEmpty_true_eq path hE, splitPathFirst_empty] at hR2
            exact absurd hR2 (by decide)
        have hlen2 := hshort hE2
        have hrec : ∀ node, VSettingsNode.add defaultPreferCDATA fuel node
            (VSettings.splitPathFirst path).2 hasValue value ≠ Outcome.outOfFuel :=
          fun node => ih node _ hasValue value hbrem (by omega)
        simp only [hR2, Bool.false_eq_true, if_false]
        cases hf : (firstNamed (VSettings.splitPathFirst path).1
            (nodeNames children)).bind
            (fun j => (children[j]?).map (fun c => (j, c))) with
        | some jc =>
          obtain ⟨j, child⟩ := jc
          have hsub := hrec child
          cases hs : VSettingsNode.add defaultPreferCDATA fuel child
              (VSettings.splitPathFirst path).2 hasValue value with
          | returned r => simp [hs]
          | raised => simp [hs]
          | outOfFuel => exact absurd hs hsub
        | none =>
          cases hfa : (VSettingsTag.findAttribute attrs
              (VSettings.splitPathFirst path).1).bind
              (fun i => (attrs[i]?).map (fun a => (i, a))) with
          | some ia =>
            obtain ⟨i, found⟩ := ia
            have hsub := hrec (newTagWithCDATA defaultPreferCDATA
              (VSettings.splitPathFirst path).1 found.mValue)
            cases hs : VSettingsNode.add defaultPreferCDATA fuel
                (newTagWithCDATA defaultPreferCDATA (VSettings.splitPathFirst path).1
                  found.mValue)
                (VSettings.splitPathFirst path).2 hasValue value with
            | returned r => simp [hs]
            | raised => simp [hs]
            | outOfFuel => exact absurd hs hsub
          | none =>
            have hsub := hrec (VSettingsNode.tag
              (tagNameOf (VSettings.splitPathFirst path).1) defaultPreferCDATA [] [])
            cases hs : VSettingsNode.add defaultPreferCDATA fuel
                (VSettingsNode.tag (tagNameOf (VSettings.splitPathFirst path).1)
                  defaultPreferCDATA [] [])
                (VSettings.splitPathFirst path).2 hasValue value with
            | returned r => simp [hs]
            | raised => simp [hs]
            | outOfFuel => exact absurd hs hsub

/-- What `nodeExists` and `getString` give on top-level settings whose first node
named after the first component of the path leads to a node with the value. -/
theorem top_level_found (fuel : Nat) (s1 : VSettings) (path v : String)
    (child1 node : VSettingsNode)
    (hchild : (firstNamed (VSettings.splitPathFirst path).1 (nodeNames s1.mNodes)).bind
      (fun j => s1.mNodes[j]?) = some child1)
    (hfind : VSettingsNode.findNode fuel child1 (VSettings.splitPathFirst path).2
      = Outcome.returned (some node))
    (hval : node.getStringValue = v) :
    VSettings.nodeExists fuel s1 path = Outcome.returned true ∧
    VSettings.getString fuel s1 path = Outcome.returned v := by
  simp [VSettings.nodeExists, VSettings.getString, VSettings.findNode,
    VSettings.findChildTag, hchild, hfind, hval]

/-! ## Setting a string value and reading it back -/

/-- C33 (as amended): for top-level settings, a path without '[' and ']' and, when new
tags are constructed preferring CDATA, without a component "<cdata>", and a string
`v`: with more fuel than the path has characters `setStringValue(path, v)` does not
run out of fuel, and when it returns, `nodeExists(path)` returns true and
`getString(path)` returns `v` on the settings it leaves. -/
theorem setStringValue_then_getString (defaultPreferCDATA : Bool) (fuel : Nat)
    (s : VSettings) (path v : String)
    (hbrackets : noBrackets path = true)
    (hcdata : defaultPreferCDATA = true → noCDATAComponent path = true)
    (hfuel : path.data.length < fuel) :
    VSettings.setStringValue defaultPreferCDATA fuel s path v ≠ Outcome.outOfFuel ∧
    ∀ s1, VSettings.setStringValue defaultPreferCDATA fuel s path v
        = Outcome.returned s1 →
      VSettings.nodeExists fuel s1 path = Outcome.returned true ∧
      VSettings.getString fuel s1 path = Outcome.returned v := by
  obtain ⟨hpl, hbrem, _⟩ := splitPathFirst_noBrackets path hbrackets
  have hlen : (VSettings.splitPathFirst path).2.data.length < fuel :=
    Nat.lt_of_le_of_lt (splitPathFirst_remainder_le path hbrackets) hfuel
  have hcdrem : defaultPreferCDATA = true →
      noCDATAComponent (VSettings.splitPathFirst path).2 = true :=
    fun hD => (splitPathFirst_noCDATA path (hcdata hD)).2
  obtain ⟨k, hk⟩ : ∃ k, fuel = k + 1 := ⟨fuel - 1, by omega⟩
  have hadd_fuel : ∀ node, VSettingsNode.add defaultPreferCDATA fuel node
      (VSettings.splitPathFirst path).2 true v ≠ Outcome.outOfFuel :=
    fun node => add_enough_fuel defaultPreferCDATA fuel node _ true v hbrem hlen
  have hback : ∀ (child1 node : VSettingsNode),
      VSettingsNode.findNode (fuel + 1) child1 (VSettings.splitPathFirst path).2
        = Outcome.returned (some node) →
      VSettingsNode.findNode fuel child1 (VSettings.splitPathFirst path).2
        = Outcome.returned (some node) := by
    intro child1 node h
    rw [← findNode_fuel_succ fuel child1 _ hbrem hlen]
    exact h
  unfold VSettings.setStringValue VSettings.setLiteralAt VSettings.add
  cases hf : (s.findChildTag (VSettings.splitPathFirst path).1).bind
      (fun j => (s.mNodes[j]?).map (fun c => (j, c))) with
  | some jc =>
    obtain ⟨j, child⟩ := jc
    simp only [hf]
    obtain ⟨hfj, hcj⟩ := bind_pair_some _ _ _ _ hf
    have hfj2 : firstNamed (VSettings.splitPathFirst path).1 (nodeNames s.mNodes)
        = some j := hfj
    have hset_fuel := setLiteralAt_enough_fuel fuel child _ v hbrem hlen
    have hfound : ∀ (child1 node : VSettingsNode),
        child1.getName = child.getName →
        VSettingsNode.findNode fuel child1 (VSettings.splitPathFirst path).2
          = Outcome.returned (some node) →
        node.getStringValue = v →
        VSettings.nodeExists fuel { mNodes := s.mNodes.set j child1 } path
          = Outcome.returned true ∧
        VSettings.getString fuel { mNodes := s.mNodes.set j child1 } path
          = Outcome.returned v := by
      intro child1 node hn1 hfind hval
      obtain ⟨hnames, hgetset⟩ := nodeNames_set s.mNodes j child child1 hcj hn1
      apply top_level_found fuel _ path v child1 node _ hfind hval
      simp only [hnames, hfj2, Option.bind, hgetset]
    cases hsub : VSettingsNode.setLiteralAt fuel child
        (VSettings.splitPathFirst path).2 v with
    | returned r =>
      cases r with
      | some child1 =>
        simp only [hsub]
        refine ⟨by simp, ?_⟩
        intro s1 hs1
        simp only [Outcome.returned.injEq] at hs1
        subst hs1
        obtain ⟨hn1, node, hfind, hval⟩ :=
          setLiteralAt_then_findNode fuel child _ v child1 hbrem hsub
        exact hfound child1 node hn1 hfind hval
      | none =>
        simp only [hsub]
        by_cases hR : VString.isEmpty (VSettings.splitPathFirst path).2 = true
        · rw [isEmpty_true_eq _ hR, hk, setLiteralAt_empty_path] at hsub
          cases hsl : child.setLiteral v <;> simp [hsl] at hsub
        · have hR2 : VString.isEmpty (VSettings.splitPathFirst path).2 = false := by
            simpa using hR
          simp only [hR2, Bool.false_eq_true, if_false]
          have hnone := setLiteralAt_none_findNode fuel child _ v hbrem hsub
          cases hsa : VSettingsNode.add defaultPreferCDATA fuel child
              (VSettings.splitPathFirst path).2 true v with
          | returned child1 =>
            refine ⟨by simp, ?_⟩
            intro s1 hs1
            simp only [Outcome.returned.injEq] at hs1
            subst hs1
            obtain ⟨hn1, node, hfind, hval⟩ := add_then_findNode defaultPreferCDATA
              fuel child _ v child1 hbrem hcdrem hnone hsa
            exact hfound child1 node hn1 (hback child1 node hfind) hval
          | raised => simp
          | outOfFuel => exact absurd hsa (hadd_fuel child)
    | raised => simp [hsub]
    | outOfFuel => exact absurd hsub hset_fuel
  | none =>
    have hfn := firstNamed_pair_none (VSettings.splitPathFirst path).1 s.mNodes hf
    have hnot := (firstNamed_none _ _).mp hfn
    have hfound : ∀ (child1 node : VSettingsNode),
        child1.getName = (VSettings.splitPathFirst path).1 →
        VSettingsNode.findNode fuel child1 (VSettings.splitPathFirst path).2
          = Outcome.returned (some node) →
        node.getStringValue = v →
        VSettings.nodeExists fuel { mNodes := s.mNodes ++ [child1] } path
          = Outcome.returned true ∧
        VSettings.getString fuel { mNodes := s.mNodes ++ [child1] } path
          = Outcome.returned v := by
      intro child1 node hn1 hfind hval
      apply top_level_found fuel _ path v child1 node _ hfind hval
      exact (firstNamed_new_child (VSettings.splitPathFirst path).1 s.mNodes child1
        hn1 hnot).1
    simp only [hf, tagNameOf_plain _ hpl]
    by_cases hR : VString.isEmpty (VSettings.splitPathFirst path).2 = true
    · simp only [hR, if_true]
      refine ⟨by simp, ?_⟩
      intro s1 hs1
      simp only [Outcome.returned.injEq] at hs1
      subst hs1
      refine hfound _ (newTagWithCDATA defaultPreferCDATA
        (VSettings.splitPathFirst path).1 v) (by rfl) ?_ ?_
      · rw [isEmpty_true_eq _ hR, hk]
        exact findNode_empty_path k _
      · simp [newTagWithCDATA, VSettingsNode.getStringValue, firstCDATAValue,
          VSettingsNode.getName]
    · have hR2 : VString.isEmpty (VSettings.splitPathFirst path).2 = false := by
        simpa using hR
      simp only [hR2, Bool.false_eq_true, if_false]
      have hnone : VSettingsNode.findNode fuel
          (VSettingsNode.tag (VSettings.splitPathFirst path).1 defaultPreferCDATA [] [])
          (VSettings.splitPathFirst path).2 = Outcome.returned none := by
        rw [hk]
        exact findNode_empty_tag k _ _ _ hR2 hbrem
      cases hsa : VSettingsNode.add defaultPreferCDATA fuel
          (VSettingsNode.tag (VSettings.splitPathFirst path).1 defaultPreferCDATA [] [])
          (VSettings.splitPathFirst path).2 true v with
      | returned child1 =>
        refine ⟨by simp, ?_⟩
        intro s1 hs1
        simp only [Outcome.returned.injEq] at hs1
        subst hs1
        obtain ⟨hn1, node, hfind, hval⟩ := add_then_findNode defaultPreferCDATA
          fuel _ _ v child1 hbrem hcdrem hnone hsa
        exact hfound child1 node (by rw [hn1]; rfl) (hback child1 node hfind) hval
      | raised => simp
      | outOfFuel => exact absurd hsa (hadd_fuel _)

/-- C33 on the sample settings, where new tags prefer CDATA:
`setStringValue("r/a/b", "v")` turns the attribute `a` of `r` into a tag holding the
CDATA "x" and the child tag `b`; then `nodeExists("r/a/b")` returns true and
`getString("r/a/b")` returns "v". -/
theorem setStringValue_then_getString_witness :
    VSettings.setStringValue true 6 sampleSettings "r/a/b" "v"
      = Outcome.returned { mNodes := [VSettingsNode.tag "r" true []
          [VSettingsNode.tag "a" true []
            [VSettingsNode.cdata "x",
             VSettingsNode.tag "b" true [] [VSettingsNode.cdata "v"]]]] } ∧
    VSettings.nodeExists 6 { mNodes := [VSettingsNode.tag "r" true []
          [VSettingsNode.tag "a" true []
            [VSettingsNode.cdata "x",
             VSettingsNode.tag "b" true [] [VSettingsNode.cdata "v"]]]] } "r/a/b"
      = Outcome.returned true ∧
    VSettings.getString 6 { mNodes := [VSettingsNode.tag "r" true []
          [VSettingsNode.tag "a" true []
            [VSettingsNode.cdata "x",
             VSettingsNode.tag "b" true [] [VSettingsNode.cdata "v"]]]] } "r/a/b"
      = Outcome.returned "v" :=
  ⟨by rfl,
   (setStringValue_then_getString true 6 sampleSettings "r/a/b" "v" (by decide)
     (fun _ => by decide) (by decide)).2 _ (by rfl)⟩

/-- C33 fails on a path whose last component is "<cdata>" where new tags prefer CDATA:
on the sample settings `setStringValue("r/a/<cdata>", "v")` returns, having turned
the attribute `a` into a tag whose first child node is the CDATA "x" and whose
second is a new tag named "<cdata>" holding "v"; `nodeExists` returns true, and
`getString("r/a/<cdata>")` returns "x", the value of the first node named
"<cdata>". -/
theorem setStringValue_cdata_leaf_reads_old_value :
    noBrackets "r/a/<cdata>" = true ∧
    "r/a/<cdata>".data.length < 12 ∧
    VSettings.setStringValue true 12 sampleSettings "r/a/<cdata>" "v"
      = Outcome.returned { mNodes := [VSettingsNode.tag "r" true []
          [VSettingsNode.tag "a" true []
            [VSettingsNode.cdata "x",
             VSettingsNode.tag "<cdata>" true [] [VSettingsNode.cdata "v"]]]] } ∧
    VSettings.nodeExists 12 { mNodes := [VSettingsNode.tag "r" true []
          [VSettingsNode.tag "a" true []
            [VSettingsNode.cdata "x",
             VSettingsNode.tag "<cdata>" true [] [VSettingsNode.cdata "v"]]]] }
        "r/a/<cdata>"
      = Outcome.returned true ∧
    VSettings.getString 12 { mNodes := [VSettingsNode.tag "r" true []
          [VSettingsNode.tag "a" true []
            [VSettingsNode.cdata "x",
             VSettingsNode.tag "<cdata>" true [] [VSettingsNode.cdata "v"]]]] }
        "r/a/<cdata>"
      = Outcome.returned "x" :=
  ⟨by decide, by decide, by rfl, by decide, by decide⟩

end CodeVault
